import Mathlib

/-! # HelloVulkan: frame pacing and presentation synchronisation

A shallow embedding of the frame loop of `src/Core/Renderer.cpp`
(`InitPerFrameData`, `CreateSwapchain`, `NextImage`, `Update`, `Render`,
`Present`) together with theorems about it.

* Driver handles (`VkFence`, `VkSemaphore`, ...) are natural numbers; `0` is
  `nullptr` / `VK_NULL_HANDLE`.
* `VkResult` is the integer value of the Vulkan enumeration.
* Every answer of the Vulkan driver that the code reads is an explicit argument
  of the embedded function (the `...Device` structures), so a theorem that
  quantifies over them holds for every behaviour of the device.
* Every embedded function returns a `Step`: the renderer state it leaves, the
  calls it made in program order (`Effect`), and how it ended (`Outcome`):
  a normal return, an exception thrown by `ASSERT`, or an out-of-range
  `operator[]`, which C++ leaves undefined.
-/

namespace HelloVulkan

/-! ## Handles, results and constants of `vulkan.h` -/

/-- A driver handle; `0` is the null handle. -/
abbrev Handle := Nat

/-- The integer value of a `VkResult`. -/
abbrev VkResult := Int

/-- Value of `VK_SUCCESS` in `vulkan.h`. -/
@[reducible] def VK_SUCCESS : VkResult := 0

/-- Value of `VK_SUBOPTIMAL_KHR` in `vulkan.h`. -/
@[reducible] def VK_SUBOPTIMAL_KHR : VkResult := 1000001003

/-- Value of `VK_ERROR_OUT_OF_DATE_KHR` in `vulkan.h`. -/
@[reducible] def VK_ERROR_OUT_OF_DATE_KHR : VkResult := -1000001004

/-- Value of `VK_ERROR_OUT_OF_HOST_MEMORY` in `vulkan.h`. -/
@[reducible] def VK_ERROR_OUT_OF_HOST_MEMORY : VkResult := -1

/-- Value of `VK_ERROR_DEVICE_LOST` in `vulkan.h`. -/
@[reducible] def VK_ERROR_DEVICE_LOST : VkResult := -4

/-- Value of `UINT64_MAX`, the timeout that means wait for ever. -/
@[reducible] def UINT64_MAX : Nat := 18446744073709551615

/-- Value of `VK_FENCE_CREATE_SIGNALED_BIT` in `vulkan.h`. -/
@[reducible] def VK_FENCE_CREATE_SIGNALED_BIT : Nat := 1

/-- Value of `VK_COMMAND_POOL_CREATE_TRANSIENT_BIT` in `vulkan.h`. -/
@[reducible] def VK_COMMAND_POOL_CREATE_TRANSIENT_BIT : Nat := 1

/-- Value of `VK_QUEUE_GRAPHICS_BIT` in `vulkan.h`. -/
@[reducible] def VK_QUEUE_GRAPHICS_BIT : Nat := 1

/-- Value of `VK_QUEUE_COMPUTE_BIT` in `vulkan.h`. -/
@[reducible] def VK_QUEUE_COMPUTE_BIT : Nat := 2

/-- Value of `VK_PIPELINE_STAGE_COLOR_ATTACHMENT_OUTPUT_BIT` in `vulkan.h`. -/
@[reducible] def VK_PIPELINE_STAGE_COLOR_ATTACHMENT_OUTPUT_BIT : Nat := 1024

/-- Value of `VK_COMMAND_BUFFER_USAGE_ONE_TIME_SUBMIT_BIT` in `vulkan.h`. -/
@[reducible] def VK_COMMAND_BUFFER_USAGE_ONE_TIME_SUBMIT_BIT : Nat := 1

/-! ## Data model (`Renderer.h`) -/

/-- The struct `Renderer::PerFrameData`: one frame slot. Every member starts as
`nullptr`. -/
structure PerFrameData where
  queueSubmitFence : Handle := 0
  primaryCmdPool : Handle := 0
  primaryCmdBuffer : Handle := 0
  swapchainAcquireSemaphore : Handle := 0
  swapchainReleaseSemaphore : Handle := 0
  deriving DecidableEq, Repr

/-- The struct `Renderer::Buffer`. The header initialises `usageFlags` to
`VK_BUFFER_USAGE_FLAG_BITS_MAX_ENUM`, `0x7FFFFFFF`. -/
structure Buffer where
  handle : Handle := 0
  memory : Handle := 0
  size : Nat := 0
  usageFlags : Nat := 2147483647
  deriving DecidableEq, Repr

/-- The data members of `Renderer`, with the initial values of `Renderer.h`
(`m_vulkan` and `m_window` have no initialiser there; `m_windowName` is not
carried). -/
structure Renderer where
  m_vulkan : Handle := 0
  m_window : Handle := 0
  m_windowWidth : Nat := 800
  m_windowHeight : Nat := 600
  m_graphicsPipeline : Handle := 0
  m_pipelineLayout : Handle := 0
  m_swapchain : Handle := 0
  m_renderPass : Handle := 0
  m_deviceQueue : Handle := 0
  m_gpu : Handle := 0
  m_device : Handle := 0
  m_surface : Handle := 0
  m_vertexBuffer : Buffer := {}
  m_indexBuffer : Buffer := {}
  m_graphicsFamilyIndex : Int := -1
  m_imageViews : List Handle := []
  m_framebuffers : List Handle := []
  m_perFrameData : List PerFrameData := []
  m_recycledSemaphores : List Handle := []
  deriving DecidableEq, Repr

/-- The `VkSubmitInfo` that `Render` fills in. -/
structure SubmitInfo where
  commandBuffers : List Handle
  waitSemaphores : List Handle
  waitDstStageMask : List Nat
  signalSemaphores : List Handle
  deriving DecidableEq, Repr

/-- The `VkPresentInfoKHR` that `Present` fills in. -/
structure PresentInfo where
  swapchains : List Handle
  imageIndices : List Nat
  waitSemaphores : List Handle
  deriving DecidableEq, Repr

/-- What the code does that is visible outside the function: the calls into the
Vulkan driver (with the arguments the code passes and, for the creation calls,
the result and handle the driver answered), the `LOG` lines, and the two
mutations of the vector `m_recycledSemaphores`. -/
inductive Effect where
  | vkCreateSwapchainKHR (result : VkResult) (swapchain : Handle)
  | vkGetSwapchainImagesKHR (swapchain : Handle) (imageCount : Nat)
  | vkCreateImageView (result : VkResult) (imageView : Handle)
  | vkCreateFence (flags : Nat) (result : VkResult) (fence : Handle)
  | vkCreateCommandPool (flags : Nat) (queueFamilyIndex : Int) (result : VkResult)
      (pool : Handle)
  | vkAllocateCommandBuffers (pool : Handle) (count : Nat) (result : VkResult)
      (buffer : Handle)
  | vkCreateSemaphore (result : VkResult) (semaphore : Handle)
  | vkAcquireNextImageKHR (swapchain : Handle) (timeout : Nat) (semaphore : Handle)
      (fence : Handle)
  | vkWaitForFences (fence : Handle) (waitAll : Bool) (timeout : Nat)
  | vkResetFences (fence : Handle)
  | vkResetCommandPool (pool : Handle) (flags : Nat)
  | vkBeginCommandBuffer (cmd : Handle) (flags : Nat)
  | vkCmdBeginRenderPass (cmd : Handle) (renderPass : Handle) (framebuffer : Handle)
  | vkCmdBindPipeline (cmd : Handle) (pipeline : Handle)
  | vkCmdBindVertexBuffers (cmd : Handle) (buffer : Handle)
  | vkCmdSetViewport (cmd : Handle)
  | vkCmdSetScissor (cmd : Handle)
  | vkCmdDraw (cmd : Handle) (vertexCount instanceCount firstVertex firstInstance : Nat)
  | vkCmdEndRenderPass (cmd : Handle)
  | vkEndCommandBuffer (cmd : Handle)
  | vkQueueSubmit (queue : Handle) (submit : SubmitInfo) (fence : Handle)
  | vkQueuePresentKHR (queue : Handle) (present : PresentInfo)
  | LOG (msg : String)
  | push_back (semaphore : Handle)
  | pop_back (semaphore : Handle)
  | vkDeviceWaitIdle (device : Handle)
  | vkDestroyFramebuffer (framebuffer : Handle)
  | vkDestroyFence (fence : Handle)
  | vkFreeCommandBuffers (pool : Handle) (buffer : Handle)
  | vkDestroyCommandPool (pool : Handle)
  | vkDestroySemaphore (semaphore : Handle)
  | vkDestroyPipeline (pipeline : Handle)
  | vkDestroyPipelineLayout (layout : Handle)
  | vkDestroyBuffer (buffer : Handle)
  | vkDestroyRenderPass (renderPass : Handle)
  | vkDestroyImageView (imageView : Handle)
  | vkDestroySwapchainKHR (swapchain : Handle)
  | vkDestroySurfaceKHR (vulkan : Handle) (surface : Handle)
  | vkDestroyDevice (device : Handle)
  | vkDestroyInstance (vulkan : Handle)
  | glfwDestroyWindow (window : Handle)
  | glfwTerminate
  deriving DecidableEq, Repr

/-- How a call ended. -/
inductive Outcome (α : Type) where
  | returned (value : α)
  | raised (msg : String)
  | undefined
  deriving DecidableEq, Repr

/-- The result of running one function of the renderer. -/
structure Step (α : Type) where
  state : Renderer
  effects : List Effect
  out : Outcome α

/-! ## `Renderer::InitPerFrameData` and `Renderer::CreateSwapchain` -/

/-- The answers of the driver to the three creation calls of
`InitPerFrameData`: the result code and the handle found in the output
argument afterwards. -/
structure PerFrameDevice where
  vkCreateFence : VkResult × Handle
  vkCreateCommandPool : VkResult × Handle
  vkAllocateCommandBuffers : VkResult × Handle

/-- `Renderer::InitPerFrameData` (lines 139-160), on the slot `perFrame`; the
result is the slot as the call leaves it, the calls made, and the outcome.
The result of `vkAllocateCommandBuffers` is not checked by the code. -/
def InitPerFrameData (m_graphicsFamilyIndex : Int) (perFrame : PerFrameData)
    (dev : PerFrameDevice) : PerFrameData × List Effect × Outcome Unit :=
  let createFence :=
    Effect.vkCreateFence VK_FENCE_CREATE_SIGNALED_BIT dev.vkCreateFence.1 dev.vkCreateFence.2
  let perFrame1 := { perFrame with queueSubmitFence := dev.vkCreateFence.2 }
  if dev.vkCreateFence.1 ≠ VK_SUCCESS then
    (perFrame1, [createFence], .raised "Could not create Queue Submit Fence")
  else
    let createPool :=
      Effect.vkCreateCommandPool VK_COMMAND_POOL_CREATE_TRANSIENT_BIT m_graphicsFamilyIndex
        dev.vkCreateCommandPool.1 dev.vkCreateCommandPool.2
    let perFrame2 := { perFrame1 with primaryCmdPool := dev.vkCreateCommandPool.2 }
    if dev.vkCreateCommandPool.1 ≠ VK_SUCCESS then
      (perFrame2, [createFence, createPool], .raised "Could not create primary command pool")
    else
      let allocate :=
        Effect.vkAllocateCommandBuffers perFrame2.primaryCmdPool 1
          dev.vkAllocateCommandBuffers.1 dev.vkAllocateCommandBuffers.2
      let perFrame3 := { perFrame2 with primaryCmdBuffer := dev.vkAllocateCommandBuffers.2 }
      (perFrame3, [createFence, createPool, allocate], .returned ())

/-- The loop of lines 369-372: `InitPerFrameData(m_perFrameData[i])` for the
slots from index `i` on; an exception leaves the later slots untouched. -/
def CreateSwapchain.initLoop (m_graphicsFamilyIndex : Int) (dev : Nat → PerFrameDevice) :
    Nat → List PerFrameData → List PerFrameData × List Effect × Outcome Unit
  | _, [] => ([], [], .returned ())
  | i, perFrame :: rest =>
    match InitPerFrameData m_graphicsFamilyIndex perFrame (dev i) with
    | (perFrame1, effects, .returned _) =>
      let r := CreateSwapchain.initLoop m_graphicsFamilyIndex dev (i + 1) rest
      (perFrame1 :: r.1, effects ++ r.2.1, r.2.2)
    | (perFrame1, effects, .raised msg) => (perFrame1 :: rest, effects, .raised msg)
    | (perFrame1, effects, .undefined) => (perFrame1 :: rest, effects, .undefined)

/-- The loop of lines 375-394: one image view per swapchain image, appended to
`views`; stops at the first creation that does not report success. -/
def CreateSwapchain.viewLoop (dev : Nat → VkResult × Handle) :
    Nat → Nat → List Handle → List Handle × List Effect × Outcome Unit
  | _, 0, views => (views, [], .returned ())
  | i, n + 1, views =>
    let create := Effect.vkCreateImageView (dev i).1 (dev i).2
    if (dev i).1 ≠ VK_SUCCESS then
      (views, [create], .raised ("Could not create Image view " ++ toString i))
    else
      let r := CreateSwapchain.viewLoop dev (i + 1) n (views ++ [(dev i).2])
      (r.1, create :: r.2.1, r.2.2)

/-- The scan of lines 327-339 over the queue families (given by their
`queueFlags`), with the running values of `graphicsFamily` and `presentFamily`.
The variable `i` is declared as `0` before the loop and the loop body never
changes it. -/
def CreateSwapchain.scanQueueFamilies (presentSupport : Nat → Bool) (i : Nat) :
    List Nat → Int × Int → Int × Int
  | [], acc => acc
  | queueFlags :: rest, (graphicsFamily, presentFamily) =>
    let graphicsFamily1 : Int :=
      if queueFlags &&& VK_QUEUE_GRAPHICS_BIT ≠ 0 then (i : Int) else graphicsFamily
    let presentFamily1 : Int := if presentSupport i then (i : Int) else presentFamily
    CreateSwapchain.scanQueueFamilies presentSupport i rest (graphicsFamily1, presentFamily1)

/-- The answers of the driver that `CreateSwapchain` reads from line 322 on. -/
structure SwapchainDevice where
  /-- `queueFlags` of each queue family, `vkGetPhysicalDeviceQueueFamilyProperties`. -/
  queueFamilies : List Nat
  /-- `vkGetPhysicalDeviceSurfaceSupportKHR`, by the family index asked about. -/
  presentSupport : Nat → Bool
  vkCreateSwapchainKHR : VkResult × Handle
  /-- The image count `vkGetSwapchainImagesKHR` reports. -/
  imageCount : Nat
  /-- The answers to the `InitPerFrameData` calls, by slot. -/
  perFrame : Nat → PerFrameDevice
  /-- The answers to `vkCreateImageView`, by image. -/
  vkCreateImageView : Nat → VkResult × Handle

/-- `Renderer::CreateSwapchain` from line 322 on (lines 253-396). Lines 255-319
only query the surface and fill `swapchainInfo`, whose contents the embedding
does not carry. -/
def CreateSwapchain (s : Renderer) (dev : SwapchainDevice) : Step Unit :=
  let families :=
    CreateSwapchain.scanQueueFamilies dev.presentSupport 0 dev.queueFamilies (-1, -1)
  let graphicsFamily := families.1
  let presentFamily := families.2
  if ¬ (graphicsFamily ≥ 0) then ⟨s, [], .raised "Graphics family not found"⟩
  else if ¬ (presentFamily ≥ 0) then ⟨s, [], .raised "Present family not found"⟩
  else
    let s1 := { s with m_graphicsFamilyIndex := graphicsFamily }
    let create :=
      Effect.vkCreateSwapchainKHR dev.vkCreateSwapchainKHR.1 dev.vkCreateSwapchainKHR.2
    let s2 := { s1 with m_swapchain := dev.vkCreateSwapchainKHR.2 }
    if dev.vkCreateSwapchainKHR.1 ≠ VK_SUCCESS then
      ⟨s2, [create], .raised "Vulkan swapchain could not be created"⟩
    else
      let imageCount := dev.imageCount
      let images := [Effect.vkGetSwapchainImagesKHR s2.m_swapchain imageCount,
        Effect.vkGetSwapchainImagesKHR s2.m_swapchain imageCount]
      let init := CreateSwapchain.initLoop s2.m_graphicsFamilyIndex dev.perFrame 0
        (List.replicate imageCount {})
      let s3 := { s2 with m_perFrameData := init.1 }
      match init.2.2 with
      | .raised msg => ⟨s3, create :: images ++ init.2.1, .raised msg⟩
      | .undefined => ⟨s3, create :: images ++ init.2.1, .undefined⟩
      | .returned _ =>
        let views := CreateSwapchain.viewLoop dev.vkCreateImageView 0 imageCount []
        ⟨{ s3 with m_imageViews := views.1 }, create :: images ++ init.2.1 ++ views.2.1,
          views.2.2⟩

/-! ## `Renderer::NextImage` -/

/-- The answers of the driver that `NextImage` reads: `vkCreateSemaphore`
(result, handle written), asked only when the recycled pool is empty, and
`vkAcquireNextImageKHR` (result, value of `imageIndex` after the call). -/
structure NextImageDevice where
  vkCreateSemaphore : VkResult × Handle
  vkAcquireNextImageKHR : VkResult × Nat

/-- Lines 668-681 of `NextImage`: the semaphore for the acquire is created when
`m_recycledSemaphores` is empty, and is otherwise its last element, which is
removed. -/
def NextImage.aquireSemaphore (s : Renderer) (create : VkResult × Handle) : Step Handle :=
  match s.m_recycledSemaphores.getLast? with
  | none =>
    if create.1 ≠ VK_SUCCESS then
      ⟨s, [.vkCreateSemaphore create.1 create.2], .raised "Could not create new semaphore"⟩
    else
      ⟨s, [.vkCreateSemaphore create.1 create.2], .returned create.2⟩
  | some back =>
    ⟨{ s with m_recycledSemaphores := s.m_recycledSemaphores.dropLast }, [.pop_back back],
      .returned back⟩

/-- `Renderer::NextImage` (lines 666-712). The value returned is the `VkResult`
together with the value of the reference argument `imageIndex` after the
call. -/
def NextImage (s : Renderer) (dev : NextImageDevice) : Step (VkResult × Nat) :=
  let a := NextImage.aquireSemaphore s dev.vkCreateSemaphore
  match a.out with
  | .raised msg => ⟨a.state, a.effects, .raised msg⟩
  | .undefined => ⟨a.state, a.effects, .undefined⟩
  | .returned aquireSemaphore =>
    let result := dev.vkAcquireNextImageKHR.1
    let imageIndex := dev.vkAcquireNextImageKHR.2
    let acquire :=
      Effect.vkAcquireNextImageKHR a.state.m_swapchain UINT64_MAX aquireSemaphore 0
    if result ≠ VK_SUCCESS then
      ⟨{ a.state with
          m_recycledSemaphores := a.state.m_recycledSemaphores ++ [aquireSemaphore] },
        a.effects ++ [acquire, .push_back aquireSemaphore], .returned (result, imageIndex)⟩
    else
      match a.state.m_perFrameData[imageIndex]? with
      | none => ⟨a.state, a.effects ++ [acquire], .undefined⟩
      | some frame =>
        let fence : List Effect :=
          if frame.queueSubmitFence ≠ 0 then
            [.vkWaitForFences frame.queueSubmitFence true UINT64_MAX,
              .vkResetFences frame.queueSubmitFence]
          else []
        let cmdPool : List Effect :=
          if frame.primaryCmdPool ≠ 0 then [.vkResetCommandPool frame.primaryCmdPool 0]
          else []
        let oldSemaphore := frame.swapchainAcquireSemaphore
        let recycle : List Effect :=
          if oldSemaphore ≠ 0 then [.push_back oldSemaphore] else []
        let pool :=
          if oldSemaphore ≠ 0 then a.state.m_recycledSemaphores ++ [oldSemaphore]
          else a.state.m_recycledSemaphores
        ⟨{ a.state with
            m_recycledSemaphores := pool
            m_perFrameData := a.state.m_perFrameData.set imageIndex
              { frame with swapchainAcquireSemaphore := aquireSemaphore } },
          a.effects ++ [acquire] ++ fence ++ cmdPool ++ recycle,
          .returned (VK_SUCCESS, imageIndex)⟩

/-! ## `Renderer::Render` and `Renderer::Present` -/

/-- The answers of the driver that `Render` reads or ignores:
`vkEndCommandBuffer`, `vkCreateSemaphore` (asked only when the slot has no
release semaphore; result and handle written) and `vkQueueSubmit`. -/
structure RenderDevice where
  vkEndCommandBuffer : VkResult
  vkCreateSemaphore : VkResult × Handle
  vkQueueSubmit : VkResult

/-- The commands `Render` records into `cmd` (lines 754-794). The clear colour
and the viewport and scissor rectangles are not carried. -/
def Render.recording (s : Renderer) (framebuffer cmd : Handle) : List Effect :=
  [.vkBeginCommandBuffer cmd VK_COMMAND_BUFFER_USAGE_ONE_TIME_SUBMIT_BIT,
    .vkCmdBeginRenderPass cmd s.m_renderPass framebuffer,
    .vkCmdBindPipeline cmd s.m_graphicsPipeline,
    .vkCmdBindVertexBuffers cmd s.m_vertexBuffer.handle,
    .vkCmdSetViewport cmd,
    .vkCmdSetScissor cmd,
    .vkCmdDraw cmd 3 1 0 0,
    .vkCmdEndRenderPass cmd,
    .vkEndCommandBuffer cmd]

/-- `Renderer::Render` (lines 745-817). The results of `vkCreateSemaphore` and
of `vkQueueSubmit` are stored in `result` and never read. -/
def Render (s : Renderer) (index : Nat) (dev : RenderDevice) : Step Unit :=
  match s.m_framebuffers[index]?, s.m_perFrameData[index]? with
  | some framebuffer, some frame =>
    let cmd := frame.primaryCmdBuffer
    let recording := Render.recording s framebuffer cmd
    if dev.vkEndCommandBuffer ≠ VK_SUCCESS then
      ⟨s, recording, .raised "Could not end command buffer"⟩
    else
      let create : List Effect :=
        if frame.swapchainReleaseSemaphore = 0 then
          [.vkCreateSemaphore dev.vkCreateSemaphore.1 dev.vkCreateSemaphore.2]
        else []
      let frame1 :=
        if frame.swapchainReleaseSemaphore = 0 then
          { frame with swapchainReleaseSemaphore := dev.vkCreateSemaphore.2 }
        else frame
      let submitInfo : SubmitInfo :=
        { commandBuffers := [cmd]
          waitSemaphores := [frame1.swapchainAcquireSemaphore]
          waitDstStageMask := [VK_PIPELINE_STAGE_COLOR_ATTACHMENT_OUTPUT_BIT]
          signalSemaphores := [frame1.swapchainReleaseSemaphore] }
      ⟨{ s with m_perFrameData := s.m_perFrameData.set index frame1 },
        recording ++ create ++ [.vkQueueSubmit s.m_deviceQueue submitInfo frame1.queueSubmitFence],
        .returned ()⟩
  | _, _ => ⟨s, [], .undefined⟩

/-- `Renderer::Present` (lines 819-830); `dev` is the result of
`vkQueuePresentKHR`. -/
def Present (s : Renderer) (index : Nat) (dev : VkResult) : Step VkResult :=
  match s.m_perFrameData[index]? with
  | none => ⟨s, [], .undefined⟩
  | some frame =>
    ⟨s, [.vkQueuePresentKHR s.m_deviceQueue
        { swapchains := [s.m_swapchain]
          imageIndices := [index]
          waitSemaphores := [frame.swapchainReleaseSemaphore] }],
      .returned dev⟩

/-! ## `Renderer::Update` -/

/-- The answers of the driver during one `Update`: to the first and to the
second `NextImage`, to `Render` and to `Present`. -/
structure UpdateDevice where
  first : NextImageDevice
  second : NextImageDevice
  render : RenderDevice
  present : VkResult

/-- Lines 725-743 of `Update`: what follows the acquire attempts, from the state
`s`, with the effects `before` already emitted and `result`, `imageIndex` as
the attempts left them. -/
def Update.finish (s : Renderer) (before : List Effect) (result : VkResult)
    (imageIndex : Nat) (dev : UpdateDevice) : Step Unit :=
  if result ≠ VK_SUCCESS then
    ⟨s, before ++ [.LOG "Could not get next image, idling..."], .returned ()⟩
  else
    let r := Render s imageIndex dev.render
    match r.out with
    | .raised msg => ⟨r.state, before ++ r.effects, .raised msg⟩
    | .undefined => ⟨r.state, before ++ r.effects, .undefined⟩
    | .returned _ =>
      let p := Present r.state imageIndex dev.present
      match p.out with
      | .raised msg => ⟨p.state, before ++ r.effects ++ p.effects, .raised msg⟩
      | .undefined => ⟨p.state, before ++ r.effects ++ p.effects, .undefined⟩
      | .returned result1 =>
        let log : List Effect :=
          if result1 = VK_SUBOPTIMAL_KHR ∨ result1 = VK_ERROR_OUT_OF_DATE_KHR then
            [.LOG "Swapchain image presentation suboptimal or out of date"]
          else if result1 ≠ VK_SUCCESS then [.LOG "Failed to present swapchain image"]
          else []
        ⟨p.state, before ++ r.effects ++ p.effects ++ log, .returned ()⟩

/-- `Renderer::Update` (lines 714-743). -/
def Update (s : Renderer) (dev : UpdateDevice) : Step Unit :=
  let n1 := NextImage s dev.first
  match n1.out with
  | .raised msg => ⟨n1.state, n1.effects, .raised msg⟩
  | .undefined => ⟨n1.state, n1.effects, .undefined⟩
  | .returned (result, imageIndex) =>
    if result = VK_SUBOPTIMAL_KHR ∨ result = VK_ERROR_OUT_OF_DATE_KHR then
      let log := Effect.LOG "Swapchain image suboptimal or out of date"
      let n2 := NextImage n1.state dev.second
      match n2.out with
      | .raised msg => ⟨n2.state, n1.effects ++ [log] ++ n2.effects, .raised msg⟩
      | .undefined => ⟨n2.state, n1.effects ++ [log] ++ n2.effects, .undefined⟩
      | .returned (result2, imageIndex2) =>
        Update.finish n2.state (n1.effects ++ [log] ++ n2.effects) result2 imageIndex2 dev
    else
      Update.finish n1.state n1.effects result imageIndex dev

/-! ## Reachable states -/

/-- A conforming driver: a creation call that reports `VK_SUCCESS` has written a
handle that is not null. -/
def PerFrameDevice.Conforms (dev : PerFrameDevice) : Prop :=
  (dev.vkCreateFence.1 = VK_SUCCESS → dev.vkCreateFence.2 ≠ 0) ∧
  (dev.vkCreateCommandPool.1 = VK_SUCCESS → dev.vkCreateCommandPool.2 ≠ 0)

/-- Every slot is initialised by a conforming driver. -/
def SwapchainDevice.Conforms (dev : SwapchainDevice) : Prop :=
  ∀ i, (dev.perFrame i).Conforms

/-- The driver hands out a different fence for each of the slots. -/
def SwapchainDevice.FreshFences (dev : SwapchainDevice) : Prop :=
  ∀ i j, i < dev.imageCount → j < dev.imageCount → i ≠ j →
    (dev.perFrame i).vkCreateFence.2 ≠ (dev.perFrame j).vkCreateFence.2

/-- `CreateSwapchain`, run on `r` with the driver `dev`, returned normally and
left the state `s`. -/
def Built (r : Renderer) (dev : SwapchainDevice) (s : Renderer) : Prop :=
  (CreateSwapchain r dev).out = .returned () ∧ (CreateSwapchain r dev).state = s

/-- The states the renderer can pass through from `s`: any sequence of
`NextImage`, `Render` and `Present` calls (`Update` is such a sequence), with
any answers of the driver, and of writes to members other than
`m_perFrameData` and `m_recycledSemaphores` (what the rest of `Init` does
after `CreateSwapchain`). -/
inductive Steps : Renderer → Renderer → Prop
  | refl (s : Renderer) : Steps s s
  | others {s t : Renderer} (h : Steps s t) (t1 : Renderer)
      (hframes : t1.m_perFrameData = t.m_perFrameData)
      (hrecycled : t1.m_recycledSemaphores = t.m_recycledSemaphores) : Steps s t1
  | nextImage {s t : Renderer} (h : Steps s t) (dev : NextImageDevice) :
      Steps s (NextImage t dev).state
  | render {s t : Renderer} (h : Steps s t) (index : Nat) (dev : RenderDevice) :
      Steps s (Render t index dev).state
  | present {s t : Renderer} (h : Steps s t) (index : Nat) (dev : VkResult) :
      Steps s (Present t index dev).state

/-- The handles of the semaphores that the calls in `effects` created. -/
def createdSemaphores : List Effect → List Handle
  | [] => []
  | .vkCreateSemaphore result semaphore :: rest =>
    if result = VK_SUCCESS then semaphore :: createdSemaphores rest
    else createdSemaphores rest
  | _ :: rest => createdSemaphores rest

/-- The driver answers this `NextImage`, called in the state `s` after the
calls `history`, with a fresh semaphore: if the call creates one (the pool is
empty) and the creation succeeds, the handle is not null and is none of the
semaphores created by the calls in `history`. -/
def NextImageDevice.Fresh (dev : NextImageDevice) (history : List Effect) (s : Renderer) :
    Prop :=
  s.m_recycledSemaphores = [] → dev.vkCreateSemaphore.1 = VK_SUCCESS →
    dev.vkCreateSemaphore.2 ≠ 0 ∧ dev.vkCreateSemaphore.2 ∉ createdSemaphores history

/-- Runs of `NextImage` calls from `s0`, each answered with a fresh semaphore:
`AcquireRun s0 history s` when the calls emitted `history` and left `s`. -/
inductive AcquireRun (s0 : Renderer) : List Effect → Renderer → Prop
  | start : AcquireRun s0 [] s0
  | next {history : List Effect} {s : Renderer} (h : AcquireRun s0 history s)
      (dev : NextImageDevice) (hfresh : dev.Fresh history s) :
      AcquireRun s0 (history ++ (NextImage s dev).effects) (NextImage s dev).state

/-! ## Classification of effects -/

/-- The effect is a request for the next swapchain image. -/
def Effect.isAcquire : Effect → Bool
  | .vkAcquireNextImageKHR _ _ _ _ => true
  | _ => false

/-- The effect is a semaphore creation. -/
def Effect.isCreateSemaphore : Effect → Bool
  | .vkCreateSemaphore _ _ => true
  | _ => false

/-- The effect is a fence wait. -/
def Effect.isWait : Effect → Bool
  | .vkWaitForFences _ _ _ => true
  | _ => false

/-- The effect is a fence reset or a command-pool reset. -/
def Effect.isReset : Effect → Bool
  | .vkResetFences _ => true
  | .vkResetCommandPool _ _ => true
  | _ => false

/-- The effect is a queue submission. -/
def Effect.isSubmit : Effect → Bool
  | .vkQueueSubmit _ _ _ => true
  | _ => false

/-- The effect is a present request. -/
def Effect.isPresent : Effect → Bool
  | .vkQueuePresentKHR _ _ => true
  | _ => false

/-- The effect records into a command buffer (the calls of lines 754-794). -/
def Effect.isRecording : Effect → Bool
  | .vkBeginCommandBuffer _ _ => true
  | .vkCmdBeginRenderPass _ _ _ => true
  | .vkCmdBindPipeline _ _ => true
  | .vkCmdBindVertexBuffers _ _ => true
  | .vkCmdSetViewport _ => true
  | .vkCmdSetScissor _ => true
  | .vkCmdDraw _ _ _ _ _ => true
  | .vkCmdEndRenderPass _ => true
  | .vkEndCommandBuffer _ => true
  | _ => false

/-- The effect creates a fence. -/
def Effect.isCreateFence : Effect → Bool
  | .vkCreateFence _ _ _ => true
  | _ => false

/-- The effect is one of the calls the fake device keeps books on: fence
creation, fence wait, fence reset, queue submission. -/
def Effect.touchesFence : Effect → Bool
  | .vkCreateFence _ _ _ => true
  | .vkWaitForFences _ _ _ => true
  | .vkResetFences _ => true
  | .vkQueueSubmit _ _ _ => true
  | _ => false

/-! ## A fake device that delays fence completion -/

/-- A test double of the Vulkan driver (the driver is a third-party library,
not code of the repository), the fake device that delays the completion of
signals which section 8 of the specification asks for. It keeps the books on
fences only: the fences that are signaled, and the fences of the submissions
it has not completed yet. -/
structure FakeDevice where
  signaled : List Handle := []
  pending : List Handle := []
  deriving DecidableEq, Repr

/-- The fake device serves one call of the renderer, following the Vulkan
rules for fences; `none` when the call does not return: a wait without timeout
(`UINT64_MAX`) on a fence that is not signaled. A fence is signaled when
created with the signaled bit, unsignaled by a reset, and a submission leaves
its fence as it is, pending completion. -/
def FakeDevice.exec (d : FakeDevice) : Effect → Option FakeDevice
  | .vkCreateFence flags result fence =>
    if result = VK_SUCCESS then
      if flags &&& VK_FENCE_CREATE_SIGNALED_BIT ≠ 0 then
        some { d with signaled := fence :: d.signaled }
      else some { d with signaled := d.signaled.filter (fun f => f ≠ fence) }
    else some d
  | .vkWaitForFences fence _ timeout =>
    if fence ∈ d.signaled ∨ timeout < UINT64_MAX then some d else none
  | .vkResetFences fence => some { d with signaled := d.signaled.filter (fun f => f ≠ fence) }
  | .vkQueueSubmit _ _ fence => some { d with pending := fence :: d.pending }
  | _ => some d

/-- The fake device completes the submissions that carry `fence`: the fence
becomes signaled. -/
def FakeDevice.complete (d : FakeDevice) (fence : Handle) : FakeDevice :=
  if fence ∈ d.pending then
    { signaled := fence :: d.signaled, pending := d.pending.filter (fun f => f ≠ fence) }
  else d

/-- What happens at the fake device: a call of the renderer, or the completion
of the submissions that carry a fence. -/
inductive DeviceEvent where
  | call (e : Effect)
  | complete (fence : Handle)
  deriving DecidableEq, Repr

/-- The fake device after one event, `none` when the call does not return. -/
def FakeDevice.step (d : FakeDevice) : DeviceEvent → Option FakeDevice
  | .call e => d.exec e
  | .complete fence => some (d.complete fence)

/-- The fake device after a sequence of events, `none` when one of the calls
does not return. -/
def FakeDevice.run (d : FakeDevice) : List DeviceEvent → Option FakeDevice
  | [] => some d
  | ev :: rest =>
    match d.step ev with
    | none => none
    | some d1 => d1.run rest

/-- The fake device after the calls `effects`, with no completion in between. -/
def FakeDevice.calls (d : FakeDevice) (effects : List Effect) : Option FakeDevice :=
  d.run (effects.map DeviceEvent.call)

/-- `NextImage` called once for each answer in `devs`, in order: the final
state, all effects, and the outcomes of the calls. -/
def NextImage.repeated (s : Renderer) :
    List NextImageDevice → Renderer × List Effect × List (Outcome (VkResult × Nat))
  | [] => (s, [], [])
  | dev :: rest =>
    let r := NextImage.repeated (NextImage s dev).state rest
    (r.1, (NextImage s dev).effects ++ r.2.1, (NextImage s dev).out :: r.2.2)

/-! ## Relations between states used in the statements -/

/-- The slot `f` has the fence, command pool and command buffer of `f0`. -/
def SameHandles (f0 f : PerFrameData) : Prop :=
  f.queueSubmitFence = f0.queueSubmitFence ∧ f.primaryCmdPool = f0.primaryCmdPool ∧
    f.primaryCmdBuffer = f0.primaryCmdBuffer

/-- The state `t` has the slots of `s`, each with the fence, command pool and
command buffer it has in `s`. -/
def FramesKept (s t : Renderer) : Prop :=
  t.m_perFrameData.length = s.m_perFrameData.length ∧
    ∀ (k : Nat) (f : PerFrameData), t.m_perFrameData[k]? = some f →
      ∃ f0 : PerFrameData, s.m_perFrameData[k]? = some f0 ∧ SameHandles f0 f

/-! ## A concrete driver and renderer for the worked instances -/

/-- A driver for a surface with three images: slot `i` gets the fence
`10 + i`, the command pool `20 + i` and the command buffer `30 + i`. -/
def threeImages : SwapchainDevice where
  queueFamilies := [VK_QUEUE_GRAPHICS_BIT]
  presentSupport := fun _ => true
  vkCreateSwapchainKHR := (VK_SUCCESS, 7)
  imageCount := 3
  perFrame := fun i => ⟨(VK_SUCCESS, 10 + i), (VK_SUCCESS, 20 + i), (VK_SUCCESS, 30 + i)⟩
  vkCreateImageView := fun i => (VK_SUCCESS, 40 + i)

/-- The renderer that `CreateSwapchain` leaves on `threeImages`, with one
framebuffer per image as `CreateFramebuffers` stores them. -/
def threeSlots : Renderer :=
  { (CreateSwapchain {} threeImages).state with m_framebuffers := [60, 61, 62] }

/-- The invariant of the recycled pool after the calls `history`: the pool has
no duplicates and holds only created, non-null semaphores; a non-null acquire
semaphore of a slot was created, is not in the pool, and is not the acquire
semaphore of another slot. -/
def PoolInvariant (history : List Effect) (s : Renderer) : Prop :=
  s.m_recycledSemaphores.Nodup ∧
  (∀ h ∈ s.m_recycledSemaphores, h ≠ 0 ∧ h ∈ createdSemaphores history) ∧
  (∀ (k : Nat) (f : PerFrameData), s.m_perFrameData[k]? = some f →
    f.swapchainAcquireSemaphore ≠ 0 →
      f.swapchainAcquireSemaphore ∈ createdSemaphores history ∧
      f.swapchainAcquireSemaphore ∉ s.m_recycledSemaphores) ∧
  (∀ (j k : Nat) (fj fk : PerFrameData), s.m_perFrameData[j]? = some fj →
    s.m_perFrameData[k]? = some fk → j ≠ k → fj.swapchainAcquireSemaphore ≠ 0 →
      fj.swapchainAcquireSemaphore ≠ fk.swapchainAcquireSemaphore)

/-! ## `Renderer::DestroyPerFrameData` and `Renderer::Shutdown` -/

/-- `Renderer::DestroyPerFrameData` (lines 832-863): the slot as the call
leaves it, and the calls made. Each member is destroyed and reset only when it
is not null; the command buffer is freed from the pool before the pool is
destroyed. -/
def DestroyPerFrameData (perFrameData : PerFrameData) : PerFrameData × List Effect :=
  let fence : List Effect :=
    if perFrameData.queueSubmitFence ≠ 0 then [.vkDestroyFence perFrameData.queueSubmitFence]
    else []
  let p1 :=
    if perFrameData.queueSubmitFence ≠ 0 then { perFrameData with queueSubmitFence := 0 }
    else perFrameData
  let buffer : List Effect :=
    if p1.primaryCmdBuffer ≠ 0 then [.vkFreeCommandBuffers p1.primaryCmdPool p1.primaryCmdBuffer]
    else []
  let p2 := if p1.primaryCmdBuffer ≠ 0 then { p1 with primaryCmdBuffer := 0 } else p1
  let pool : List Effect :=
    if p2.primaryCmdPool ≠ 0 then [.vkDestroyCommandPool p2.primaryCmdPool] else []
  let p3 := if p2.primaryCmdPool ≠ 0 then { p2 with primaryCmdPool := 0 } else p2
  let acquire : List Effect :=
    if p3.swapchainAcquireSemaphore ≠ 0 then [.vkDestroySemaphore p3.swapchainAcquireSemaphore]
    else []
  let p4 :=
    if p3.swapchainAcquireSemaphore ≠ 0 then { p3 with swapchainAcquireSemaphore := 0 } else p3
  let release : List Effect :=
    if p4.swapchainReleaseSemaphore ≠ 0 then [.vkDestroySemaphore p4.swapchainReleaseSemaphore]
    else []
  let p5 :=
    if p4.swapchainReleaseSemaphore ≠ 0 then { p4 with swapchainReleaseSemaphore := 0 } else p4
  (p5, fence ++ buffer ++ pool ++ acquire ++ release)

/-- The loop of lines 33-36 of `Shutdown`: `DestroyPerFrameData` on every slot,
in order; the calls made (the vector is cleared right after the loop). -/
def Shutdown.destroyFrames : List PerFrameData → List Effect
  | [] => []
  | perFrame :: rest => (DestroyPerFrameData perFrame).2 ++ Shutdown.destroyFrames rest

/-- `Renderer::Shutdown` (lines 23-103). A member that is destroyed under a
null check and then reset is null afterwards in either case. `m_device` is
destroyed under a null check and not reset; `vkDeviceWaitIdle`,
`vkDestroyInstance`, `glfwDestroyWindow` and `glfwTerminate` are called without
a check. -/
def Shutdown (s : Renderer) : Step Unit :=
  let idle : List Effect := [.vkDeviceWaitIdle s.m_device]
  let framebuffers : List Effect := s.m_framebuffers.map Effect.vkDestroyFramebuffer
  let frames : List Effect := Shutdown.destroyFrames s.m_perFrameData
  let recycled : List Effect := s.m_recycledSemaphores.map Effect.vkDestroySemaphore
  let pipeline : List Effect :=
    if s.m_graphicsPipeline ≠ 0 then [.vkDestroyPipeline s.m_graphicsPipeline] else []
  let layout : List Effect :=
    if s.m_pipelineLayout ≠ 0 then [.vkDestroyPipelineLayout s.m_pipelineLayout] else []
  let indexBuffer : List Effect :=
    if s.m_indexBuffer.handle ≠ 0 then [.vkDestroyBuffer s.m_indexBuffer.handle] else []
  let vertexBuffer : List Effect :=
    if s.m_vertexBuffer.handle ≠ 0 then [.vkDestroyBuffer s.m_vertexBuffer.handle] else []
  let renderPass : List Effect :=
    if s.m_renderPass ≠ 0 then [.vkDestroyRenderPass s.m_renderPass] else []
  let imageViews : List Effect := s.m_imageViews.map Effect.vkDestroyImageView
  let swapchain : List Effect :=
    if s.m_swapchain ≠ 0 then [.vkDestroySwapchainKHR s.m_swapchain] else []
  let surface : List Effect :=
    if s.m_surface ≠ 0 then [.vkDestroySurfaceKHR s.m_vulkan s.m_surface] else []
  let device : List Effect := if s.m_device ≠ 0 then [.vkDestroyDevice s.m_device] else []
  let last : List Effect :=
    [.vkDestroyInstance s.m_vulkan, .glfwDestroyWindow s.m_window, .glfwTerminate]
  ⟨{ s with
      m_framebuffers := []
      m_perFrameData := []
      m_recycledSemaphores := []
      m_graphicsPipeline := 0
      m_pipelineLayout := 0
      m_indexBuffer := { s.m_indexBuffer with handle := 0 }
      m_vertexBuffer := { s.m_vertexBuffer with handle := 0 }
      m_renderPass := 0
      m_imageViews := []
      m_swapchain := 0
      m_surface := 0
      m_graphicsFamilyIndex := -1 },
    idle ++ framebuffers ++ frames ++ recycled ++ pipeline ++ layout ++ indexBuffer ++
      vertexBuffer ++ renderPass ++ imageViews ++ swapchain ++ surface ++ device ++ last,
    .returned ()⟩

/-! ## Runs of the frame loop -/

/-- The state `Init` leaves: the one `CreateSwapchain` builds on `r`, with
whatever `CreateRenderPass`, `CreateBuffers`, `CreatePipeline` and
`CreateFramebuffers` then write to the other members. -/
def Initialised (r : Renderer) (dev : SwapchainDevice) (s : Renderer) : Prop :=
  ∃ built : Renderer, Built r dev built ∧ s.m_perFrameData = built.m_perFrameData ∧
    s.m_recycledSemaphores = built.m_recycledSemaphores

/-- A conforming answer to `NextImage` in the state `s`: a successful creation
returns a handle that is not null, and a successful acquire returns the index
of an image of the swapchain. -/
def NextImageDevice.Valid (dev : NextImageDevice) (s : Renderer) : Prop :=
  (dev.vkCreateSemaphore.1 = VK_SUCCESS → dev.vkCreateSemaphore.2 ≠ 0) ∧
  (dev.vkAcquireNextImageKHR.1 = VK_SUCCESS →
    dev.vkAcquireNextImageKHR.2 < s.m_perFrameData.length)

/-- A conforming answer to `Render`: a successful creation returns a handle that
is not null. -/
def RenderDevice.Valid (dev : RenderDevice) : Prop :=
  dev.vkCreateSemaphore.1 = VK_SUCCESS → dev.vkCreateSemaphore.2 ≠ 0

/-- The handles of the fences that the calls in `effects` created. -/
def createdFences : List Effect → List Handle
  | [] => []
  | .vkCreateFence _ result fence :: rest =>
    if result = VK_SUCCESS then fence :: createdFences rest else createdFences rest
  | _ :: rest => createdFences rest

/-- The handles of the command pools that the calls in `effects` created. -/
def createdCommandPools : List Effect → List Handle
  | [] => []
  | .vkCreateCommandPool _ _ result pool :: rest =>
    if result = VK_SUCCESS then pool :: createdCommandPools rest
    else createdCommandPools rest
  | _ :: rest => createdCommandPools rest

/-- Runs of `NextImage`, `Render` and `Present` calls from the state `s0`
reached after the calls `h0`, with conforming answers of the driver and slot
indices in range: `FrameRun h0 s0 history s` when the calls made so far are
`history` and the state is `s`. -/
inductive FrameRun (h0 : List Effect) (s0 : Renderer) : List Effect → Renderer → Prop
  | start : FrameRun h0 s0 h0 s0
  | nextImage {history : List Effect} {s : Renderer} (h : FrameRun h0 s0 history s)
      (dev : NextImageDevice) (hvalid : dev.Valid s) :
      FrameRun h0 s0 (history ++ (NextImage s dev).effects) (NextImage s dev).state
  | render {history : List Effect} {s : Renderer} (h : FrameRun h0 s0 history s)
      (index : Nat) (dev : RenderDevice) (hvalid : dev.Valid)
      (hindex : index < s.m_perFrameData.length) :
      FrameRun h0 s0 (history ++ (Render s index dev).effects) (Render s index dev).state
  | present {history : List Effect} {s : Renderer} (h : FrameRun h0 s0 history s)
      (index : Nat) (dev : VkResult) (hindex : index < s.m_perFrameData.length) :
      FrameRun h0 s0 (history ++ (Present s index dev).effects) (Present s index dev).state

/-- Runs of `NextImage` calls from `s0` with conforming answers of the driver:
`ValidAcquireRun s0 history s` when the calls emitted `history` and left
`s`. -/
inductive ValidAcquireRun (s0 : Renderer) : List Effect → Renderer → Prop
  | start : ValidAcquireRun s0 [] s0
  | next {history : List Effect} {s : Renderer} (h : ValidAcquireRun s0 history s)
      (dev : NextImageDevice) (hvalid : dev.Valid s) :
      ValidAcquireRun s0 (history ++ (NextImage s dev).effects) (NextImage s dev).state

/-- The number of slots among `frames` that hold an acquire semaphore. -/
def acquireSemaphoresHeld : List PerFrameData → Nat
  | [] => 0
  | f :: rest =>
    (if f.swapchainAcquireSemaphore ≠ 0 then 1 else 0) + acquireSemaphoresHeld rest

/-- The fences of the submissions in flight after one more effect: a wait on a
fence retires the submissions that carry it, a submission adds its fence. -/
def inFlightStep (fences : List Handle) : Effect → List Handle
  | .vkWaitForFences fence _ _ => fences.filter (fun f => f ≠ fence)
  | .vkQueueSubmit _ _ fence => fence :: fences
  | _ => fences

/-- The fences of the submissions in flight after `effects`: those submitted
and not since waited on. -/
def inFlight (effects : List Effect) : List Handle :=
  effects.foldl inFlightStep []

/-- Runs of `Update` ticks from `s0`, each with defined behaviour:
`TickRun s0 history s` when the ticks emitted `history` and left `s`. -/
inductive TickRun (s0 : Renderer) : List Effect → Renderer → Prop
  | start : TickRun s0 [] s0
  | tick {history : List Effect} {s : Renderer} (h : TickRun s0 history s)
      (dev : UpdateDevice) (hdefined : (Update s dev).out ≠ .undefined) :
      TickRun s0 (history ++ (Update s dev).effects) (Update s dev).state

/-- A driver with two queue families, the first for compute only and the
second for graphics, that reports present support for family 0; otherwise as
`threeImages`. -/
def computeFirst : SwapchainDevice :=
  { threeImages with queueFamilies := [VK_QUEUE_COMPUTE_BIT, VK_QUEUE_GRAPHICS_BIT] }

/-- The three-slot renderer with the instance, window, device and the other
handles set, and one semaphore in the recycled pool. -/
def running : Renderer :=
  { threeSlots with
    m_vulkan := 1, m_window := 2, m_device := 3, m_gpu := 4, m_surface := 5, m_deviceQueue := 6,
    m_renderPass := 8, m_pipelineLayout := 9, m_graphicsPipeline := 70,
    m_vertexBuffer := { handle := 71 }, m_indexBuffer := { handle := 72 },
    m_recycledSemaphores := [55] }

/-- The effect idles the device or creates or destroys a swapchain, its image
views or the resources of a frame slot: the calls of a surface recreation. -/
def Effect.isRecreation : Effect → Bool
  | .vkDeviceWaitIdle _ => true
  | .vkCreateSwapchainKHR _ _ => true
  | .vkDestroySwapchainKHR _ => true
  | .vkGetSwapchainImagesKHR _ _ => true
  | .vkCreateImageView _ _ => true
  | .vkDestroyImageView _ => true
  | .vkCreateFence _ _ _ => true
  | .vkDestroyFence _ => true
  | .vkCreateCommandPool _ _ _ _ => true
  | .vkDestroyCommandPool _ => true
  | .vkAllocateCommandBuffers _ _ _ _ => true
  | .vkFreeCommandBuffers _ _ => true
  | _ => false

/-- The effect is one `NextImage` can emit. -/
def Effect.ofNextImage : Effect → Bool
  | .vkCreateSemaphore _ _ => true
  | .pop_back _ => true
  | .vkAcquireNextImageKHR _ _ _ _ => true
  | .push_back _ => true
  | .vkWaitForFences _ _ _ => true
  | .vkResetFences _ => true
  | .vkResetCommandPool _ _ => true
  | _ => false

/-- The effect is one `Render` or `Present` can emit, a queue submission
apart. -/
def Effect.ofRenderPresent : Effect → Bool
  | .vkCreateSemaphore _ _ => true
  | .vkQueuePresentKHR _ _ => true
  | e => e.isRecording

/-- The renderer holds the semaphore `h`: in the recycled pool, or as the
acquire or release semaphore of a slot. -/
def HoldsSemaphore (s : Renderer) (h : Handle) : Prop :=
  h ∈ s.m_recycledSemaphores ∨
    ∃ f ∈ s.m_perFrameData, f.swapchainAcquireSemaphore = h ∨ f.swapchainReleaseSemaphore = h

/-! ## Lemmas on `NextImage` -/

theorem aquireSemaphore_state (s : Renderer) (create : VkResult × Handle) :
    (NextImage.aquireSemaphore s create).state =
      { s with m_recycledSemaphores := s.m_recycledSemaphores.dropLast } := by
  unfold NextImage.aquireSemaphore
  cases hl : s.m_recycledSemaphores.getLast? with
  | none =>
    have hnil : s.m_recycledSemaphores = [] := List.getLast?_eq_none_iff.mp hl
    cases s
    simp only at hnil
    subst hnil
    simp only []
    split <;> rfl
  | some back => rfl

theorem aquireSemaphore_returns (s : Renderer) (create : VkResult × Handle)
    (h : s.m_recycledSemaphores = [] → create.1 = VK_SUCCESS) :
    ∃ sem, (NextImage.aquireSemaphore s create).out = .returned sem := by
  unfold NextImage.aquireSemaphore
  cases hl : s.m_recycledSemaphores.getLast? with
  | none =>
    have hc := h (List.getLast?_eq_none_iff.mp hl)
    exact ⟨create.2, by simp [hc]⟩
  | some back => exact ⟨back, rfl⟩

theorem aquireSemaphore_fail (s : Renderer) (create : VkResult × Handle)
    (hnil : s.m_recycledSemaphores = []) (h : create.1 ≠ VK_SUCCESS) :
    NextImage.aquireSemaphore s create =
      ⟨s, [.vkCreateSemaphore create.1 create.2], .raised "Could not create new semaphore"⟩ := by
  unfold NextImage.aquireSemaphore
  simp [hnil, h]

/-- `NextImage` when the semaphore `sem` is obtained and the acquire reports
success with a valid index. -/
theorem nextImage_success (s : Renderer) (dev : NextImageDevice) (i : Nat)
    (frame : PerFrameData) (sem : Handle) (hslot : s.m_perFrameData[i]? = some frame)
    (hsem : (NextImage.aquireSemaphore s dev.vkCreateSemaphore).out = .returned sem)
    (hacq : dev.vkAcquireNextImageKHR = (VK_SUCCESS, i)) :
    NextImage s dev =
      ⟨{ s with
          m_recycledSemaphores :=
            if frame.swapchainAcquireSemaphore ≠ 0 then
              s.m_recycledSemaphores.dropLast ++ [frame.swapchainAcquireSemaphore]
            else s.m_recycledSemaphores.dropLast
          m_perFrameData := s.m_perFrameData.set i
            { frame with swapchainAcquireSemaphore := sem } },
        (NextImage.aquireSemaphore s dev.vkCreateSemaphore).effects ++
          [.vkAcquireNextImageKHR s.m_swapchain UINT64_MAX sem 0] ++
          (if frame.queueSubmitFence ≠ 0 then
            [.vkWaitForFences frame.queueSubmitFence true UINT64_MAX,
              .vkResetFences frame.queueSubmitFence]
           else []) ++
          (if frame.primaryCmdPool ≠ 0 then [.vkResetCommandPool frame.primaryCmdPool 0]
           else []) ++
          (if frame.swapchainAcquireSemaphore ≠ 0 then
            [.push_back frame.swapchainAcquireSemaphore]
           else []),
        .returned (VK_SUCCESS, i)⟩ := by
  unfold NextImage
  simp only [hsem, aquireSemaphore_state]
  simp [hacq, hslot]

/-- `NextImage` when the semaphore `sem` is obtained and the acquire reports a
status other than success. -/
theorem nextImage_failure (s : Renderer) (dev : NextImageDevice) (sem : Handle)
    (hsem : (NextImage.aquireSemaphore s dev.vkCreateSemaphore).out = .returned sem)
    (hacq : dev.vkAcquireNextImageKHR.1 ≠ VK_SUCCESS) :
    NextImage s dev =
      ⟨{ s with m_recycledSemaphores := s.m_recycledSemaphores.dropLast ++ [sem] },
        (NextImage.aquireSemaphore s dev.vkCreateSemaphore).effects ++
          [.vkAcquireNextImageKHR s.m_swapchain UINT64_MAX sem 0, .push_back sem],
        .returned (dev.vkAcquireNextImageKHR.1, dev.vkAcquireNextImageKHR.2)⟩ := by
  unfold NextImage
  simp only [hsem, aquireSemaphore_state]
  simp [hacq]

/-- `NextImage` when the creation of the semaphore fails. -/
theorem nextImage_raise (s : Renderer) (dev : NextImageDevice)
    (hnil : s.m_recycledSemaphores = []) (h : dev.vkCreateSemaphore.1 ≠ VK_SUCCESS) :
    NextImage s dev =
      ⟨s, [.vkCreateSemaphore dev.vkCreateSemaphore.1 dev.vkCreateSemaphore.2],
        .raised "Could not create new semaphore"⟩ := by
  unfold NextImage
  rw [aquireSemaphore_fail s _ hnil h]

/-! ## Lemmas on `CreateSwapchain` -/

/-- `InitPerFrameData` returns exactly when both checked creations succeed, and
then the slot holds the three handles the driver wrote. -/
theorem initPerFrameData_returned (fam : Int) (p : PerFrameData) (d : PerFrameDevice)
    (h : (InitPerFrameData fam p d).2.2 = .returned ()) :
    d.vkCreateFence.1 = VK_SUCCESS ∧ d.vkCreateCommandPool.1 = VK_SUCCESS ∧
      (InitPerFrameData fam p d).1 =
        { p with
          queueSubmitFence := d.vkCreateFence.2
          primaryCmdPool := d.vkCreateCommandPool.2
          primaryCmdBuffer := d.vkAllocateCommandBuffers.2 } ∧
      (InitPerFrameData fam p d).2.1 =
        [.vkCreateFence VK_FENCE_CREATE_SIGNALED_BIT d.vkCreateFence.1 d.vkCreateFence.2,
          .vkCreateCommandPool VK_COMMAND_POOL_CREATE_TRANSIENT_BIT fam
            d.vkCreateCommandPool.1 d.vkCreateCommandPool.2,
          .vkAllocateCommandBuffers d.vkCreateCommandPool.2 1
            d.vkAllocateCommandBuffers.1 d.vkAllocateCommandBuffers.2] := by
  unfold InitPerFrameData at h ⊢
  by_cases h1 : d.vkCreateFence.1 = VK_SUCCESS
  · by_cases h2 : d.vkCreateCommandPool.1 = VK_SUCCESS
    · simp [h1, h2]
    · simp [h1, h2] at h
  · simp [h1] at h

/-- When the loop of `InitPerFrameData` calls returns, slot `k` holds the
handles the driver wrote for it and keeps its two semaphore members. -/
theorem initLoop_returned (fam : Int) (dev : Nat → PerFrameDevice) :
    ∀ (frames : List PerFrameData) (i : Nat),
      (CreateSwapchain.initLoop fam dev i frames).2.2 = .returned () →
      (CreateSwapchain.initLoop fam dev i frames).1.length = frames.length ∧
      ∀ k frame, frames[k]? = some frame →
        (dev (i + k)).vkCreateFence.1 = VK_SUCCESS ∧
        (dev (i + k)).vkCreateCommandPool.1 = VK_SUCCESS ∧
        (CreateSwapchain.initLoop fam dev i frames).1[k]? =
          some { frame with
            queueSubmitFence := (dev (i + k)).vkCreateFence.2
            primaryCmdPool := (dev (i + k)).vkCreateCommandPool.2
            primaryCmdBuffer := (dev (i + k)).vkAllocateCommandBuffers.2 } := by
  intro frames
  induction frames with
  | nil =>
    intro i _
    exact ⟨rfl, fun k frame hk => by simp at hk⟩
  | cons p rest ih =>
    intro i h
    unfold CreateSwapchain.initLoop at h ⊢
    rcases hinit : InitPerFrameData fam p (dev i) with ⟨p1, effects, out⟩
    rw [hinit] at h
    cases out with
    | raised msg => simp at h
    | undefined => simp at h
    | returned u =>
      simp only at h ⊢
      have hp := initPerFrameData_returned fam p (dev i) (by rw [hinit])
      rw [hinit] at hp
      obtain ⟨hlen, hk⟩ := ih (i + 1) h
      refine ⟨by simp [hlen], ?_⟩
      intro k frame hframe
      cases k with
      | zero =>
        simp only [List.getElem?_cons_zero, Option.some.injEq] at hframe
        subst hframe
        simp only [Nat.add_zero, List.getElem?_cons_zero]
        exact ⟨hp.1, hp.2.1, congrArg some hp.2.2.1⟩
      | succ k =>
        simp only [List.getElem?_cons_succ] at hframe ⊢
        have := hk k frame hframe
        rw [show i + (k + 1) = i + 1 + k by omega]
        exact this

/-- When `CreateSwapchain` returns, the pool of recycled semaphores is the one
it started with, there are as many slots as the driver reports images, and
slot `k` holds the handles the driver wrote for it and no semaphore. -/
theorem built_frames (r : Renderer) (dev : SwapchainDevice) (s : Renderer)
    (h : Built r dev s) :
    s.m_recycledSemaphores = r.m_recycledSemaphores ∧
    s.m_perFrameData.length = dev.imageCount ∧
    ∀ k, k < dev.imageCount →
      (dev.perFrame k).vkCreateFence.1 = VK_SUCCESS ∧
      (dev.perFrame k).vkCreateCommandPool.1 = VK_SUCCESS ∧
      s.m_perFrameData[k]? =
        some { queueSubmitFence := (dev.perFrame k).vkCreateFence.2
               primaryCmdPool := (dev.perFrame k).vkCreateCommandPool.2
               primaryCmdBuffer := (dev.perFrame k).vkAllocateCommandBuffers.2
               swapchainAcquireSemaphore := 0
               swapchainReleaseSemaphore := 0 } := by
  obtain ⟨hout, hstate⟩ := h
  unfold CreateSwapchain at hout hstate
  simp only at hout hstate
  split at hout
  · simp at hout
  · split at hout
    · simp at hout
    · split at hout
      · simp at hout
      · rename_i hg hp hc
        simp only [hg, hp, hc, if_false] at hstate
        split at hout
        · simp at hout
        · simp at hout
        · rename_i u hinit
          simp only [hinit] at hstate
          have hl := initLoop_returned _ dev.perFrame (List.replicate dev.imageCount {}) 0
            (by rw [hinit])
          subst hstate
          refine ⟨rfl, by simpa using hl.1, ?_⟩
          intro k hk
          have := hl.2 k {} (by simp [List.getElem?_replicate, hk])
          simpa using this

/-! ## What the calls keep -/

theorem aquireSemaphore_frames (s : Renderer) (create : VkResult × Handle) :
    (NextImage.aquireSemaphore s create).state.m_perFrameData = s.m_perFrameData := by
  rw [aquireSemaphore_state]

theorem framesKept_refl (s : Renderer) : FramesKept s s :=
  ⟨rfl, fun _ f h => ⟨f, h, rfl, rfl, rfl⟩⟩

theorem framesKept_trans {s t u : Renderer} (h1 : FramesKept s t) (h2 : FramesKept t u) :
    FramesKept s u := by
  refine ⟨h2.1.trans h1.1, ?_⟩
  intro k f hf
  obtain ⟨f1, hf1, a1, a2, a3⟩ := h2.2 k f hf
  obtain ⟨f0, hf0, b1, b2, b3⟩ := h1.2 k f1 hf1
  exact ⟨f0, hf0, a1.trans b1, a2.trans b2, a3.trans b3⟩

theorem framesKept_of_eq {s t : Renderer} (h : t.m_perFrameData = s.m_perFrameData) :
    FramesKept s t := by
  refine ⟨by rw [h], ?_⟩
  intro k f hf
  rw [h] at hf
  exact ⟨f, hf, rfl, rfl, rfl⟩

theorem framesKept_of_set {s t : Renderer} (i : Nat) (frame frame1 : PerFrameData)
    (hslot : s.m_perFrameData[i]? = some frame) (hsame : SameHandles frame frame1)
    (h : t.m_perFrameData = s.m_perFrameData.set i frame1) : FramesKept s t := by
  refine ⟨by rw [h, List.length_set], ?_⟩
  intro k f hf
  rw [h] at hf
  by_cases hk : i = k
  · subst hk
    rw [List.getElem?_set] at hf
    simp only [if_true] at hf
    split at hf
    · simp only [Option.some.injEq] at hf
      subst hf
      exact ⟨frame, hslot, hsame⟩
    · simp at hf
  · rw [List.getElem?_set_ne hk] at hf
    exact ⟨f, hf, rfl, rfl, rfl⟩

/-- `NextImage` changes the slots at most by storing a semaphore as the acquire
semaphore of one slot. -/
theorem nextImage_frames (s : Renderer) (dev : NextImageDevice) :
    (NextImage s dev).state.m_perFrameData = s.m_perFrameData ∨
    ∃ i frame sem, s.m_perFrameData[i]? = some frame ∧
      (NextImage s dev).state.m_perFrameData =
        s.m_perFrameData.set i { frame with swapchainAcquireSemaphore := sem } := by
  unfold NextImage
  simp only
  split
  · exact Or.inl (aquireSemaphore_frames s _)
  · exact Or.inl (aquireSemaphore_frames s _)
  · split
    · exact Or.inl (aquireSemaphore_frames s _)
    · split
      · exact Or.inl (aquireSemaphore_frames s _)
      · rename_i sem _ _ _ frame hframe
        rw [aquireSemaphore_frames] at hframe
        refine Or.inr ⟨_, frame, sem, hframe, ?_⟩
        simp only [aquireSemaphore_frames]

/-- `Render` changes the slots at most by storing a semaphore as the release
semaphore of one slot. -/
theorem render_frames (s : Renderer) (index : Nat) (dev : RenderDevice) :
    (Render s index dev).state.m_perFrameData = s.m_perFrameData ∨
    ∃ frame sem, s.m_perFrameData[index]? = some frame ∧
      (Render s index dev).state.m_perFrameData =
        s.m_perFrameData.set index { frame with swapchainReleaseSemaphore := sem } := by
  unfold Render
  split
  · rename_i framebuffer frame hfb hframe
    simp only
    split
    · exact Or.inl rfl
    · refine Or.inr ⟨frame, if frame.swapchainReleaseSemaphore = 0 then dev.vkCreateSemaphore.2
        else frame.swapchainReleaseSemaphore, hframe, ?_⟩
      simp only
      congr 1
      split <;> rfl
  · exact Or.inl rfl

theorem present_state (s : Renderer) (index : Nat) (dev : VkResult) :
    (Present s index dev).state = s := by
  unfold Present
  split <;> rfl

theorem nextImage_kept (s : Renderer) (dev : NextImageDevice) :
    FramesKept s (NextImage s dev).state := by
  rcases nextImage_frames s dev with h | ⟨i, frame, sem, hslot, h⟩
  · exact framesKept_of_eq h
  · exact framesKept_of_set i frame { frame with swapchainAcquireSemaphore := sem } hslot
      ⟨rfl, rfl, rfl⟩ h

theorem render_kept (s : Renderer) (index : Nat) (dev : RenderDevice) :
    FramesKept s (Render s index dev).state := by
  rcases render_frames s index dev with h | ⟨frame, sem, hslot, h⟩
  · exact framesKept_of_eq h
  · exact framesKept_of_set index frame { frame with swapchainReleaseSemaphore := sem } hslot
      ⟨rfl, rfl, rfl⟩ h

/-- No call of the frame loop changes the number of slots or the fence, command
pool or command buffer of a slot. -/
theorem steps_kept {s t : Renderer} (h : Steps s t) : FramesKept s t := by
  induction h with
  | refl => exact framesKept_refl _
  | others _ t1 hframes _ ih => exact framesKept_trans ih (framesKept_of_eq hframes)
  | nextImage _ dev ih => exact framesKept_trans ih (nextImage_kept _ dev)
  | render _ index dev ih => exact framesKept_trans ih (render_kept _ index dev)
  | present _ index dev ih =>
    exact framesKept_trans ih (framesKept_of_eq (by rw [present_state]))

theorem steps_trans {s t u : Renderer} (h1 : Steps s t) (h2 : Steps t u) : Steps s u := by
  induction h2 with
  | refl => exact h1
  | others _ t1 hframes hrecycled ih => exact Steps.others ih t1 hframes hrecycled
  | nextImage _ dev ih => exact Steps.nextImage ih dev
  | render _ index dev ih => exact Steps.render ih index dev
  | present _ index dev ih => exact Steps.present ih index dev

/-- In every state reachable from the one `CreateSwapchain` builds with a
conforming driver, every slot has a fence and a command pool. -/
theorem reachable_ready (r : Renderer) (dev : SwapchainDevice) (s0 s : Renderer)
    (hdev : dev.Conforms) (hb : Built r dev s0) (hs : Steps s0 s) (i : Nat)
    (frame : PerFrameData) (hslot : s.m_perFrameData[i]? = some frame) :
    frame.queueSubmitFence ≠ 0 ∧ frame.primaryCmdPool ≠ 0 ∧
      frame.queueSubmitFence = (dev.perFrame i).vkCreateFence.2 ∧ i < dev.imageCount := by
  obtain ⟨f0, hf0, h1, h2, _⟩ := (steps_kept hs).2 i frame hslot
  obtain ⟨_, hlen, hk⟩ := built_frames r dev s0 hb
  have hi : i < dev.imageCount := by
    rw [← hlen]
    exact (List.getElem?_eq_some_iff.mp hf0).1
  obtain ⟨c1, c2, hk⟩ := hk i hi
  rw [hk] at hf0
  simp only [Option.some.injEq] at hf0
  subst hf0
  simp only at h1 h2
  rw [h1, h2]
  exact ⟨(hdev i).1 c1, (hdev i).2 c2, rfl, hi⟩

/-! ## The semaphore obtained for the acquire -/

/-- Lines 668-681 either create a semaphore (empty pool) or take the last
element out of the pool. -/
theorem aquireSemaphore_cases (s : Renderer) (create : VkResult × Handle) :
    (s.m_recycledSemaphores = [] ∧
      (NextImage.aquireSemaphore s create).effects =
        [.vkCreateSemaphore create.1 create.2] ∧
      ∀ sem, (NextImage.aquireSemaphore s create).out = .returned sem →
        sem = create.2 ∧ create.1 = VK_SUCCESS) ∨
    (∃ rest back, s.m_recycledSemaphores = rest ++ [back] ∧
      (NextImage.aquireSemaphore s create).effects = [.pop_back back] ∧
      (NextImage.aquireSemaphore s create).out = .returned back) := by
  unfold NextImage.aquireSemaphore
  cases hl : s.m_recycledSemaphores.getLast? with
  | none =>
    left
    refine ⟨List.getLast?_eq_none_iff.mp hl, ?_, ?_⟩
    · simp only []
      split <;> rfl
    · intro sem hsem
      simp only [] at hsem
      split at hsem
      · simp at hsem
      · rename_i hc
        simp only [Outcome.returned.injEq] at hsem
        exact ⟨hsem.symm, not_not.mp hc⟩
  | some back =>
    right
    obtain ⟨rest, hrest⟩ := List.getLast?_eq_some_iff.mp hl
    exact ⟨rest, back, hrest, rfl, rfl⟩

theorem aquireSemaphore_effects_plain (s : Renderer) (create : VkResult × Handle) :
    ∀ e ∈ (NextImage.aquireSemaphore s create).effects,
      e.isReset = false ∧ e.isWait = false ∧ e.isAcquire = false ∧ e.isSubmit = false ∧
        e.isPresent = false ∧ e.isRecording = false ∧ e.isCreateFence = false := by
  intro e he
  rcases aquireSemaphore_cases s create with ⟨_, h, _⟩ | ⟨rest, back, _, h, _⟩
  · rw [h] at he
    simp only [List.mem_singleton] at he
    subst he
    simp [Effect.isReset, Effect.isWait, Effect.isAcquire, Effect.isSubmit, Effect.isPresent,
      Effect.isRecording, Effect.isCreateFence]
  · rw [h] at he
    simp only [List.mem_singleton] at he
    subst he
    simp [Effect.isReset, Effect.isWait, Effect.isAcquire, Effect.isSubmit, Effect.isPresent,
      Effect.isRecording, Effect.isCreateFence]

/-! ## C1 -/

/-- C1. In every state reachable from the one `CreateSwapchain` builds (with a
driver whose successful creations return non-null handles), a `NextImage` whose
acquire request reports success with the index `i` of a slot returns success
and emits, in this order and next to each other, the wait on the fence of slot
`i`, the reset of that fence and the reset of the command pool of slot `i`;
no other wait or reset is emitted, so the command pool is not reset without
the preceding wait on the fence of the slot in the same call. -/
theorem C1_wait_before_pool_reset (r : Renderer) (cdev : SwapchainDevice) (s0 s : Renderer)
    (hdev : cdev.Conforms) (hb : Built r cdev s0) (hs : Steps s0 s)
    (dev : NextImageDevice) (i : Nat) (frame : PerFrameData)
    (hslot : s.m_perFrameData[i]? = some frame)
    (hcreate : s.m_recycledSemaphores = [] → dev.vkCreateSemaphore.1 = VK_SUCCESS)
    (hacq : dev.vkAcquireNextImageKHR = (VK_SUCCESS, i)) :
    (NextImage s dev).out = .returned (VK_SUCCESS, i) ∧
    frame.queueSubmitFence ≠ 0 ∧ frame.primaryCmdPool ≠ 0 ∧
    ∃ before after, (NextImage s dev).effects =
        before ++
          [.vkWaitForFences frame.queueSubmitFence true UINT64_MAX,
            .vkResetFences frame.queueSubmitFence,
            .vkResetCommandPool frame.primaryCmdPool 0] ++ after ∧
      (∀ e ∈ before, e.isReset = false ∧ e.isWait = false) ∧
      (∀ e ∈ after, e.isReset = false ∧ e.isWait = false) := by
  obtain ⟨hfence, hpool, _, _⟩ := reachable_ready r cdev s0 s hdev hb hs i frame hslot
  obtain ⟨sem, hsem⟩ := aquireSemaphore_returns s dev.vkCreateSemaphore hcreate
  rw [nextImage_success s dev i frame sem hslot hsem hacq]
  refine ⟨rfl, hfence, hpool,
    (NextImage.aquireSemaphore s dev.vkCreateSemaphore).effects ++
      [.vkAcquireNextImageKHR s.m_swapchain UINT64_MAX sem 0],
    (if frame.swapchainAcquireSemaphore ≠ 0 then
      [.push_back frame.swapchainAcquireSemaphore] else []), ?_, ?_, ?_⟩
  · simp [hfence, hpool]
  · intro e he
    rcases List.mem_append.mp he with h | h
    · have := aquireSemaphore_effects_plain s dev.vkCreateSemaphore e h
      exact ⟨this.1, this.2.1⟩
    · simp only [List.mem_singleton] at h
      subst h
      exact ⟨rfl, rfl⟩
  · intro e he
    split at he
    · simp only [List.mem_singleton] at he
      subst he
      exact ⟨rfl, rfl⟩
    · simp at he

/-- C1 on the three-slot renderer: `NextImage` answered with index 1 waits on
fence 11, resets it, and then resets command pool 21. -/
theorem C1_wait_before_pool_reset_witness :
    (NextImage threeSlots ⟨(VK_SUCCESS, 50), (VK_SUCCESS, 1)⟩).out =
        .returned (VK_SUCCESS, 1) ∧
    (11 : Handle) ≠ 0 ∧ (21 : Handle) ≠ 0 ∧
    ∃ before after, (NextImage threeSlots ⟨(VK_SUCCESS, 50), (VK_SUCCESS, 1)⟩).effects =
        before ++
          [.vkWaitForFences 11 true UINT64_MAX, .vkResetFences 11,
            .vkResetCommandPool 21 0] ++ after ∧
      (∀ e ∈ before, e.isReset = false ∧ e.isWait = false) ∧
      (∀ e ∈ after, e.isReset = false ∧ e.isWait = false) :=
  C1_wait_before_pool_reset {} threeImages (CreateSwapchain {} threeImages).state threeSlots
    (fun i => ⟨fun _ => by simp [threeImages], fun _ => by simp [threeImages]⟩)
    ⟨rfl, rfl⟩ (Steps.others (Steps.refl _) threeSlots rfl rfl)
    ⟨(VK_SUCCESS, 50), (VK_SUCCESS, 1)⟩ 1
    { queueSubmitFence := 11, primaryCmdPool := 21, primaryCmdBuffer := 31 }
    rfl (fun _ => rfl) rfl

/-! ## The recycled pool -/

theorem createdSemaphores_append (a b : List Effect) :
    createdSemaphores (a ++ b) = createdSemaphores a ++ createdSemaphores b := by
  induction a with
  | nil => rfl
  | cons e rest ih =>
    cases e with
    | vkCreateSemaphore result semaphore =>
      simp only [List.cons_append, createdSemaphores]
      split <;> simp [ih]
    | _ => simpa [createdSemaphores] using ih

/-- The four ways `NextImage` can go. -/
theorem nextImage_cases (s : Renderer) (dev : NextImageDevice) :
    (s.m_recycledSemaphores = [] ∧ dev.vkCreateSemaphore.1 ≠ VK_SUCCESS ∧
      NextImage s dev =
        ⟨s, [.vkCreateSemaphore dev.vkCreateSemaphore.1 dev.vkCreateSemaphore.2],
          .raised "Could not create new semaphore"⟩) ∨
    (∃ sem, (NextImage.aquireSemaphore s dev.vkCreateSemaphore).out = .returned sem ∧
      dev.vkAcquireNextImageKHR.1 ≠ VK_SUCCESS ∧
      NextImage s dev =
        ⟨{ s with m_recycledSemaphores := s.m_recycledSemaphores.dropLast ++ [sem] },
          (NextImage.aquireSemaphore s dev.vkCreateSemaphore).effects ++
            [.vkAcquireNextImageKHR s.m_swapchain UINT64_MAX sem 0, .push_back sem],
          .returned (dev.vkAcquireNextImageKHR.1, dev.vkAcquireNextImageKHR.2)⟩) ∨
    (∃ sem, (NextImage.aquireSemaphore s dev.vkCreateSemaphore).out = .returned sem ∧
      dev.vkAcquireNextImageKHR.1 = VK_SUCCESS ∧
      s.m_perFrameData[dev.vkAcquireNextImageKHR.2]? = none ∧
      NextImage s dev =
        ⟨{ s with m_recycledSemaphores := s.m_recycledSemaphores.dropLast },
          (NextImage.aquireSemaphore s dev.vkCreateSemaphore).effects ++
            [.vkAcquireNextImageKHR s.m_swapchain UINT64_MAX sem 0],
          .undefined⟩) ∨
    (∃ sem i frame, (NextImage.aquireSemaphore s dev.vkCreateSemaphore).out = .returned sem ∧
      dev.vkAcquireNextImageKHR = (VK_SUCCESS, i) ∧ s.m_perFrameData[i]? = some frame ∧
      NextImage s dev =
        ⟨{ s with
            m_recycledSemaphores :=
              if frame.swapchainAcquireSemaphore ≠ 0 then
                s.m_recycledSemaphores.dropLast ++ [frame.swapchainAcquireSemaphore]
              else s.m_recycledSemaphores.dropLast
            m_perFrameData := s.m_perFrameData.set i
              { frame with swapchainAcquireSemaphore := sem } },
          (NextImage.aquireSemaphore s dev.vkCreateSemaphore).effects ++
            [.vkAcquireNextImageKHR s.m_swapchain UINT64_MAX sem 0] ++
            (if frame.queueSubmitFence ≠ 0 then
              [.vkWaitForFences frame.queueSubmitFence true UINT64_MAX,
                .vkResetFences frame.queueSubmitFence]
             else []) ++
            (if frame.primaryCmdPool ≠ 0 then [.vkResetCommandPool frame.primaryCmdPool 0]
             else []) ++
            (if frame.swapchainAcquireSemaphore ≠ 0 then
              [.push_back frame.swapchainAcquireSemaphore]
             else []),
          .returned (VK_SUCCESS, i)⟩) := by
  by_cases hc : s.m_recycledSemaphores = [] → dev.vkCreateSemaphore.1 = VK_SUCCESS
  · obtain ⟨sem, hsem⟩ := aquireSemaphore_returns s dev.vkCreateSemaphore hc
    by_cases ha : dev.vkAcquireNextImageKHR.1 = VK_SUCCESS
    · rcases Option.eq_none_or_eq_some (s.m_perFrameData[dev.vkAcquireNextImageKHR.2]?) with
        hslot | ⟨frame, hslot⟩
      ·
        refine Or.inr (Or.inr (Or.inl ⟨sem, hsem, ha, hslot, ?_⟩))
        unfold NextImage
        simp only [hsem, aquireSemaphore_state]
        simp [ha, hslot]
      ·
        have hacq : dev.vkAcquireNextImageKHR = (VK_SUCCESS, dev.vkAcquireNextImageKHR.2) :=
          Prod.ext ha rfl
        exact Or.inr (Or.inr (Or.inr ⟨sem, _, frame, hsem, hacq, hslot,
          nextImage_success s dev _ frame sem hslot hsem hacq⟩))
    · exact Or.inr (Or.inl ⟨sem, hsem, ha, nextImage_failure s dev sem hsem ha⟩)
  · push_neg at hc
    exact Or.inl ⟨hc.1, hc.2, nextImage_raise s dev hc.1 hc.2⟩

theorem getElem?_set_cases {α : Type} (l : List α) (i k : Nat) (x f : α)
    (h : (l.set i x)[k]? = some f) : (k = i ∧ f = x) ∨ (k ≠ i ∧ l[k]? = some f) := by
  by_cases hk : i = k
  · subst hk
    rw [List.getElem?_set] at h
    simp only [if_true] at h
    split at h
    · simp only [Option.some.injEq] at h
      exact Or.inl ⟨rfl, h.symm⟩
    · simp at h
  · rw [List.getElem?_set_ne hk] at h
    exact Or.inr ⟨fun e => hk e.symm, h⟩

theorem mem_created_append_left {h : Handle} {a : List Effect} (b : List Effect)
    (hm : h ∈ createdSemaphores a) : h ∈ createdSemaphores (a ++ b) := by
  rw [createdSemaphores_append]
  exact List.mem_append_left _ hm

/-- What the invariant and freshness give about the semaphore obtained for the
acquire and about the pool it leaves. -/
theorem obtained_facts (history : List Effect) (s : Renderer) (dev : NextImageDevice)
    (hinv : PoolInvariant history s) (hfresh : dev.Fresh history s) (sem : Handle)
    (hsem : (NextImage.aquireSemaphore s dev.vkCreateSemaphore).out = .returned sem)
    (more : List Effect) :
    sem ≠ 0 ∧
    sem ∈ createdSemaphores
      (history ++ ((NextImage.aquireSemaphore s dev.vkCreateSemaphore).effects ++ more)) ∧
    sem ∉ s.m_recycledSemaphores.dropLast ∧
    s.m_recycledSemaphores.dropLast.Nodup ∧
    (∀ h ∈ s.m_recycledSemaphores.dropLast, h ∈ s.m_recycledSemaphores) ∧
    (∀ (k : Nat) (f : PerFrameData), s.m_perFrameData[k]? = some f →
      f.swapchainAcquireSemaphore ≠ sem) := by
  obtain ⟨hnodup, hpool, hslots, _⟩ := hinv
  rcases aquireSemaphore_cases s dev.vkCreateSemaphore with ⟨hnil, heff, hout⟩ |
    ⟨rest, back, hrest, heff, hout⟩
  · obtain ⟨hs, hc⟩ := hout sem hsem
    obtain ⟨hne, hnew⟩ := hfresh hnil hc
    rw [← hs] at hne hnew
    refine ⟨hne, ?_, by simp [hnil], by simp [hnil], by simp [hnil], ?_⟩
    · rw [heff, createdSemaphores_append, createdSemaphores_append]
      simp [createdSemaphores, hc, hs]
    · intro k f hf heq
      have h0 : f.swapchainAcquireSemaphore ≠ 0 := by rw [heq]; exact hne
      exact hnew (heq ▸ (hslots k f hf h0).1)
  · rw [hout] at hsem
    simp only [Outcome.returned.injEq] at hsem
    subst hsem
    have hmem : back ∈ s.m_recycledSemaphores := by rw [hrest]; simp
    rw [hrest] at hnodup
    have hnd := List.nodup_append.mp hnodup
    refine ⟨(hpool back hmem).1, mem_created_append_left _ (hpool back hmem).2, ?_, ?_, ?_, ?_⟩
    · rw [hrest, List.dropLast_concat]
      intro hin
      exact hnd.2.2 hin (List.mem_singleton.mpr rfl)
    · rw [hrest, List.dropLast_concat]
      exact hnd.1
    · intro h hh
      rw [hrest, List.dropLast_concat] at hh
      rw [hrest]
      exact List.mem_append_left _ hh
    · intro k f hf heq
      have h0 : f.swapchainAcquireSemaphore ≠ 0 := by rw [heq]; exact (hpool back hmem).1
      exact (hslots k f hf h0).2 (heq ▸ hmem)

theorem poolInvariant_mono (history more : List Effect) (s : Renderer)
    (hinv : PoolInvariant history s) : PoolInvariant (history ++ more) s := by
  obtain ⟨h1, h2, h3, h4⟩ := hinv
  refine ⟨h1, fun h hh => ⟨(h2 h hh).1, mem_created_append_left _ (h2 h hh).2⟩, ?_, h4⟩
  intro k f hf h0
  exact ⟨mem_created_append_left _ (h3 k f hf h0).1, (h3 k f hf h0).2⟩

/-- One `NextImage` answered with a fresh semaphore keeps the invariant. -/
theorem poolInvariant_step (history : List Effect) (s : Renderer) (dev : NextImageDevice)
    (hinv : PoolInvariant history s) (hfresh : dev.Fresh history s) :
    PoolInvariant (history ++ (NextImage s dev).effects) (NextImage s dev).state := by
  rcases nextImage_cases s dev with ⟨_, _, heq⟩ | ⟨sem, hsem, _, heq⟩ | ⟨sem, hsem, _, _, heq⟩ |
    ⟨sem, i, frame, hsem, _, hslot, heq⟩
  · rw [heq]
    exact poolInvariant_mono _ _ _ hinv
  · rw [heq]
    obtain ⟨f1, f2, f3, f4, f5, f6⟩ := obtained_facts history s dev hinv hfresh sem hsem
      [.vkAcquireNextImageKHR s.m_swapchain UINT64_MAX sem 0, .push_back sem]
    obtain ⟨_, h2, h3, h4⟩ := hinv
    refine ⟨?_, ?_, ?_, h4⟩
    · exact List.nodup_append.mpr ⟨f4, List.nodup_singleton _, fun a ha hb =>
        f3 (List.mem_singleton.mp hb ▸ ha)⟩
    · intro h hh
      rcases List.mem_append.mp hh with hp | hp
      · exact ⟨(h2 h (f5 h hp)).1, mem_created_append_left _ (h2 h (f5 h hp)).2⟩
      · rw [List.mem_singleton.mp hp]
        exact ⟨f1, f2⟩
    · intro k f hf h0
      refine ⟨mem_created_append_left _ (h3 k f hf h0).1, ?_⟩
      intro hin
      rcases List.mem_append.mp hin with hp | hp
      · exact (h3 k f hf h0).2 (f5 _ hp)
      · exact f6 k f hf (List.mem_singleton.mp hp)
  · rw [heq]
    obtain ⟨_, _, _, f4, f5, _⟩ := obtained_facts history s dev hinv hfresh sem hsem
      [.vkAcquireNextImageKHR s.m_swapchain UINT64_MAX sem 0]
    obtain ⟨_, h2, h3, h4⟩ := hinv
    refine ⟨f4, ?_, ?_, h4⟩
    · intro h hh
      exact ⟨(h2 h (f5 h hh)).1, mem_created_append_left _ (h2 h (f5 h hh)).2⟩
    · intro k f hf h0
      exact ⟨mem_created_append_left _ (h3 k f hf h0).1, fun hin => (h3 k f hf h0).2 (f5 _ hin)⟩
  · rw [heq]
    simp only [List.append_assoc]
    obtain ⟨f1, f2, f3, f4, f5, f6⟩ := obtained_facts history s dev hinv hfresh sem hsem
      ([.vkAcquireNextImageKHR s.m_swapchain UINT64_MAX sem 0] ++
        ((if frame.queueSubmitFence ≠ 0 then
            [.vkWaitForFences frame.queueSubmitFence true UINT64_MAX,
              .vkResetFences frame.queueSubmitFence]
          else []) ++
          ((if frame.primaryCmdPool ≠ 0 then [.vkResetCommandPool frame.primaryCmdPool 0]
            else []) ++
            (if frame.swapchainAcquireSemaphore ≠ 0 then
              [.push_back frame.swapchainAcquireSemaphore]
            else []))))
    obtain ⟨_, h2, h3, h4⟩ := hinv
    have hold : frame.swapchainAcquireSemaphore ≠ 0 →
        frame.swapchainAcquireSemaphore ∉ s.m_recycledSemaphores.dropLast :=
      fun h0 hin => (h3 i frame hslot h0).2 (f5 _ hin)
    have hpool : ∀ h, h ∈ (if frame.swapchainAcquireSemaphore ≠ 0 then
          s.m_recycledSemaphores.dropLast ++ [frame.swapchainAcquireSemaphore]
        else s.m_recycledSemaphores.dropLast) →
        h ∈ s.m_recycledSemaphores.dropLast ∨
          (h = frame.swapchainAcquireSemaphore ∧ frame.swapchainAcquireSemaphore ≠ 0) := by
      intro h hh
      split at hh
      · rename_i h0
        rcases List.mem_append.mp hh with hp | hp
        · exact Or.inl hp
        · exact Or.inr ⟨List.mem_singleton.mp hp, h0⟩
      · exact Or.inl hh
    refine ⟨?_, ?_, ?_, ?_⟩
    · simp only
      split
      · rename_i h0
        exact List.nodup_append.mpr ⟨f4, List.nodup_singleton _, fun a ha hb =>
          hold h0 (List.mem_singleton.mp hb ▸ ha)⟩
      · exact f4
    · intro h hh
      rcases hpool h hh with hp | ⟨hp, h0⟩
      · exact ⟨(h2 h (f5 h hp)).1, mem_created_append_left _ (h2 h (f5 h hp)).2⟩
      · rw [hp]
        exact ⟨h0, mem_created_append_left _ (h3 i frame hslot h0).1⟩
    · intro k f hf h0
      rcases getElem?_set_cases _ _ _ _ _ hf with ⟨_, hfe⟩ | ⟨hki, hfo⟩
      · subst hfe
        refine ⟨f2, ?_⟩
        intro hin
        rcases hpool _ hin with hp | ⟨hp, _⟩
        · exact f3 hp
        · exact f6 i frame hslot hp.symm
      · refine ⟨mem_created_append_left _ (h3 k f hfo h0).1, ?_⟩
        intro hin
        rcases hpool _ hin with hp | ⟨hp, _⟩
        · exact (h3 k f hfo h0).2 (f5 _ hp)
        · exact h4 k i f frame hfo hslot hki h0 hp
    · intro j k fj fk hj hk hjk h0
      rcases getElem?_set_cases _ _ _ _ _ hj with ⟨hji, hfj⟩ | ⟨hji, hfj⟩
      · rcases getElem?_set_cases _ _ _ _ _ hk with ⟨hki, _⟩ | ⟨_, hfk⟩
        · exact absurd (hji.trans hki.symm) hjk
        · subst hfj
          exact fun e => f6 k fk hfk e.symm
      · rcases getElem?_set_cases _ _ _ _ _ hk with ⟨_, hfk⟩ | ⟨_, hfk⟩
        · subst hfk
          exact f6 j fj hfj
        · exact h4 j k fj fk hfj hfk hjk h0

/-- The invariant holds along every run of `NextImage` calls answered with
fresh semaphores, from a state with an empty pool and no acquire semaphore. -/
theorem acquireRun_invariant (s0 : Renderer) (hpool : s0.m_recycledSemaphores = [])
    (hacq : ∀ f ∈ s0.m_perFrameData, f.swapchainAcquireSemaphore = 0)
    (history : List Effect) (s : Renderer) (hrun : AcquireRun s0 history s) :
    PoolInvariant history s := by
  induction hrun with
  | start =>
    refine ⟨by simp [hpool], by simp [hpool], ?_, ?_⟩
    · intro k f hf h0
      exact absurd (hacq f (List.getElem?_mem hf)) h0
    · intro j k fj fk hj _ _ h0
      exact absurd (hacq fj (List.getElem?_mem hj)) h0
  | next _ dev hfresh ih => exact poolInvariant_step _ _ dev ih hfresh

/-! ## C2 -/

/-- C2 (retired before reused). Start from a state with an empty recycled pool
and no acquire semaphore in any slot (the state `CreateSwapchain` builds on a
new `Renderer`), and let every semaphore creation return a fresh handle. After
any sequence of `NextImage` calls, successful or not: the pool has no
duplicates, the acquire semaphore of a slot is not in the pool, two different
slots do not store the same (non-null) acquire semaphore, and the semaphore the
next `NextImage` obtains for its acquire differs from the acquire semaphore of
every slot. -/
theorem C2_retired_before_reused (s0 : Renderer) (hpool : s0.m_recycledSemaphores = [])
    (hacq : ∀ f ∈ s0.m_perFrameData, f.swapchainAcquireSemaphore = 0)
    (history : List Effect) (s : Renderer) (hrun : AcquireRun s0 history s) :
    s.m_recycledSemaphores.Nodup ∧
    (∀ f ∈ s.m_perFrameData, f.swapchainAcquireSemaphore ∉ s.m_recycledSemaphores) ∧
    (∀ (j k : Nat) (fj fk : PerFrameData), s.m_perFrameData[j]? = some fj →
      s.m_perFrameData[k]? = some fk → j ≠ k → fj.swapchainAcquireSemaphore ≠ 0 →
        fj.swapchainAcquireSemaphore ≠ fk.swapchainAcquireSemaphore) ∧
    (∀ (dev : NextImageDevice), dev.Fresh history s → ∀ sem,
      (NextImage.aquireSemaphore s dev.vkCreateSemaphore).out = .returned sem →
        ∀ f ∈ s.m_perFrameData, f.swapchainAcquireSemaphore ≠ sem) := by
  have hinv := acquireRun_invariant s0 hpool hacq history s hrun
  refine ⟨hinv.1, ?_, hinv.2.2.2, ?_⟩
  · intro f hf hin
    obtain ⟨k, hk⟩ := List.mem_iff_getElem?.mp hf
    have h0 : f.swapchainAcquireSemaphore ≠ 0 := (hinv.2.1 _ hin).1
    exact (hinv.2.2.1 k f hk h0).2 hin
  · intro dev hfresh sem hsem f hf
    obtain ⟨k, hk⟩ := List.mem_iff_getElem?.mp hf
    exact (obtained_facts history s dev hinv hfresh sem hsem []).2.2.2.2.2 k f hk

/-- C2 on the three-slot renderer after one successful and one failed
`NextImage`. -/
theorem C2_retired_before_reused_witness :
    (NextImage (NextImage threeSlots ⟨(VK_SUCCESS, 50), (VK_SUCCESS, 1)⟩).state
        ⟨(VK_SUCCESS, 51), (VK_ERROR_OUT_OF_DATE_KHR, 0)⟩).state.m_recycledSemaphores = [51] ∧
    (NextImage (NextImage threeSlots ⟨(VK_SUCCESS, 50), (VK_SUCCESS, 1)⟩).state
        ⟨(VK_SUCCESS, 51), (VK_ERROR_OUT_OF_DATE_KHR, 0)⟩).state.m_recycledSemaphores.Nodup ∧
    (∀ f ∈ (NextImage (NextImage threeSlots ⟨(VK_SUCCESS, 50), (VK_SUCCESS, 1)⟩).state
        ⟨(VK_SUCCESS, 51), (VK_ERROR_OUT_OF_DATE_KHR, 0)⟩).state.m_perFrameData,
      f.swapchainAcquireSemaphore ∉
        (NextImage (NextImage threeSlots ⟨(VK_SUCCESS, 50), (VK_SUCCESS, 1)⟩).state
          ⟨(VK_SUCCESS, 51), (VK_ERROR_OUT_OF_DATE_KHR, 0)⟩).state.m_recycledSemaphores) :=
  have h := C2_retired_before_reused threeSlots rfl (by decide) _ _
    (AcquireRun.next
      (AcquireRun.next AcquireRun.start ⟨(VK_SUCCESS, 50), (VK_SUCCESS, 1)⟩
        (fun _ _ => ⟨by decide, by decide⟩))
      ⟨(VK_SUCCESS, 51), (VK_ERROR_OUT_OF_DATE_KHR, 0)⟩ (fun _ _ => ⟨by decide, by decide⟩))
  ⟨rfl, h.1, h.2.1⟩

/-! ## C3 -/

/-- What a `NextImage` that obtains the semaphore `sem` and is answered with
success and the index `i` of a slot does with the semaphores, in any state:
the previous acquire semaphore of the slot, if not null, is appended to what
the pool held at the request; `sem` becomes the acquire semaphore of the slot;
the wait of lines 691-695, made when the slot has a fence, comes before every
insertion into the pool. -/
theorem nextImage_recycles (s : Renderer) (dev : NextImageDevice) (i : Nat)
    (frame : PerFrameData) (sem : Handle) (hslot : s.m_perFrameData[i]? = some frame)
    (hsem : (NextImage.aquireSemaphore s dev.vkCreateSemaphore).out = .returned sem)
    (hacq : dev.vkAcquireNextImageKHR = (VK_SUCCESS, i)) :
    (NextImage s dev).out = .returned (VK_SUCCESS, i) ∧
    (frame.swapchainAcquireSemaphore ≠ 0 →
      (NextImage s dev).state.m_recycledSemaphores =
        (NextImage.aquireSemaphore s dev.vkCreateSemaphore).state.m_recycledSemaphores ++
          [frame.swapchainAcquireSemaphore]) ∧
    (frame.swapchainAcquireSemaphore = 0 →
      (NextImage s dev).state.m_recycledSemaphores =
        (NextImage.aquireSemaphore s dev.vkCreateSemaphore).state.m_recycledSemaphores) ∧
    (NextImage s dev).state.m_perFrameData[i]? =
      some { frame with swapchainAcquireSemaphore := sem } ∧
    (frame.queueSubmitFence ≠ 0 →
      ∃ before after, (NextImage s dev).effects =
          before ++ [.vkWaitForFences frame.queueSubmitFence true UINT64_MAX] ++ after ∧
        (∀ h, Effect.push_back h ∉ before) ∧
        (frame.swapchainAcquireSemaphore ≠ 0 →
          Effect.push_back frame.swapchainAcquireSemaphore ∈ after)) ∧
    (frame.queueSubmitFence = 0 → ∀ e ∈ (NextImage s dev).effects, e.isWait = false) := by
  have hi : i < s.m_perFrameData.length := (List.getElem?_eq_some_iff.mp hslot).1
  rw [nextImage_success s dev i frame sem hslot hsem hacq, aquireSemaphore_state]
  refine ⟨rfl, ?_, ?_, ?_, ?_, ?_⟩
  · intro h0
    simp [h0]
  · intro h0
    simp [h0]
  · simp only [List.getElem?_set, hi, if_true]
  · intro hfence
    refine ⟨(NextImage.aquireSemaphore s dev.vkCreateSemaphore).effects ++
        [.vkAcquireNextImageKHR s.m_swapchain UINT64_MAX sem 0],
      [.vkResetFences frame.queueSubmitFence] ++
        (if frame.primaryCmdPool ≠ 0 then [.vkResetCommandPool frame.primaryCmdPool 0]
          else []) ++
        (if frame.swapchainAcquireSemaphore ≠ 0 then
          [.push_back frame.swapchainAcquireSemaphore] else []), ?_, ?_, ?_⟩
    · simp [hfence]
    · intro h hin
      rcases List.mem_append.mp hin with hp | hp
      · rcases aquireSemaphore_cases s dev.vkCreateSemaphore with ⟨_, he, _⟩ |
          ⟨rest, back, _, he, _⟩
        · rw [he] at hp
          simp at hp
        · rw [he] at hp
          simp at hp
      · simp at hp
    · intro h0
      simp [h0]
  · intro hfence e he
    simp only [hfence, ne_eq, not_true_eq_false, if_false, List.append_nil] at he
    rcases List.mem_append.mp he with hp | hp
    · rcases List.mem_append.mp hp with hq | hq
      · rcases List.mem_append.mp hq with hr | hr
        · exact (aquireSemaphore_effects_plain s dev.vkCreateSemaphore e hr).2.1
        · simp only [List.mem_singleton] at hr
          subst hr
          rfl
      · split at hq
        · simp only [List.mem_singleton] at hq
          subst hq
          rfl
        · simp at hq
    · split at hp
      · simp only [List.mem_singleton] at hp
        subst hp
        rfl
      · simp at hp

/-- C3. In every state reachable from the one `CreateSwapchain` builds (with a
driver whose successful creations return non-null handles), for every
`NextImage` that obtains the semaphore `sem` and whose acquire request reports
success with the index `i` of a slot: the previous acquire semaphore of the
slot, if not null, is appended to what the pool held at the request, and
nothing is appended if it is null; `sem` becomes the acquire semaphore of slot
`i`, whose other members are unchanged; the slot has a fence, the wait on it
without timeout is emitted, and no insertion into the pool is made before that
wait, so the insertion of the previous semaphore happens only after it. -/
theorem C3_previous_semaphore_recycled (r : Renderer) (cdev : SwapchainDevice)
    (s0 s : Renderer) (hdev : cdev.Conforms) (hb : Built r cdev s0) (hs : Steps s0 s)
    (dev : NextImageDevice) (i : Nat) (frame : PerFrameData) (sem : Handle)
    (hslot : s.m_perFrameData[i]? = some frame)
    (hsem : (NextImage.aquireSemaphore s dev.vkCreateSemaphore).out = .returned sem)
    (hacq : dev.vkAcquireNextImageKHR = (VK_SUCCESS, i)) :
    (NextImage s dev).out = .returned (VK_SUCCESS, i) ∧
    (frame.swapchainAcquireSemaphore ≠ 0 →
      (NextImage s dev).state.m_recycledSemaphores =
        (NextImage.aquireSemaphore s dev.vkCreateSemaphore).state.m_recycledSemaphores ++
          [frame.swapchainAcquireSemaphore]) ∧
    (frame.swapchainAcquireSemaphore = 0 →
      (NextImage s dev).state.m_recycledSemaphores =
        (NextImage.aquireSemaphore s dev.vkCreateSemaphore).state.m_recycledSemaphores) ∧
    (NextImage s dev).state.m_perFrameData[i]? =
      some { frame with swapchainAcquireSemaphore := sem } ∧
    frame.queueSubmitFence ≠ 0 ∧
    ∃ before after, (NextImage s dev).effects =
        before ++ [.vkWaitForFences frame.queueSubmitFence true UINT64_MAX] ++ after ∧
      (∀ h, Effect.push_back h ∉ before) ∧
      (frame.swapchainAcquireSemaphore ≠ 0 →
        Effect.push_back frame.swapchainAcquireSemaphore ∈ after) := by
  have h := nextImage_recycles s dev i frame sem hslot hsem hacq
  have hready := (reachable_ready r cdev s0 s hdev hb hs i frame hslot).1
  exact ⟨h.1, h.2.1, h.2.2.1, h.2.2.2.1, hready, h.2.2.2.2.1 hready⟩

/-- C3 on the three-slot renderer: slot 1 acquired twice; the second time its
previous semaphore 50 goes into the pool after the wait on fence 11. -/
theorem C3_previous_semaphore_recycled_witness :
    (NextImage (NextImage threeSlots ⟨(VK_SUCCESS, 50), (VK_SUCCESS, 1)⟩).state
        ⟨(VK_SUCCESS, 51), (VK_SUCCESS, 1)⟩).state.m_recycledSemaphores = [50] ∧
    (NextImage (NextImage threeSlots ⟨(VK_SUCCESS, 50), (VK_SUCCESS, 1)⟩).state
        ⟨(VK_SUCCESS, 51), (VK_SUCCESS, 1)⟩).state.m_perFrameData[1]? =
      some { queueSubmitFence := 11, primaryCmdPool := 21, primaryCmdBuffer := 31,
             swapchainAcquireSemaphore := 51 } ∧
    ∃ before after,
      (NextImage (NextImage threeSlots ⟨(VK_SUCCESS, 50), (VK_SUCCESS, 1)⟩).state
        ⟨(VK_SUCCESS, 51), (VK_SUCCESS, 1)⟩).effects =
          before ++ [.vkWaitForFences 11 true UINT64_MAX] ++ after ∧
        (∀ h, Effect.push_back h ∉ before) ∧ Effect.push_back 50 ∈ after :=
  have h := C3_previous_semaphore_recycled {} threeImages
    (CreateSwapchain {} threeImages).state
    (NextImage threeSlots ⟨(VK_SUCCESS, 50), (VK_SUCCESS, 1)⟩).state
    (fun i => ⟨fun _ => by simp [threeImages], fun _ => by simp [threeImages]⟩)
    ⟨rfl, rfl⟩
    (Steps.nextImage
      (Steps.others (Steps.refl (CreateSwapchain {} threeImages).state) threeSlots rfl rfl)
      ⟨(VK_SUCCESS, 50), (VK_SUCCESS, 1)⟩)
    ⟨(VK_SUCCESS, 51), (VK_SUCCESS, 1)⟩ 1
    { queueSubmitFence := 11, primaryCmdPool := 21, primaryCmdBuffer := 31,
      swapchainAcquireSemaphore := 50 } 51 rfl rfl rfl
  ⟨h.2.1 (by decide), h.2.2.2.1,
    h.2.2.2.2.2.elim fun before hb =>
      hb.elim fun after ha => ⟨before, after, ha.1, ha.2.1, ha.2.2 (by decide)⟩⟩

/-! ## C4 and C5 -/

/-- The creation calls and the acquire requests among the effects of
`NextImage` are those of lines 668-681 followed by at most one request. -/
theorem nextImage_filters (s : Renderer) (dev : NextImageDevice) :
    (NextImage s dev).effects.filter Effect.isCreateSemaphore =
      (NextImage.aquireSemaphore s dev.vkCreateSemaphore).effects.filter
        Effect.isCreateSemaphore ∧
    ((∃ msg, (NextImage.aquireSemaphore s dev.vkCreateSemaphore).out = .raised msg ∧
        (NextImage s dev).effects.filter Effect.isAcquire = []) ∨
      (∃ sem, (NextImage.aquireSemaphore s dev.vkCreateSemaphore).out = .returned sem ∧
        (NextImage s dev).effects.filter Effect.isAcquire =
          [.vkAcquireNextImageKHR s.m_swapchain UINT64_MAX sem 0])) := by
  have hplain : (NextImage.aquireSemaphore s dev.vkCreateSemaphore).effects.filter
      Effect.isAcquire = [] := by
    rw [List.filter_eq_nil_iff]
    intro e he
    simp [(aquireSemaphore_effects_plain s dev.vkCreateSemaphore e he).2.2.1]
  rcases nextImage_cases s dev with ⟨hnil, hc, heq⟩ | ⟨sem, hsem, _, heq⟩ |
    ⟨sem, hsem, _, _, heq⟩ | ⟨sem, i, frame, hsem, _, hslot, heq⟩
  · rw [heq, aquireSemaphore_fail s _ hnil hc]
    exact ⟨rfl, Or.inl ⟨_, rfl, rfl⟩⟩
  · rw [heq]
    refine ⟨?_, Or.inr ⟨sem, hsem, ?_⟩⟩
    · simp [List.filter_append, Effect.isCreateSemaphore]
    · simp [List.filter_append, hplain, Effect.isAcquire]
  · rw [heq]
    refine ⟨?_, Or.inr ⟨sem, hsem, ?_⟩⟩
    · simp [List.filter_append, Effect.isCreateSemaphore]
    · simp [List.filter_append, hplain, Effect.isAcquire]
  · rw [heq]
    refine ⟨?_, Or.inr ⟨sem, hsem, ?_⟩⟩
    · simp only [List.filter_append]
      split <;> split <;> split <;> simp [Effect.isCreateSemaphore]
    · simp only [List.filter_append, hplain]
      split <;> split <;> split <;> simp [Effect.isAcquire]

/-- C4. For every state: when the recycled pool is not empty, `NextImage` takes
its last element out (at the acquire request the pool is the old pool without
that element), creates no semaphore, and passes that element to its one
acquire request; when the pool is empty, `NextImage` makes exactly one creation
call, and the semaphore of every acquire request it makes is the created one
(the request is made when the creation succeeds). -/
theorem C4_recycled_or_created (s : Renderer) (dev : NextImageDevice) :
    (s.m_recycledSemaphores ≠ [] →
      ∃ rest back, s.m_recycledSemaphores = rest ++ [back] ∧
        (NextImage.aquireSemaphore s dev.vkCreateSemaphore).out = .returned back ∧
        (NextImage.aquireSemaphore s dev.vkCreateSemaphore).state.m_recycledSemaphores =
          rest ∧
        (NextImage s dev).effects.filter Effect.isCreateSemaphore = [] ∧
        (NextImage s dev).effects.filter Effect.isAcquire =
          [.vkAcquireNextImageKHR s.m_swapchain UINT64_MAX back 0]) ∧
    (s.m_recycledSemaphores = [] →
      (NextImage s dev).effects.filter Effect.isCreateSemaphore =
        [.vkCreateSemaphore dev.vkCreateSemaphore.1 dev.vkCreateSemaphore.2] ∧
      (NextImage.aquireSemaphore s dev.vkCreateSemaphore).state.m_recycledSemaphores = [] ∧
      (∀ e ∈ (NextImage s dev).effects.filter Effect.isAcquire,
        e = .vkAcquireNextImageKHR s.m_swapchain UINT64_MAX dev.vkCreateSemaphore.2 0) ∧
      (dev.vkCreateSemaphore.1 = VK_SUCCESS →
        (NextImage s dev).effects.filter Effect.isAcquire =
          [.vkAcquireNextImageKHR s.m_swapchain UINT64_MAX dev.vkCreateSemaphore.2 0])) := by
  obtain ⟨hcreate, hacquire⟩ := nextImage_filters s dev
  constructor
  · intro hne
    rcases aquireSemaphore_cases s dev.vkCreateSemaphore with ⟨hnil, _, _⟩ |
      ⟨rest, back, hrest, heff, hout⟩
    · exact absurd hnil hne
    · refine ⟨rest, back, hrest, hout, ?_, ?_, ?_⟩
      · rw [aquireSemaphore_state, hrest]
        simp
      · rw [hcreate, heff]
        rfl
      · rcases hacquire with ⟨msg, hmsg, _⟩ | ⟨sem, hsem, hreq⟩
        · rw [hout] at hmsg
          simp at hmsg
        · rw [hout] at hsem
          simp only [Outcome.returned.injEq] at hsem
          rw [hreq, hsem]
  · intro hnil
    rcases aquireSemaphore_cases s dev.vkCreateSemaphore with ⟨_, heff, hout⟩ |
      ⟨rest, back, hrest, _, _⟩
    · refine ⟨?_, ?_, ?_, ?_⟩
      · rw [hcreate, heff]
        rfl
      · rw [aquireSemaphore_state, hnil]
        rfl
      · intro e he
        rcases hacquire with ⟨msg, _, hreq⟩ | ⟨sem, hsem, hreq⟩
        · rw [hreq] at he
          simp at he
        · rw [hreq] at he
          rw [(hout sem hsem).1] at he
          simpa using he
      · intro hc
        rcases hacquire with ⟨msg, hmsg, _⟩ | ⟨sem, hsem, hreq⟩
        · obtain ⟨sem, hsem⟩ := aquireSemaphore_returns s dev.vkCreateSemaphore (fun _ => hc)
          rw [hsem] at hmsg
          simp at hmsg
        · rw [hreq, (hout sem hsem).1]
    · rw [hrest] at hnil
      simp at hnil

/-- C4 on the three-slot renderer, whose pool is empty: one creation call, and
the created semaphore 50 is passed to the acquire request. -/
theorem C4_recycled_or_created_witness :
    (NextImage threeSlots ⟨(VK_SUCCESS, 50), (VK_SUCCESS, 1)⟩).effects.filter
        Effect.isCreateSemaphore = [.vkCreateSemaphore VK_SUCCESS 50] ∧
    (NextImage threeSlots ⟨(VK_SUCCESS, 50), (VK_SUCCESS, 1)⟩).effects.filter
        Effect.isAcquire = [.vkAcquireNextImageKHR 7 UINT64_MAX 50 0] :=
  have h := (C4_recycled_or_created threeSlots ⟨(VK_SUCCESS, 50), (VK_SUCCESS, 1)⟩).2 rfl
  ⟨h.1, h.2.2.2 rfl⟩

/-- C5. For every state and every status other than success that the acquire
request reports: `NextImage` returns that status, the semaphore it obtained for
the request is in the recycled pool afterwards (appended to what the pool held
at the request), every slot is unchanged, and no fence wait, fence reset or
command-pool reset is issued. -/
theorem C5_failed_acquire (s : Renderer) (dev : NextImageDevice) (sem : Handle)
    (hsem : (NextImage.aquireSemaphore s dev.vkCreateSemaphore).out = .returned sem)
    (hacq : dev.vkAcquireNextImageKHR.1 ≠ VK_SUCCESS) :
    (NextImage s dev).out =
      .returned (dev.vkAcquireNextImageKHR.1, dev.vkAcquireNextImageKHR.2) ∧
    sem ∈ (NextImage s dev).state.m_recycledSemaphores ∧
    (NextImage s dev).state.m_recycledSemaphores =
      (NextImage.aquireSemaphore s dev.vkCreateSemaphore).state.m_recycledSemaphores ++
        [sem] ∧
    (NextImage s dev).state.m_perFrameData = s.m_perFrameData ∧
    (NextImage s dev).effects.filter Effect.isAcquire =
      [.vkAcquireNextImageKHR s.m_swapchain UINT64_MAX sem 0] ∧
    ∀ e ∈ (NextImage s dev).effects, e.isWait = false ∧ e.isReset = false := by
  have hfilter := (nextImage_filters s dev).2
  rw [nextImage_failure s dev sem hsem hacq, aquireSemaphore_state] at *
  refine ⟨rfl, by simp, rfl, rfl, ?_, ?_⟩
  · rcases hfilter with ⟨msg, hmsg, _⟩ | ⟨sem1, hsem1, hreq⟩
    · rw [hsem] at hmsg
      simp at hmsg
    · rw [hsem] at hsem1
      simp only [Outcome.returned.injEq] at hsem1
      rw [hreq, hsem1]
  · intro e he
    rcases List.mem_append.mp he with hp | hp
    · have := aquireSemaphore_effects_plain s dev.vkCreateSemaphore e hp
      exact ⟨this.2.1, this.1⟩
    · simp only [List.mem_cons, List.mem_singleton, List.not_mem_nil, or_false] at hp
      rcases hp with hp | hp <;> subst hp <;> exact ⟨rfl, rfl⟩

/-- C5 on the three-slot renderer: an out-of-date acquire returns that status
and leaves the created semaphore 50 in the pool. -/
theorem C5_failed_acquire_witness :
    (NextImage threeSlots ⟨(VK_SUCCESS, 50), (VK_ERROR_OUT_OF_DATE_KHR, 0)⟩).out =
      .returned (VK_ERROR_OUT_OF_DATE_KHR, 0) ∧
    (50 : Handle) ∈
      (NextImage threeSlots
        ⟨(VK_SUCCESS, 50), (VK_ERROR_OUT_OF_DATE_KHR, 0)⟩).state.m_recycledSemaphores ∧
    (NextImage threeSlots
      ⟨(VK_SUCCESS, 50), (VK_ERROR_OUT_OF_DATE_KHR, 0)⟩).state.m_perFrameData =
        threeSlots.m_perFrameData :=
  have h := C5_failed_acquire threeSlots ⟨(VK_SUCCESS, 50), (VK_ERROR_OUT_OF_DATE_KHR, 0)⟩ 50
    rfl (by decide)
  ⟨h.1, h.2.1, h.2.2.2.1⟩

/-! ## C6 -/

theorem recording_plain (s : Renderer) (framebuffer cmd : Handle) :
    ∀ e ∈ Render.recording s framebuffer cmd,
      e.isAcquire = false ∧ e.isSubmit = false ∧ e.isWait = false ∧ e.isReset = false ∧
        e.isCreateFence = false ∧ e.isPresent = false := by
  intro e he
  simp only [Render.recording, List.mem_cons, List.mem_singleton, List.not_mem_nil,
    or_false] at he
  rcases he with h | h | h | h | h | h | h | h | h <;> subst h <;>
    exact ⟨rfl, rfl, rfl, rfl, rfl, rfl⟩

theorem render_effects_plain (s : Renderer) (index : Nat) (dev : RenderDevice) :
    ∀ e ∈ (Render s index dev).effects,
      e.isAcquire = false ∧ e.isWait = false ∧ e.isReset = false ∧
        e.isCreateFence = false := by
  intro e he
  unfold Render at he
  split at he
  · simp only at he
    split at he
    · have := recording_plain _ _ _ e he
      exact ⟨this.1, this.2.2.1, this.2.2.2.1, this.2.2.2.2.1⟩
    · rcases List.mem_append.mp he with hp | hp
      · rcases List.mem_append.mp hp with hq | hq
        · have := recording_plain _ _ _ e hq
          exact ⟨this.1, this.2.2.1, this.2.2.2.1, this.2.2.2.2.1⟩
        · split at hq
          · simp only [List.mem_singleton] at hq
            subst hq
            exact ⟨rfl, rfl, rfl, rfl⟩
          · simp at hq
      · simp only [List.mem_singleton] at hp
        subst hp
        exact ⟨rfl, rfl, rfl, rfl⟩
  · simp at he

theorem present_effects_plain (s : Renderer) (index : Nat) (dev : VkResult) :
    ∀ e ∈ (Present s index dev).effects,
      e.isAcquire = false ∧ e.isWait = false ∧ e.isReset = false ∧
        e.isCreateFence = false ∧ e.isSubmit = false := by
  intro e he
  unfold Present at he
  split at he
  · simp at he
  · simp only [List.mem_singleton] at he
    subst he
    exact ⟨rfl, rfl, rfl, rfl, rfl⟩

/-- `NextImage` records nothing, submits nothing and presents nothing. -/
theorem nextImage_effects_quiet (s : Renderer) (dev : NextImageDevice) :
    ∀ e ∈ (NextImage s dev).effects,
      e.isRecording = false ∧ e.isSubmit = false ∧ e.isPresent = false ∧
        e.isCreateFence = false := by
  have hplain := aquireSemaphore_effects_plain s dev.vkCreateSemaphore
  have hq : ∀ e ∈ (NextImage.aquireSemaphore s dev.vkCreateSemaphore).effects,
      e.isRecording = false ∧ e.isSubmit = false ∧ e.isPresent = false ∧
        e.isCreateFence = false :=
    fun e he => ⟨(hplain e he).2.2.2.2.2.1, (hplain e he).2.2.2.1, (hplain e he).2.2.2.2.1,
      (hplain e he).2.2.2.2.2.2⟩
  intro e he
  rcases nextImage_cases s dev with ⟨_, _, heq⟩ | ⟨sem, _, _, heq⟩ | ⟨sem, _, _, _, heq⟩ |
    ⟨sem, i, frame, _, _, _, heq⟩
  · rw [heq] at he
    simp only [List.mem_singleton] at he
    subst he
    exact ⟨rfl, rfl, rfl, rfl⟩
  · rw [heq] at he
    rcases List.mem_append.mp he with hp | hp
    · exact hq e hp
    · simp only [List.mem_cons, List.mem_singleton, List.not_mem_nil, or_false] at hp
      rcases hp with hp | hp <;> subst hp <;> exact ⟨rfl, rfl, rfl, rfl⟩
  · rw [heq] at he
    rcases List.mem_append.mp he with hp | hp
    · exact hq e hp
    · simp only [List.mem_singleton] at hp
      subst hp
      exact ⟨rfl, rfl, rfl, rfl⟩
  · rw [heq] at he
    simp only [List.mem_append] at he
    rcases he with ((((hp | hp) | hp) | hp) | hp)
    · exact hq e hp
    · simp only [List.mem_singleton] at hp
      subst hp
      exact ⟨rfl, rfl, rfl, rfl⟩
    · split at hp
      · simp only [List.mem_cons, List.mem_singleton, List.not_mem_nil, or_false] at hp
        rcases hp with hp | hp <;> subst hp <;> exact ⟨rfl, rfl, rfl, rfl⟩
      · simp at hp
    · split at hp
      · simp only [List.mem_singleton] at hp
        subst hp
        exact ⟨rfl, rfl, rfl, rfl⟩
      · simp at hp
    · split at hp
      · simp only [List.mem_singleton] at hp
        subst hp
        exact ⟨rfl, rfl, rfl, rfl⟩
      · simp at hp

/-- How one `NextImage` can end, with the number of acquire requests it
made. -/
theorem nextImage_summary (s : Renderer) (dev : NextImageDevice) :
    (s.m_recycledSemaphores = [] ∧ dev.vkCreateSemaphore.1 ≠ VK_SUCCESS ∧
      (∃ msg, (NextImage s dev).out = .raised msg) ∧
      (NextImage s dev).effects.filter Effect.isAcquire = []) ∨
    ((s.m_recycledSemaphores = [] → dev.vkCreateSemaphore.1 = VK_SUCCESS) ∧
      ((NextImage s dev).effects.filter Effect.isAcquire).length = 1 ∧
      ((dev.vkAcquireNextImageKHR.1 ≠ VK_SUCCESS ∧
          (NextImage s dev).out =
            .returned (dev.vkAcquireNextImageKHR.1, dev.vkAcquireNextImageKHR.2) ∧
          (NextImage s dev).state.m_recycledSemaphores ≠ []) ∨
        (dev.vkAcquireNextImageKHR.1 = VK_SUCCESS ∧
          ((NextImage s dev).out = .undefined ∨
            (NextImage s dev).out = .returned (VK_SUCCESS, dev.vkAcquireNextImageKHR.2))))) := by
  have hmade : ∀ sem, (NextImage.aquireSemaphore s dev.vkCreateSemaphore).out = .returned sem →
      (s.m_recycledSemaphores = [] → dev.vkCreateSemaphore.1 = VK_SUCCESS) ∧
      ((NextImage s dev).effects.filter Effect.isAcquire).length = 1 := by
    intro sem hsem
    constructor
    · intro hnil
      rcases aquireSemaphore_cases s dev.vkCreateSemaphore with ⟨_, _, hout⟩ |
        ⟨rest, back, hrest, _, _⟩
      · exact (hout sem hsem).2
      · rw [hrest] at hnil
        simp at hnil
    · rcases (nextImage_filters s dev).2 with ⟨msg, hmsg, _⟩ | ⟨sem1, _, hreq⟩
      · rw [hsem] at hmsg
        simp at hmsg
      · rw [hreq]
        rfl
  rcases nextImage_cases s dev with ⟨hnil, hc, heq⟩ | ⟨sem, hsem, ha, heq⟩ |
    ⟨sem, hsem, ha, _, heq⟩ | ⟨sem, i, frame, hsem, ha, _, heq⟩
  · left
    refine ⟨hnil, hc, ⟨_, by rw [heq]⟩, ?_⟩
    rw [heq]
    rfl
  · right
    refine ⟨(hmade sem hsem).1, (hmade sem hsem).2, Or.inl ⟨ha, by rw [heq], ?_⟩⟩
    rw [heq]
    simp
  · right
    exact ⟨(hmade sem hsem).1, (hmade sem hsem).2, Or.inr ⟨ha, Or.inl (by rw [heq])⟩⟩
  · right
    refine ⟨(hmade sem hsem).1, (hmade sem hsem).2, Or.inr ⟨by rw [ha], Or.inr ?_⟩⟩
    rw [heq, ha]

/-- What `Update` does after its acquire attempts adds no acquire request, and
when the last result is not success it only logs and returns. -/
theorem finish_effects (s : Renderer) (before : List Effect) (result : VkResult)
    (imageIndex : Nat) (dev : UpdateDevice) :
    ∃ extra, (Update.finish s before result imageIndex dev).effects = before ++ extra ∧
      (∀ e ∈ extra, e.isAcquire = false) ∧
      (result ≠ VK_SUCCESS →
        (∀ e ∈ extra, e.isRecording = false ∧ e.isSubmit = false ∧ e.isPresent = false) ∧
        (Update.finish s before result imageIndex dev).out = .returned ()) := by
  unfold Update.finish
  by_cases hr : result = VK_SUCCESS
  · simp only [hr, ne_eq, not_true_eq_false, if_false, false_implies, and_true]
    have hrender := render_effects_plain s imageIndex dev.render
    have hpresent := present_effects_plain (Render s imageIndex dev.render).state imageIndex
      dev.present
    split
    · exact ⟨_, rfl, fun e he => (hrender e he).1⟩
    · exact ⟨_, rfl, fun e he => (hrender e he).1⟩
    · split
      · refine ⟨(Render s imageIndex dev.render).effects ++
          (Present (Render s imageIndex dev.render).state imageIndex dev.present).effects,
          by simp, ?_⟩
        intro e he
        rcases List.mem_append.mp he with hp | hp
        · exact (hrender e hp).1
        · exact (hpresent e hp).1
      · refine ⟨(Render s imageIndex dev.render).effects ++
          (Present (Render s imageIndex dev.render).state imageIndex dev.present).effects,
          by simp, ?_⟩
        intro e he
        rcases List.mem_append.mp he with hp | hp
        · exact (hrender e hp).1
        · exact (hpresent e hp).1
      · rename_i result1 _
        refine ⟨(Render s imageIndex dev.render).effects ++
          (Present (Render s imageIndex dev.render).state imageIndex dev.present).effects ++
          (if result1 = VK_SUBOPTIMAL_KHR ∨ result1 = VK_ERROR_OUT_OF_DATE_KHR then
            [.LOG "Swapchain image presentation suboptimal or out of date"]
          else if result1 ≠ VK_SUCCESS then [.LOG "Failed to present swapchain image"]
          else []), by simp, ?_⟩
        intro e he
        rcases List.mem_append.mp he with hp | hp
        · rcases List.mem_append.mp hp with hq | hq
          · exact (hrender e hq).1
          · exact (hpresent e hq).1
        · split at hp
          · simp only [List.mem_singleton] at hp
            subst hp
            rfl
          · split at hp
            · simp only [List.mem_singleton] at hp
              subst hp
              rfl
            · simp at hp
  · rw [if_pos hr]
    refine ⟨[.LOG "Could not get next image, idling..."], rfl, ?_, fun _ => ⟨?_, rfl⟩⟩
    · intro e he
      simp only [List.mem_singleton] at he
      subst he
      rfl
    · intro e he
      simp only [List.mem_singleton] at he
      subst he
      exact ⟨rfl, rfl, rfl⟩

theorem filter_acquire_nil (l : List Effect) (h : ∀ e ∈ l, e.isAcquire = false) :
    l.filter Effect.isAcquire = [] := by
  rw [List.filter_eq_nil_iff]
  intro e he
  simp [h e he]

/-- C6. For every state and every behaviour of the driver, one `Update` makes
at most two acquire requests: none exactly when the semaphore for the first
attempt could not be created, and two exactly when the first request was made
and reported suboptimal or out-of-date. When the last request made does not
report success, `Update` records no command, submits nothing, presents nothing
and returns normally. -/
theorem C6_update_retries_once (s : Renderer) (dev : UpdateDevice) :
    ((Update s dev).effects.filter Effect.isAcquire).length ≤ 2 ∧
    (((Update s dev).effects.filter Effect.isAcquire).length = 0 ↔
      ¬ (s.m_recycledSemaphores = [] → dev.first.vkCreateSemaphore.1 = VK_SUCCESS)) ∧
    (((Update s dev).effects.filter Effect.isAcquire).length = 2 ↔
      (s.m_recycledSemaphores = [] → dev.first.vkCreateSemaphore.1 = VK_SUCCESS) ∧
      (dev.first.vkAcquireNextImageKHR.1 = VK_SUBOPTIMAL_KHR ∨
        dev.first.vkAcquireNextImageKHR.1 = VK_ERROR_OUT_OF_DATE_KHR)) ∧
    ((s.m_recycledSemaphores = [] → dev.first.vkCreateSemaphore.1 = VK_SUCCESS) →
      dev.first.vkAcquireNextImageKHR.1 ≠ VK_SUCCESS →
      ((dev.first.vkAcquireNextImageKHR.1 = VK_SUBOPTIMAL_KHR ∨
          dev.first.vkAcquireNextImageKHR.1 = VK_ERROR_OUT_OF_DATE_KHR) →
        dev.second.vkAcquireNextImageKHR.1 ≠ VK_SUCCESS) →
      (∀ e ∈ (Update s dev).effects,
        e.isRecording = false ∧ e.isSubmit = false ∧ e.isPresent = false) ∧
      (Update s dev).out = .returned ()) := by
  have hq1 := nextImage_effects_quiet s dev.first
  rcases nextImage_summary s dev.first with ⟨hnil, hc, ⟨msg, hout⟩, hcount⟩ |
    ⟨hmade, hcount, ⟨hfail, hout, hpool⟩ | ⟨hok, hout | hout⟩⟩
  · -- the semaphore of the first attempt could not be created
    have hU : Update s dev = ⟨(NextImage s dev.first).state, (NextImage s dev.first).effects,
        .raised msg⟩ := by
      simp only [Update, hout]
    have hnot : ¬ (s.m_recycledSemaphores = [] →
        dev.first.vkCreateSemaphore.1 = VK_SUCCESS) := fun h => hc (h hnil)
    have hlen : ((Update s dev).effects.filter Effect.isAcquire).length = 0 := by
      rw [hU]
      simp only [hcount, List.length_nil]
    exact ⟨by omega, ⟨fun _ => hnot, fun _ => hlen⟩,
      ⟨fun h => absurd h (by omega), fun h => absurd h.1 hnot⟩, fun h => absurd h hnot⟩
  · -- the first attempt reports a status other than success
    by_cases hstale : dev.first.vkAcquireNextImageKHR.1 = VK_SUBOPTIMAL_KHR ∨
        dev.first.vkAcquireNextImageKHR.1 = VK_ERROR_OUT_OF_DATE_KHR
    · have hq2 := nextImage_effects_quiet (NextImage s dev.first).state dev.second
      rcases nextImage_summary (NextImage s dev.first).state dev.second with
        ⟨hnil2, _, _, _⟩ | ⟨_, hcount2, ⟨hfail2, hout2, _⟩ | ⟨hok2, hout2 | hout2⟩⟩
      · exact absurd hnil2 hpool
      · obtain ⟨extra, heff, hacq, hrest⟩ := finish_effects (NextImage (NextImage s
          dev.first).state dev.second).state ((NextImage s dev.first).effects ++
            [Effect.LOG "Swapchain image suboptimal or out of date"] ++
            (NextImage (NextImage s dev.first).state dev.second).effects)
          dev.second.vkAcquireNextImageKHR.1 dev.second.vkAcquireNextImageKHR.2 dev
        obtain ⟨hquiet, hret⟩ := hrest hfail2
        have hU : Update s dev = Update.finish (NextImage (NextImage s
            dev.first).state dev.second).state ((NextImage s dev.first).effects ++
              [Effect.LOG "Swapchain image suboptimal or out of date"] ++
              (NextImage (NextImage s dev.first).state dev.second).effects)
            dev.second.vkAcquireNextImageKHR.1 dev.second.vkAcquireNextImageKHR.2 dev := by
          simp only [Update, hout, hstale, if_true, hout2]
        have hlen : ((Update s dev).effects.filter Effect.isAcquire).length = 2 := by
          rw [hU, heff]
          simp only [List.filter_append, List.length_append, hcount, hcount2,
            filter_acquire_nil extra hacq]
          rfl
        refine ⟨by omega, ⟨fun h => absurd h (by omega), fun h => absurd hmade h⟩,
          ⟨fun _ => ⟨hmade, hstale⟩, fun _ => hlen⟩, fun _ _ _ => ⟨?_, by rw [hU]; exact hret⟩⟩
        rw [hU, heff]
        intro e he
        simp only [List.mem_append, List.mem_singleton] at he
        rcases he with ((hp | hp) | hp) | hp
        · exact ⟨(hq1 e hp).1, (hq1 e hp).2.1, (hq1 e hp).2.2.1⟩
        · subst hp
          exact ⟨rfl, rfl, rfl⟩
        · exact ⟨(hq2 e hp).1, (hq2 e hp).2.1, (hq2 e hp).2.2.1⟩
        · exact hquiet e hp
      · have hU : Update s dev = ⟨(NextImage (NextImage s dev.first).state dev.second).state,
            (NextImage s dev.first).effects ++
              [Effect.LOG "Swapchain image suboptimal or out of date"] ++
              (NextImage (NextImage s dev.first).state dev.second).effects, .undefined⟩ := by
          simp only [Update, hout, hstale, if_true, hout2]
        have hlen : ((Update s dev).effects.filter Effect.isAcquire).length = 2 := by
          rw [hU]
          simp only [List.filter_append, List.length_append, hcount, hcount2]
          rfl
        exact ⟨by omega, ⟨fun h => absurd h (by omega), fun h => absurd hmade h⟩,
          ⟨fun _ => ⟨hmade, hstale⟩, fun _ => hlen⟩, fun _ _ h => absurd hok2 (h hstale)⟩
      · obtain ⟨extra, heff, hacq, _⟩ := finish_effects (NextImage (NextImage s
          dev.first).state dev.second).state ((NextImage s dev.first).effects ++
            [Effect.LOG "Swapchain image suboptimal or out of date"] ++
            (NextImage (NextImage s dev.first).state dev.second).effects)
          VK_SUCCESS dev.second.vkAcquireNextImageKHR.2 dev
        have hU : Update s dev = Update.finish (NextImage (NextImage s
            dev.first).state dev.second).state ((NextImage s dev.first).effects ++
              [Effect.LOG "Swapchain image suboptimal or out of date"] ++
              (NextImage (NextImage s dev.first).state dev.second).effects)
            VK_SUCCESS dev.second.vkAcquireNextImageKHR.2 dev := by
          simp only [Update, hout, hstale, if_true, hout2]
        have hlen : ((Update s dev).effects.filter Effect.isAcquire).length = 2 := by
          rw [hU, heff]
          simp only [List.filter_append, List.length_append, hcount, hcount2,
            filter_acquire_nil extra hacq]
          rfl
        exact ⟨by omega, ⟨fun h => absurd h (by omega), fun h => absurd hmade h⟩,
          ⟨fun _ => ⟨hmade, hstale⟩, fun _ => hlen⟩, fun _ _ h => absurd hok2 (h hstale)⟩
    · obtain ⟨extra, heff, hacq, hrest⟩ := finish_effects (NextImage s dev.first).state
        (NextImage s dev.first).effects dev.first.vkAcquireNextImageKHR.1
        dev.first.vkAcquireNextImageKHR.2 dev
      obtain ⟨hquiet, hret⟩ := hrest hfail
      have hU : Update s dev = Update.finish (NextImage s dev.first).state
          (NextImage s dev.first).effects dev.first.vkAcquireNextImageKHR.1
          dev.first.vkAcquireNextImageKHR.2 dev := by
        simp only [Update, hout, hstale, if_false]
      have hlen : ((Update s dev).effects.filter Effect.isAcquire).length = 1 := by
        rw [hU, heff]
        simp only [List.filter_append, List.length_append, hcount,
          filter_acquire_nil extra hacq]
        rfl
      refine ⟨by omega, ⟨fun h => absurd h (by omega), fun h => absurd hmade h⟩,
        ⟨fun h => absurd h (by omega), fun h => absurd h.2 hstale⟩,
        fun _ _ _ => ⟨?_, by rw [hU]; exact hret⟩⟩
      rw [hU, heff]
      intro e he
      rcases List.mem_append.mp he with hp | hp
      · exact ⟨(hq1 e hp).1, (hq1 e hp).2.1, (hq1 e hp).2.2.1⟩
      · exact hquiet e hp
  · -- the first attempt reports success with an index that is out of range
    have hU : Update s dev = ⟨(NextImage s dev.first).state, (NextImage s dev.first).effects,
        .undefined⟩ := by
      simp only [Update, hout]
    have hstale : ¬ (dev.first.vkAcquireNextImageKHR.1 = VK_SUBOPTIMAL_KHR ∨
        dev.first.vkAcquireNextImageKHR.1 = VK_ERROR_OUT_OF_DATE_KHR) := by
      rw [hok]
      decide
    have hlen : ((Update s dev).effects.filter Effect.isAcquire).length = 1 := by
      rw [hU]
      simp only [hcount]
    exact ⟨by omega, ⟨fun h => absurd h (by omega), fun h => absurd hmade h⟩,
      ⟨fun h => absurd h (by omega), fun h => absurd h.2 hstale⟩, fun _ h => absurd hok h⟩
  · -- the first attempt reports success
    have hstale : ¬ (dev.first.vkAcquireNextImageKHR.1 = VK_SUBOPTIMAL_KHR ∨
        dev.first.vkAcquireNextImageKHR.1 = VK_ERROR_OUT_OF_DATE_KHR) := by
      rw [hok]
      decide
    have hstale0 : ¬ (VK_SUCCESS = VK_SUBOPTIMAL_KHR ∨ VK_SUCCESS = VK_ERROR_OUT_OF_DATE_KHR) := by
      decide
    obtain ⟨extra, heff, hacq, _⟩ := finish_effects (NextImage s dev.first).state
      (NextImage s dev.first).effects VK_SUCCESS dev.first.vkAcquireNextImageKHR.2 dev
    have hU : Update s dev = Update.finish (NextImage s dev.first).state
        (NextImage s dev.first).effects VK_SUCCESS dev.first.vkAcquireNextImageKHR.2 dev := by
      simp only [Update, hout, hstale0, if_false]
    have hlen : ((Update s dev).effects.filter Effect.isAcquire).length = 1 := by
      rw [hU, heff]
      simp only [List.filter_append, List.length_append, hcount,
        filter_acquire_nil extra hacq]
      rfl
    exact ⟨by omega, ⟨fun h => absurd h (by omega), fun h => absurd hmade h⟩,
      ⟨fun h => absurd h (by omega), fun h => absurd h.2 hstale⟩, fun _ h => absurd hok h⟩

/-- C6 on the three-slot renderer: the first acquire is out of date and the
retry reports a lost device; two requests, nothing rendered or presented,
normal return. -/
theorem C6_update_retries_once_witness :
    (((Update threeSlots
        ⟨⟨(VK_SUCCESS, 50), (VK_ERROR_OUT_OF_DATE_KHR, 0)⟩,
          ⟨(VK_SUCCESS, 51), (VK_ERROR_DEVICE_LOST, 0)⟩,
          ⟨VK_SUCCESS, (VK_SUCCESS, 52), VK_SUCCESS⟩, VK_SUCCESS⟩).effects.filter
        Effect.isAcquire).length = 2) ∧
    (∀ e ∈ (Update threeSlots
        ⟨⟨(VK_SUCCESS, 50), (VK_ERROR_OUT_OF_DATE_KHR, 0)⟩,
          ⟨(VK_SUCCESS, 51), (VK_ERROR_DEVICE_LOST, 0)⟩,
          ⟨VK_SUCCESS, (VK_SUCCESS, 52), VK_SUCCESS⟩, VK_SUCCESS⟩).effects,
      e.isRecording = false ∧ e.isSubmit = false ∧ e.isPresent = false) ∧
    (Update threeSlots
        ⟨⟨(VK_SUCCESS, 50), (VK_ERROR_OUT_OF_DATE_KHR, 0)⟩,
          ⟨(VK_SUCCESS, 51), (VK_ERROR_DEVICE_LOST, 0)⟩,
          ⟨VK_SUCCESS, (VK_SUCCESS, 52), VK_SUCCESS⟩, VK_SUCCESS⟩).out = .returned () :=
  have h := C6_update_retries_once threeSlots
    ⟨⟨(VK_SUCCESS, 50), (VK_ERROR_OUT_OF_DATE_KHR, 0)⟩,
      ⟨(VK_SUCCESS, 51), (VK_ERROR_DEVICE_LOST, 0)⟩,
      ⟨VK_SUCCESS, (VK_SUCCESS, 52), VK_SUCCESS⟩, VK_SUCCESS⟩
  have hq := h.2.2.2 (fun _ => rfl) (by decide) (fun _ => by decide)
  ⟨h.2.2.1.mpr ⟨fun _ => rfl, Or.inr rfl⟩, hq.1, hq.2⟩

/-! ## C7 and C8 -/

theorem releaseSlot_eq (frame : PerFrameData) (sem : Handle) :
    (if frame.swapchainReleaseSemaphore = 0 then
        { frame with swapchainReleaseSemaphore := sem }
      else frame) =
      { frame with
        swapchainReleaseSemaphore :=
          if frame.swapchainReleaseSemaphore = 0 then sem
          else frame.swapchainReleaseSemaphore } := by
  split <;> rfl

/-- `Render` on a valid index when `vkEndCommandBuffer` reports success. -/
theorem render_ok (s : Renderer) (index : Nat) (dev : RenderDevice) (frame : PerFrameData)
    (framebuffer : Handle) (hslot : s.m_perFrameData[index]? = some frame)
    (hfb : s.m_framebuffers[index]? = some framebuffer)
    (hend : dev.vkEndCommandBuffer = VK_SUCCESS) :
    Render s index dev =
      ⟨{ s with
          m_perFrameData := s.m_perFrameData.set index
            { frame with
              swapchainReleaseSemaphore :=
                if frame.swapchainReleaseSemaphore = 0 then dev.vkCreateSemaphore.2
                else frame.swapchainReleaseSemaphore } },
        Render.recording s framebuffer frame.primaryCmdBuffer ++
          (if frame.swapchainReleaseSemaphore = 0 then
            [.vkCreateSemaphore dev.vkCreateSemaphore.1 dev.vkCreateSemaphore.2]
           else []) ++
          [.vkQueueSubmit s.m_deviceQueue
            { commandBuffers := [frame.primaryCmdBuffer]
              waitSemaphores := [frame.swapchainAcquireSemaphore]
              waitDstStageMask := [VK_PIPELINE_STAGE_COLOR_ATTACHMENT_OUTPUT_BIT]
              signalSemaphores :=
                [if frame.swapchainReleaseSemaphore = 0 then dev.vkCreateSemaphore.2
                  else frame.swapchainReleaseSemaphore] }
            frame.queueSubmitFence],
        .returned ()⟩ := by
  unfold Render
  simp only [hslot, hfb, hend, ne_eq, not_true_eq_false, if_false, releaseSlot_eq]

/-- `Render` on a valid index when `vkEndCommandBuffer` reports a failure. -/
theorem render_raise (s : Renderer) (index : Nat) (dev : RenderDevice) (frame : PerFrameData)
    (framebuffer : Handle) (hslot : s.m_perFrameData[index]? = some frame)
    (hfb : s.m_framebuffers[index]? = some framebuffer)
    (hend : dev.vkEndCommandBuffer ≠ VK_SUCCESS) :
    Render s index dev =
      ⟨s, Render.recording s framebuffer frame.primaryCmdBuffer,
        .raised "Could not end command buffer"⟩ := by
  unfold Render
  simp only [hslot, hfb, hend, ne_eq, not_false_eq_true, if_true]

/-- C7 as stated fails: when `vkEndCommandBuffer` does not report success, the
`ASSERT` of line 795 throws and `Render` makes no queue submission. -/
theorem C7_counterexample :
    (Render threeSlots 0 ⟨VK_ERROR_DEVICE_LOST, (VK_SUCCESS, 52), VK_SUCCESS⟩).out =
      .raised "Could not end command buffer" ∧
    (Render threeSlots 0 ⟨VK_ERROR_DEVICE_LOST, (VK_SUCCESS, 52), VK_SUCCESS⟩).effects.filter
      Effect.isSubmit = [] ∧
    threeSlots.m_perFrameData[0]? =
      some { queueSubmitFence := 10, primaryCmdPool := 20, primaryCmdBuffer := 30 } ∧
    threeSlots.m_framebuffers[0]? = some 60 := by
  refine ⟨rfl, ?_, rfl, rfl⟩
  decide

/-- C7, amended. For every valid slot index (a slot and a framebuffer exist at
`index`): when `vkEndCommandBuffer` reports success, `Render` returns and makes
exactly one queue submission, on `m_deviceQueue`, whose single command buffer
is the command buffer of the slot, whose single wait semaphore is the acquire
semaphore of the slot gated at the color-attachment-output stage, whose single
signal semaphore is the release semaphore of the slot (the one just created if
the slot had none) and whose fence is the fence of the slot; when
`vkEndCommandBuffer` reports anything else, `Render` throws and makes no
submission. -/
theorem C7_render_submission (s : Renderer) (index : Nat) (dev : RenderDevice)
    (frame : PerFrameData) (framebuffer : Handle)
    (hslot : s.m_perFrameData[index]? = some frame)
    (hfb : s.m_framebuffers[index]? = some framebuffer) :
    (dev.vkEndCommandBuffer = VK_SUCCESS →
      (Render s index dev).out = .returned () ∧
      ∃ frame1, (Render s index dev).state.m_perFrameData[index]? = some frame1 ∧
        frame1 =
          { frame with
            swapchainReleaseSemaphore :=
              if frame.swapchainReleaseSemaphore = 0 then dev.vkCreateSemaphore.2
              else frame.swapchainReleaseSemaphore } ∧
        (Render s index dev).effects.filter Effect.isSubmit =
          [.vkQueueSubmit s.m_deviceQueue
            { commandBuffers := [frame1.primaryCmdBuffer]
              waitSemaphores := [frame1.swapchainAcquireSemaphore]
              waitDstStageMask := [VK_PIPELINE_STAGE_COLOR_ATTACHMENT_OUTPUT_BIT]
              signalSemaphores := [frame1.swapchainReleaseSemaphore] }
            frame1.queueSubmitFence]) ∧
    (dev.vkEndCommandBuffer ≠ VK_SUCCESS →
      (Render s index dev).out = .raised "Could not end command buffer" ∧
      (Render s index dev).effects.filter Effect.isSubmit = [] ∧
      (Render s index dev).state = s) := by
  have hi : index < s.m_perFrameData.length := (List.getElem?_eq_some_iff.mp hslot).1
  have hrec : (Render.recording s framebuffer frame.primaryCmdBuffer).filter
      Effect.isSubmit = [] := by
    rw [List.filter_eq_nil_iff]
    intro e he
    simp [(recording_plain _ _ _ e he).2.1]
  constructor
  · intro hend
    rw [render_ok s index dev frame framebuffer hslot hfb hend]
    refine ⟨rfl, _, by simp only [List.getElem?_set, hi, if_true], rfl, ?_⟩
    simp only [List.filter_append, hrec, List.nil_append]
    split <;> simp [Effect.isSubmit, Effect.isCreateSemaphore]
  · intro hend
    rw [render_raise s index dev frame framebuffer hslot hfb hend]
    exact ⟨rfl, hrec, rfl⟩

/-- C7, amended, on the three-slot renderer after `NextImage` stored the
semaphore 50 in slot 1: one submission of command buffer 31, waiting on 50,
signaling the created semaphore 52, with fence 11. -/
theorem C7_render_submission_witness :
    (Render (NextImage threeSlots ⟨(VK_SUCCESS, 50), (VK_SUCCESS, 1)⟩).state 1
        ⟨VK_SUCCESS, (VK_SUCCESS, 52), VK_SUCCESS⟩).out = .returned () ∧
    (Render (NextImage threeSlots ⟨(VK_SUCCESS, 50), (VK_SUCCESS, 1)⟩).state 1
        ⟨VK_SUCCESS, (VK_SUCCESS, 52), VK_SUCCESS⟩).effects.filter Effect.isSubmit =
      [.vkQueueSubmit 0
        { commandBuffers := [31], waitSemaphores := [50],
          waitDstStageMask := [VK_PIPELINE_STAGE_COLOR_ATTACHMENT_OUTPUT_BIT],
          signalSemaphores := [52] } 11] :=
  have h := (C7_render_submission
    (NextImage threeSlots ⟨(VK_SUCCESS, 50), (VK_SUCCESS, 1)⟩).state 1
    ⟨VK_SUCCESS, (VK_SUCCESS, 52), VK_SUCCESS⟩
    { queueSubmitFence := 11, primaryCmdPool := 21, primaryCmdBuffer := 31,
      swapchainAcquireSemaphore := 50 } 61 rfl rfl).1 rfl
  ⟨h.1, h.2.elim fun frame1 hf => by
    obtain ⟨_, hf1, hsub⟩ := hf
    subst hf1
    exact hsub⟩

/-- C8. For every valid slot index, `Present` issues exactly one present
request and nothing else: on `m_deviceQueue`, for the image `index` of the
current swapchain, waiting on exactly the release semaphore of the slot; it
returns the status the driver reports for that request and leaves the whole
renderer state, frame slots and recycled pool included, unchanged. -/
theorem C8_present (s : Renderer) (index : Nat) (dev : VkResult) (frame : PerFrameData)
    (hslot : s.m_perFrameData[index]? = some frame) :
    (Present s index dev).effects =
      [.vkQueuePresentKHR s.m_deviceQueue
        { swapchains := [s.m_swapchain]
          imageIndices := [index]
          waitSemaphores := [frame.swapchainReleaseSemaphore] }] ∧
    (Present s index dev).out = .returned dev ∧
    (Present s index dev).state = s ∧
    (Present s index dev).state.m_perFrameData = s.m_perFrameData ∧
    (Present s index dev).state.m_recycledSemaphores = s.m_recycledSemaphores := by
  have h : Present s index dev =
      ⟨s, [.vkQueuePresentKHR s.m_deviceQueue
        { swapchains := [s.m_swapchain]
          imageIndices := [index]
          waitSemaphores := [frame.swapchainReleaseSemaphore] }], .returned dev⟩ := by
    unfold Present
    simp only [hslot]
  rw [h]
  exact ⟨rfl, rfl, rfl, rfl, rfl⟩

/-- C8 on the three-slot renderer: `Present(2)` with a suboptimal answer. -/
theorem C8_present_witness :
    (Present threeSlots 2 VK_SUBOPTIMAL_KHR).effects =
      [.vkQueuePresentKHR 0
        { swapchains := [7], imageIndices := [2], waitSemaphores := [0] }] ∧
    (Present threeSlots 2 VK_SUBOPTIMAL_KHR).out = .returned VK_SUBOPTIMAL_KHR ∧
    (Present threeSlots 2 VK_SUBOPTIMAL_KHR).state = threeSlots :=
  have h := C8_present threeSlots 2 VK_SUBOPTIMAL_KHR
    { queueSubmitFence := 12, primaryCmdPool := 22, primaryCmdBuffer := 32 } rfl
  ⟨h.1, h.2.1, h.2.2.1⟩

/-! ## The fake device -/

theorem calls_nil (d : FakeDevice) : d.calls [] = some d := rfl

theorem calls_cons (d : FakeDevice) (e : Effect) (rest : List Effect) :
    d.calls (e :: rest) = (d.exec e).bind (fun d1 => d1.calls rest) := by
  simp only [FakeDevice.calls, List.map_cons, FakeDevice.run, FakeDevice.step]
  cases d.exec e <;> rfl

theorem calls_append (d : FakeDevice) (a b : List Effect) :
    d.calls (a ++ b) = (d.calls a).bind (fun d1 => d1.calls b) := by
  induction a generalizing d with
  | nil => rfl
  | cons e rest ih =>
    rw [List.cons_append, calls_cons, calls_cons]
    cases d.exec e with
    | none => rfl
    | some d1 => simp only [Option.some_bind, ih]

theorem exec_untouched (d : FakeDevice) (e : Effect) (h : e.touchesFence = false) :
    d.exec e = some d := by
  cases e <;> first | rfl | simp [Effect.touchesFence] at h

theorem calls_untouched (d : FakeDevice) (es : List Effect)
    (h : ∀ e ∈ es, e.touchesFence = false) : d.calls es = some d := by
  induction es with
  | nil => rfl
  | cons e rest ih =>
    rw [calls_cons, exec_untouched d e (h e (List.mem_cons_self _ _))]
    exact ih (fun e1 he1 => h e1 (List.mem_cons_of_mem _ he1))

/-- A fence that is not signaled stays so through any events that neither
complete it nor create a fence. -/
theorem run_unsignaled (fence : Handle) :
    ∀ (events : List DeviceEvent) (d d1 : FakeDevice), fence ∉ d.signaled →
      (∀ ev ∈ events, ev ≠ .complete fence ∧ ∀ e, ev = .call e → e.isCreateFence = false) →
      d.run events = some d1 → fence ∉ d1.signaled := by
  intro events
  induction events with
  | nil =>
    intro d d1 hd _ hrun
    simp only [FakeDevice.run, Option.some.injEq] at hrun
    rw [← hrun]
    exact hd
  | cons ev rest ih =>
    intro d d1 hd hev hrun
    have hrest : ∀ ev1 ∈ rest, ev1 ≠ .complete fence ∧
        ∀ e, ev1 = .call e → e.isCreateFence = false :=
      fun ev1 h1 => hev ev1 (List.mem_cons_of_mem _ h1)
    obtain ⟨hne, hcall⟩ := hev ev (List.mem_cons_self _ _)
    simp only [FakeDevice.run] at hrun
    cases hstep : d.step ev with
    | none => simp [hstep] at hrun
    | some d2 =>
      simp only [hstep] at hrun
      refine ih d2 d1 ?_ hrest hrun
      cases ev with
      | complete g =>
        simp only [FakeDevice.step, Option.some.injEq] at hstep
        rw [← hstep]
        unfold FakeDevice.complete
        split
        · simp only [List.mem_cons, not_or]
          exact ⟨fun h => hne (by rw [h]), hd⟩
        · exact hd
      | call e =>
        have hcf := hcall e rfl
        simp only [FakeDevice.step] at hstep
        cases e with
        | vkCreateFence flags result g => simp [Effect.isCreateFence] at hcf
        | vkWaitForFences g w t =>
          simp only [FakeDevice.exec] at hstep
          split at hstep
          · simp only [Option.some.injEq] at hstep
            rw [← hstep]
            exact hd
          · simp at hstep
        | vkResetFences g =>
          simp only [FakeDevice.exec, Option.some.injEq] at hstep
          rw [← hstep]
          exact fun h => hd (List.mem_of_mem_filter h)
        | vkQueueSubmit q info g =>
          simp only [FakeDevice.exec, Option.some.injEq] at hstep
          rw [← hstep]
          exact hd
        | _ =>
          simp only [FakeDevice.exec, Option.some.injEq] at hstep
          rw [← hstep]
          exact hd

theorem calls_unsignaled (fence : Handle) (es : List Effect) (d d1 : FakeDevice)
    (hd : fence ∉ d.signaled) (hes : ∀ e ∈ es, e.isCreateFence = false)
    (hrun : d.calls es = some d1) : fence ∉ d1.signaled := by
  refine run_unsignaled fence (es.map DeviceEvent.call) d d1 hd ?_ hrun
  intro ev hev
  obtain ⟨e, he, rfl⟩ := List.mem_map.mp hev
  refine ⟨by simp, ?_⟩
  intro e1 h1
  simp only [DeviceEvent.call.injEq] at h1
  rw [← h1]
  exact hes e he

/-- The calls of the renderer never take a fence out of the pending ones. -/
theorem calls_pending (g : Handle) :
    ∀ (es : List Effect) (d d1 : FakeDevice), g ∈ d.pending → d.calls es = some d1 →
      g ∈ d1.pending := by
  intro es
  induction es with
  | nil =>
    intro d d1 hg hrun
    simp only [calls_nil, Option.some.injEq] at hrun
    rw [← hrun]
    exact hg
  | cons e rest ih =>
    intro d d1 hg hrun
    rw [calls_cons] at hrun
    cases hexec : d.exec e with
    | none => simp [hexec] at hrun
    | some d2 =>
      simp only [hexec, Option.some_bind] at hrun
      refine ih d2 d1 ?_ hrun
      cases e with
      | vkCreateFence flags result f =>
        simp only [FakeDevice.exec] at hexec
        split at hexec
        · split at hexec <;> (simp only [Option.some.injEq] at hexec; rw [← hexec]; exact hg)
        · simp only [Option.some.injEq] at hexec
          rw [← hexec]
          exact hg
      | vkWaitForFences f w t =>
        simp only [FakeDevice.exec] at hexec
        split at hexec
        · simp only [Option.some.injEq] at hexec
          rw [← hexec]
          exact hg
        · simp at hexec
      | vkResetFences f =>
        simp only [FakeDevice.exec, Option.some.injEq] at hexec
        rw [← hexec]
        exact hg
      | vkQueueSubmit q info f =>
        simp only [FakeDevice.exec, Option.some.injEq] at hexec
        rw [← hexec]
        exact List.mem_cons_of_mem _ hg
      | _ =>
        simp only [FakeDevice.exec, Option.some.injEq] at hexec
        rw [← hexec]
        exact hg

theorem aquireSemaphore_untouched (s : Renderer) (create : VkResult × Handle) :
    ∀ e ∈ (NextImage.aquireSemaphore s create).effects, e.touchesFence = false := by
  intro e he
  rcases aquireSemaphore_cases s create with ⟨_, h, _⟩ | ⟨rest, back, _, h, _⟩ <;>
    (rw [h] at he; simp only [List.mem_singleton] at he; subst he; rfl)

/-- The fake device serving a successful `NextImage` on a slot with a fence:
the call returns exactly when the fence is signaled, and leaves it
unsignaled. -/
theorem calls_nextImage (s : Renderer) (dev : NextImageDevice) (i : Nat)
    (frame : PerFrameData) (sem : Handle) (hslot : s.m_perFrameData[i]? = some frame)
    (hsem : (NextImage.aquireSemaphore s dev.vkCreateSemaphore).out = .returned sem)
    (hacq : dev.vkAcquireNextImageKHR = (VK_SUCCESS, i)) (hfence : frame.queueSubmitFence ≠ 0)
    (d : FakeDevice) :
    d.calls (NextImage s dev).effects =
      if frame.queueSubmitFence ∈ d.signaled then
        some { d with signaled := d.signaled.filter (fun f => f ≠ frame.queueSubmitFence) }
      else none := by
  rw [nextImage_success s dev i frame sem hslot hsem hacq]
  simp only [hfence, ne_eq, not_false_eq_true, if_true, List.append_assoc]
  have htail : ∀ d1 : FakeDevice, d1.calls
      ((if ¬frame.primaryCmdPool = 0 then [Effect.vkResetCommandPool frame.primaryCmdPool 0]
        else []) ++
        (if ¬frame.swapchainAcquireSemaphore = 0 then
          [Effect.push_back frame.swapchainAcquireSemaphore] else [])) = some d1 := by
    intro d1
    apply calls_untouched
    intro e he
    rcases List.mem_append.mp he with hp | hp
    · split at hp
      · simp only [List.mem_singleton] at hp
        subst hp
        rfl
      · simp at hp
    · split at hp
      · simp only [List.mem_singleton] at hp
        subst hp
        rfl
      · simp at hp
  rw [calls_append, calls_untouched d _ (aquireSemaphore_untouched s _), Option.some_bind]
  rw [List.singleton_append, calls_cons,
    exec_untouched d (.vkAcquireNextImageKHR s.m_swapchain UINT64_MAX sem 0) rfl,
    Option.some_bind]
  rw [List.cons_append, List.cons_append, List.nil_append, calls_cons]
  by_cases hin : frame.queueSubmitFence ∈ d.signaled
  · have hwait : d.exec (.vkWaitForFences frame.queueSubmitFence true UINT64_MAX) = some d := by
      simp [FakeDevice.exec, hin]
    rw [hwait, Option.some_bind, calls_cons]
    simp only [FakeDevice.exec, Option.some_bind, htail, hin, if_true]
  · have hwait : d.exec (.vkWaitForFences frame.queueSubmitFence true UINT64_MAX) = none := by
      simp [FakeDevice.exec, hin]
    rw [hwait]
    simp [hin]

/-- The fake device serving a `Render` that submits: the fence of the slot
becomes pending and no fence changes its state. -/
theorem calls_render (s : Renderer) (index : Nat) (dev : RenderDevice) (frame : PerFrameData)
    (framebuffer : Handle) (hslot : s.m_perFrameData[index]? = some frame)
    (hfb : s.m_framebuffers[index]? = some framebuffer)
    (hend : dev.vkEndCommandBuffer = VK_SUCCESS) (d : FakeDevice) :
    d.calls (Render s index dev).effects =
      some { d with pending := frame.queueSubmitFence :: d.pending } := by
  rw [render_ok s index dev frame framebuffer hslot hfb hend]
  simp only
  have hpre : ∀ e ∈ Render.recording s framebuffer frame.primaryCmdBuffer ++
      (if frame.swapchainReleaseSemaphore = 0 then
        [Effect.vkCreateSemaphore dev.vkCreateSemaphore.1 dev.vkCreateSemaphore.2]
       else []), e.touchesFence = false := by
    intro e he
    rcases List.mem_append.mp he with hp | hp
    · simp only [Render.recording, List.mem_cons, List.mem_singleton, List.not_mem_nil,
        or_false] at hp
      rcases hp with h | h | h | h | h | h | h | h | h <;> subst h <;> rfl
    · split at hp
      · simp only [List.mem_singleton] at hp
        subst hp
        rfl
      · simp at hp
  rw [calls_append, calls_untouched d _ hpre, Option.some_bind, calls_cons]
  rfl

/-! ## C9 -/

/-- The one submission of a `Render` that returns. -/
theorem render_submissions (s : Renderer) (index : Nat) (dev : RenderDevice)
    (frame : PerFrameData) (framebuffer : Handle)
    (hslot : s.m_perFrameData[index]? = some frame)
    (hfb : s.m_framebuffers[index]? = some framebuffer)
    (hend : dev.vkEndCommandBuffer = VK_SUCCESS) :
    (Render s index dev).effects.filter Effect.isSubmit =
      [.vkQueueSubmit s.m_deviceQueue
        { commandBuffers := [frame.primaryCmdBuffer]
          waitSemaphores := [frame.swapchainAcquireSemaphore]
          waitDstStageMask := [VK_PIPELINE_STAGE_COLOR_ATTACHMENT_OUTPUT_BIT]
          signalSemaphores :=
            [if frame.swapchainReleaseSemaphore = 0 then dev.vkCreateSemaphore.2
              else frame.swapchainReleaseSemaphore] }
        frame.queueSubmitFence] := by
  have hrec : (Render.recording s framebuffer frame.primaryCmdBuffer).filter
      Effect.isSubmit = [] := by
    rw [List.filter_eq_nil_iff]
    intro e he
    simp [(recording_plain _ _ _ e he).2.1]
  rw [render_ok s index dev frame framebuffer hslot hfb hend]
  simp only [List.filter_append, hrec, List.nil_append]
  split <;> simp [Effect.isSubmit, Effect.isCreateSemaphore]

/-- C9. From any state reachable from the one `CreateSwapchain` builds (any
number of slots, so in particular two or more), let `NextImage` succeed with
slot `i` and `Render(i)` follow. Then `Render` makes one submission, with the
fence of slot `i`. On a fake device that has served these calls the fence is
unsignaled and pending, and it stays unsignaled through every later sequence
of renderer calls and completions of other fences. In every later state, a
`NextImage` for which the device returns index `i` emits the wait on that same
fence before any reset, and the fake device does not let it return while the
fence is unsignaled; once the device has completed the submission the call
returns. -/
theorem C9_next_acquire_waits_for_submission (r : Renderer) (cdev : SwapchainDevice)
    (s0 s : Renderer) (hdev : cdev.Conforms) (hb : Built r cdev s0) (hs : Steps s0 s)
    (dev : NextImageDevice) (i : Nat) (frame : PerFrameData) (framebuffer : Handle)
    (hslot : s.m_perFrameData[i]? = some frame)
    (hfb : s.m_framebuffers[i]? = some framebuffer)
    (hcreate : s.m_recycledSemaphores = [] → dev.vkCreateSemaphore.1 = VK_SUCCESS)
    (hacq : dev.vkAcquireNextImageKHR = (VK_SUCCESS, i))
    (rdev : RenderDevice) (hend : rdev.vkEndCommandBuffer = VK_SUCCESS) :
    (NextImage s dev).out = .returned (VK_SUCCESS, i) ∧
    (Render (NextImage s dev).state i rdev).out = .returned () ∧
    frame.queueSubmitFence ≠ 0 ∧
    (∃ info, (Render (NextImage s dev).state i rdev).effects.filter Effect.isSubmit =
      [.vkQueueSubmit s.m_deviceQueue info frame.queueSubmitFence]) ∧
    (∀ d d1 : FakeDevice,
      d.calls ((NextImage s dev).effects ++
        (Render (NextImage s dev).state i rdev).effects) = some d1 →
      frame.queueSubmitFence ∉ d1.signaled ∧ frame.queueSubmitFence ∈ d1.pending ∧
      ∀ (events : List DeviceEvent) (d2 : FakeDevice),
        (∀ ev ∈ events, ev ≠ .complete frame.queueSubmitFence ∧
          ∀ e, ev = .call e → e.isCreateFence = false) →
        d1.run events = some d2 → frame.queueSubmitFence ∉ d2.signaled) ∧
    (∀ s3, Steps (Render (NextImage s dev).state i rdev).state s3 →
      ∀ dev3 : NextImageDevice,
        (s3.m_recycledSemaphores = [] → dev3.vkCreateSemaphore.1 = VK_SUCCESS) →
        dev3.vkAcquireNextImageKHR = (VK_SUCCESS, i) →
        (∃ before after, (NextImage s3 dev3).effects =
            before ++ [.vkWaitForFences frame.queueSubmitFence true UINT64_MAX] ++ after ∧
          ∀ e ∈ before, e.isReset = false ∧ e.isWait = false) ∧
        (∀ d : FakeDevice, frame.queueSubmitFence ∉ d.signaled →
          d.calls (NextImage s3 dev3).effects = none) ∧
        (∀ d : FakeDevice, frame.queueSubmitFence ∈ d.pending →
          ∃ d4, (d.complete frame.queueSubmitFence).calls (NextImage s3 dev3).effects =
            some d4)) := by
  obtain ⟨hfence, _, hfenceEq, _⟩ := reachable_ready r cdev s0 s hdev hb hs i frame hslot
  obtain ⟨sem, hsem⟩ := aquireSemaphore_returns s dev.vkCreateSemaphore hcreate
  have hi : i < s.m_perFrameData.length := (List.getElem?_eq_some_iff.mp hslot).1
  have hN := nextImage_success s dev i frame sem hslot hsem hacq
  have hslot1 : (NextImage s dev).state.m_perFrameData[i]? =
      some { frame with swapchainAcquireSemaphore := sem } := by
    rw [hN]
    simp only [List.getElem?_set, hi, if_true]
  have hfb1 : (NextImage s dev).state.m_framebuffers[i]? = some framebuffer := by
    rw [hN]
    exact hfb
  have hqueue : (NextImage s dev).state.m_deviceQueue = s.m_deviceQueue := by
    rw [hN]
  have hR := render_ok (NextImage s dev).state i rdev _ framebuffer hslot1 hfb1 hend
  have hsteps : Steps s0 (Render (NextImage s dev).state i rdev).state :=
    Steps.render (Steps.nextImage hs dev) i rdev
  refine ⟨by rw [hN], by rw [hR], hfence, ?_, ?_, ?_⟩
  · have h7 := (render_submissions (NextImage s dev).state i rdev _ framebuffer
      hslot1 hfb1 hend)
    rw [hqueue] at h7
    exact ⟨_, h7⟩
  · intro d d1 hrun
    rw [calls_append, calls_nextImage s dev i frame sem hslot hsem hacq hfence] at hrun
    by_cases hin : frame.queueSubmitFence ∈ d.signaled
    · simp only [hin, if_true, Option.some_bind] at hrun
      rw [calls_render (NextImage s dev).state i rdev _ framebuffer hslot1 hfb1 hend] at hrun
      simp only [Option.some.injEq] at hrun
      have h1 : frame.queueSubmitFence ∉ d1.signaled := by
        rw [← hrun]
        simp
      refine ⟨h1, ?_, ?_⟩
      · rw [← hrun]
        simp
      · intro events d2 hev hrun2
        exact run_unsignaled frame.queueSubmitFence events d1 d2 h1 hev hrun2
    · simp [hin] at hrun
  · intro s3 hs3 dev3 hcreate3 hacq3
    have hreach : Steps s0 s3 := steps_trans hsteps hs3
    have hkept : FramesKept s s3 :=
      framesKept_trans (framesKept_trans (nextImage_kept s dev) (render_kept _ i rdev))
        (steps_kept hs3)
    have hi3 : i < s3.m_perFrameData.length := by
      rw [hkept.1]
      exact hi
    obtain ⟨frame3, hslot3⟩ : ∃ frame3, s3.m_perFrameData[i]? = some frame3 :=
      ⟨_, List.getElem?_eq_getElem hi3⟩
    obtain ⟨hfence3, _, hfenceEq3, _⟩ :=
      reachable_ready r cdev s0 s3 hdev hb hreach i frame3 hslot3
    have hsame : frame3.queueSubmitFence = frame.queueSubmitFence := by
      rw [hfenceEq3, hfenceEq]
    obtain ⟨sem3, hsem3⟩ := aquireSemaphore_returns s3 dev3.vkCreateSemaphore hcreate3
    have hcalls := calls_nextImage s3 dev3 i frame3 sem3 hslot3 hsem3 hacq3 hfence3
    rw [hsame] at hcalls
    refine ⟨?_, ?_, ?_⟩
    · rw [nextImage_success s3 dev3 i frame3 sem3 hslot3 hsem3 hacq3, hsame]
      refine ⟨(NextImage.aquireSemaphore s3 dev3.vkCreateSemaphore).effects ++
          [.vkAcquireNextImageKHR s3.m_swapchain UINT64_MAX sem3 0],
        [.vkResetFences frame.queueSubmitFence] ++
          (if frame3.primaryCmdPool ≠ 0 then [.vkResetCommandPool frame3.primaryCmdPool 0]
            else []) ++
          (if frame3.swapchainAcquireSemaphore ≠ 0 then
            [.push_back frame3.swapchainAcquireSemaphore] else []), ?_, ?_⟩
      · simp [hfence]
      · intro e he
        rcases List.mem_append.mp he with hp | hp
        · have := aquireSemaphore_effects_plain s3 dev3.vkCreateSemaphore e hp
          exact ⟨this.1, this.2.1⟩
        · simp only [List.mem_singleton] at hp
          subst hp
          exact ⟨rfl, rfl⟩
    · intro d hd
      rw [hcalls d]
      simp [hd]
    · intro d hd
      have hin : frame.queueSubmitFence ∈ (d.complete frame.queueSubmitFence).signaled := by
        unfold FakeDevice.complete
        simp [hd]
      rw [hcalls]
      simp only [hin, if_true]
      exact ⟨_, rfl⟩

/-- C9 on the three-slot renderer: slot 1 is acquired and rendered on a fake
device with the three fences signaled; fence 11 is then unsignaled and pending,
the next `NextImage` returning slot 1 does not return, and it returns once the
device has completed the submission. -/
theorem C9_next_acquire_waits_for_submission_witness :
    (11 : Handle) ∉ (FakeDevice.mk [12, 10] [11]).signaled ∧
    (11 : Handle) ∈ (FakeDevice.mk [12, 10] [11]).pending ∧
    (FakeDevice.mk [12, 10] [11]).calls
      (NextImage
        (Render (NextImage threeSlots ⟨(VK_SUCCESS, 50), (VK_SUCCESS, 1)⟩).state 1
          ⟨VK_SUCCESS, (VK_SUCCESS, 52), VK_SUCCESS⟩).state
        ⟨(VK_SUCCESS, 51), (VK_SUCCESS, 1)⟩).effects = none ∧
    ∃ d4, ((FakeDevice.mk [12, 10] [11]).complete 11).calls
      (NextImage
        (Render (NextImage threeSlots ⟨(VK_SUCCESS, 50), (VK_SUCCESS, 1)⟩).state 1
          ⟨VK_SUCCESS, (VK_SUCCESS, 52), VK_SUCCESS⟩).state
        ⟨(VK_SUCCESS, 51), (VK_SUCCESS, 1)⟩).effects = some d4 :=
  have h := C9_next_acquire_waits_for_submission {} threeImages
    (CreateSwapchain {} threeImages).state threeSlots
    (fun i => ⟨fun _ => by simp [threeImages], fun _ => by simp [threeImages]⟩)
    ⟨rfl, rfl⟩ (Steps.others (Steps.refl _) threeSlots rfl rfl)
    ⟨(VK_SUCCESS, 50), (VK_SUCCESS, 1)⟩ 1
    { queueSubmitFence := 11, primaryCmdPool := 21, primaryCmdBuffer := 31 } 61
    rfl rfl (fun _ => rfl) rfl ⟨VK_SUCCESS, (VK_SUCCESS, 52), VK_SUCCESS⟩ rfl
  have hb := h.2.2.2.2.1 (FakeDevice.mk [12, 11, 10] []) (FakeDevice.mk [12, 10] [11]) rfl
  have hc := h.2.2.2.2.2 _ (Steps.refl _) ⟨(VK_SUCCESS, 51), (VK_SUCCESS, 1)⟩
    (fun _ => rfl) rfl
  ⟨hb.1, hb.2.1, hc.2.1 _ hb.1, hc.2.2 _ hb.2.1⟩

/-! ## C10 -/

/-- The effects of the `InitPerFrameData` loop, when it returns: fence
creations with the signaled bit, command-pool creations and command-buffer
allocations, among them the successful creation of the fence of every slot. -/
theorem initLoop_effects (fam : Int) (dev : Nat → PerFrameDevice) :
    ∀ (frames : List PerFrameData) (i : Nat),
      (CreateSwapchain.initLoop fam dev i frames).2.2 = .returned () →
      (∀ e ∈ (CreateSwapchain.initLoop fam dev i frames).2.1,
        e.isWait = false ∧ e.isReset = false ∧
          ∀ flags result fence, e = .vkCreateFence flags result fence →
            flags = VK_FENCE_CREATE_SIGNALED_BIT) ∧
      ∀ k, k < frames.length →
        Effect.vkCreateFence VK_FENCE_CREATE_SIGNALED_BIT VK_SUCCESS
          (dev (i + k)).vkCreateFence.2 ∈ (CreateSwapchain.initLoop fam dev i frames).2.1 := by
  intro frames
  induction frames with
  | nil =>
    intro i _
    exact ⟨fun e he => by simp [CreateSwapchain.initLoop] at he,
      fun k hk => by simp at hk⟩
  | cons p rest ih =>
    intro i h
    unfold CreateSwapchain.initLoop at h ⊢
    rcases hinit : InitPerFrameData fam p (dev i) with ⟨p1, effects, out⟩
    rw [hinit] at h
    cases out with
    | raised msg => simp at h
    | undefined => simp at h
    | returned u =>
      simp only at h ⊢
      have hp := initPerFrameData_returned fam p (dev i) (by rw [hinit])
      rw [hinit] at hp
      obtain ⟨hc1, _, _, heff⟩ := hp
      simp only at heff
      obtain ⟨hall, hk⟩ := ih (i + 1) h
      constructor
      · intro e he
        rcases List.mem_append.mp he with hq | hq
        · rw [heff] at hq
          simp only [List.mem_cons, List.mem_singleton, List.not_mem_nil, or_false] at hq
          rcases hq with hq | hq | hq <;> subst hq
          · refine ⟨rfl, rfl, ?_⟩
            intro flags result fence hcf
            simp only [Effect.vkCreateFence.injEq] at hcf
            exact hcf.1.symm
          · exact ⟨rfl, rfl, fun _ _ _ hcf => by simp at hcf⟩
          · exact ⟨rfl, rfl, fun _ _ _ hcf => by simp at hcf⟩
        · exact hall e hq
      · intro k hklt
        cases k with
        | zero =>
          refine List.mem_append_left _ ?_
          rw [heff, ← hc1]
          simp
        | succ k =>
          refine List.mem_append_right _ ?_
          rw [show i + (k + 1) = i + 1 + k by omega]
          exact hk k (by simpa using hklt)

theorem viewLoop_effects (dev : Nat → VkResult × Handle) :
    ∀ (n i : Nat) (views : List Handle),
      ∀ e ∈ (CreateSwapchain.viewLoop dev i n views).2.1,
        ∃ result view, e = .vkCreateImageView result view := by
  intro n
  induction n with
  | zero =>
    intro i views e he
    simp [CreateSwapchain.viewLoop] at he
  | succ n ih =>
    intro i views e he
    unfold CreateSwapchain.viewLoop at he
    simp only at he
    split at he
    · simp only [List.mem_singleton] at he
      exact ⟨_, _, he⟩
    · simp only [List.mem_cons] at he
      rcases he with he | he
      · exact ⟨_, _, he⟩
      · exact ih _ _ e he

/-- The effects of a `CreateSwapchain` that returns contain no wait and no
reset, every fence creation among them carries the signaled bit, and the fence
of every slot is created successfully. -/
theorem createSwapchain_effects (r : Renderer) (dev : SwapchainDevice) (s : Renderer)
    (h : Built r dev s) :
    (∀ e ∈ (CreateSwapchain r dev).effects,
      e.isWait = false ∧ e.isReset = false ∧
        ∀ flags result fence, e = .vkCreateFence flags result fence →
          flags = VK_FENCE_CREATE_SIGNALED_BIT) ∧
    ∀ k, k < dev.imageCount →
      Effect.vkCreateFence VK_FENCE_CREATE_SIGNALED_BIT VK_SUCCESS
        (dev.perFrame k).vkCreateFence.2 ∈ (CreateSwapchain r dev).effects := by
  obtain ⟨hout, _⟩ := h
  unfold CreateSwapchain at hout ⊢
  simp only at hout ⊢
  split at hout
  · simp at hout
  · split at hout
    · simp at hout
    · split at hout
      · simp at hout
      · rename_i hg hp hc
        simp only [hg, hp, hc, if_false]
        split at hout
        · simp at hout
        · simp at hout
        · rename_i u hinit
          simp only [hinit]
          obtain ⟨hall, hk⟩ := initLoop_effects _ dev.perFrame
            (List.replicate dev.imageCount {}) 0 (by rw [hinit])
          constructor
          · intro e he
            simp only [List.cons_append, List.mem_cons, List.mem_append, List.not_mem_nil,
              or_false, List.nil_append] at he
            rcases he with he | he | he | he | he
            · subst he
              exact ⟨rfl, rfl, fun _ _ _ hcf => by simp at hcf⟩
            · subst he
              exact ⟨rfl, rfl, fun _ _ _ hcf => by simp at hcf⟩
            · subst he
              exact ⟨rfl, rfl, fun _ _ _ hcf => by simp at hcf⟩
            · exact hall e he
            · obtain ⟨result, view, hv⟩ := viewLoop_effects _ _ _ _ e he
              subst hv
              exact ⟨rfl, rfl, fun _ _ _ hcf => by simp at hcf⟩
          · intro k hklt
            have := hk k (by simpa using hklt)
            simp only [Nat.zero_add] at this
            simp only [List.cons_append, List.mem_cons, List.mem_append, List.not_mem_nil,
              or_false, List.nil_append]
            exact Or.inr (Or.inr (Or.inr (Or.inl this)))

/-- The fake device serves any calls without a wait; when they contain no fence
reset either and create fences only with the signaled bit, every fence that was
signaled or is created successfully is signaled afterwards. -/
theorem calls_grow :
    ∀ (es : List Effect) (d : FakeDevice),
      (∀ e ∈ es, e.isWait = false ∧ e.isReset = false ∧
        ∀ flags result fence, e = .vkCreateFence flags result fence →
          flags = VK_FENCE_CREATE_SIGNALED_BIT) →
      ∃ d1, d.calls es = some d1 ∧ (∀ f ∈ d.signaled, f ∈ d1.signaled) ∧
        ∀ f, Effect.vkCreateFence VK_FENCE_CREATE_SIGNALED_BIT VK_SUCCESS f ∈ es →
          f ∈ d1.signaled := by
  intro es
  induction es with
  | nil =>
    intro d _
    exact ⟨d, rfl, fun f hf => hf, fun f hf => by simp at hf⟩
  | cons e rest ih =>
    intro d h
    have hrest := fun e1 (h1 : e1 ∈ rest) => h e1 (List.mem_cons_of_mem _ h1)
    obtain ⟨hw, hr, hflags⟩ := h e (List.mem_cons_self _ _)
    have hstep : ∃ d2, d.exec e = some d2 ∧ (∀ f ∈ d.signaled, f ∈ d2.signaled) ∧
        ∀ f, e = Effect.vkCreateFence VK_FENCE_CREATE_SIGNALED_BIT VK_SUCCESS f →
          f ∈ d2.signaled := by
      cases e with
      | vkCreateFence flags result fence =>
        have hfl := hflags flags result fence rfl
        subst hfl
        by_cases hres : result = VK_SUCCESS
        · refine ⟨{ d with signaled := fence :: d.signaled }, by simp [FakeDevice.exec, hres],
            fun f hf => List.mem_cons_of_mem _ hf, ?_⟩
          intro f hf
          simp only [Effect.vkCreateFence.injEq] at hf
          rw [hf.2.2]
          exact List.mem_cons_self _ _
        · refine ⟨d, by simp [FakeDevice.exec, hres], fun f hf => hf, ?_⟩
          intro f hf
          simp only [Effect.vkCreateFence.injEq] at hf
          exact absurd hf.2.1 hres
      | vkWaitForFences f w t => simp [Effect.isWait] at hw
      | vkResetFences f => simp [Effect.isReset] at hr
      | vkQueueSubmit q info f =>
        exact ⟨_, rfl, fun f hf => hf, fun f hf => by simp at hf⟩
      | _ => exact ⟨d, rfl, fun f hf => hf, fun f hf => by simp at hf⟩
    obtain ⟨d2, hexec, hkeep, hnew⟩ := hstep
    obtain ⟨d1, hcalls, hkeep1, hnew1⟩ := ih d2 hrest
    refine ⟨d1, by rw [calls_cons, hexec, Option.some_bind, hcalls],
      fun f hf => hkeep1 f (hkeep f hf), ?_⟩
    intro f hf
    rcases List.mem_cons.mp hf with hf | hf
    · exact hkeep1 f (hnew f hf.symm)
    · exact hnew1 f hf

/-- Successive `NextImage` calls returning different slots, each of whose fences
is signaled: every call returns success, the fake device serves all of them,
and the fences of the slots returned are unsignaled afterwards. -/
theorem repeated_acquires (fenceOf : Nat → Handle) (N : Nat)
    (hdistinct : ∀ j k, j < N → k < N → j ≠ k → fenceOf j ≠ fenceOf k) :
    ∀ (devs : List NextImageDevice) (s : Renderer) (d : FakeDevice),
      s.m_perFrameData.length = N →
      (∀ (k : Nat) (frame : PerFrameData), s.m_perFrameData[k]? = some frame →
        frame.queueSubmitFence = fenceOf k ∧ frame.queueSubmitFence ≠ 0) →
      (∀ dev ∈ devs, dev.vkCreateSemaphore.1 = VK_SUCCESS ∧
        dev.vkAcquireNextImageKHR.1 = VK_SUCCESS ∧ dev.vkAcquireNextImageKHR.2 < N) →
      (devs.map (fun dev => dev.vkAcquireNextImageKHR.2)).Nodup →
      (∀ dev ∈ devs, fenceOf dev.vkAcquireNextImageKHR.2 ∈ d.signaled) →
      (NextImage.repeated s devs).2.2 =
        devs.map (fun dev => .returned (VK_SUCCESS, dev.vkAcquireNextImageKHR.2)) ∧
      FramesKept s (NextImage.repeated s devs).1 ∧
      ∃ d1, d.calls (NextImage.repeated s devs).2.1 = some d1 ∧
        (∀ g, g ∉ d.signaled → g ∉ d1.signaled) ∧
        (∀ dev ∈ devs, fenceOf dev.vkAcquireNextImageKHR.2 ∉ d1.signaled) := by
  intro devs
  induction devs with
  | nil =>
    intro s d _ _ _ _ _
    exact ⟨rfl, framesKept_refl s, d, rfl, fun g hg => hg, fun dev hdev => by simp at hdev⟩
  | cons dev rest ih =>
    intro s d hlen hfences hdevs hnodup hsignaled
    obtain ⟨hc, ha, hidx⟩ := hdevs dev (List.mem_cons_self _ _)
    have hacq : dev.vkAcquireNextImageKHR = (VK_SUCCESS, dev.vkAcquireNextImageKHR.2) :=
      Prod.ext ha rfl
    obtain ⟨frame, hslot⟩ :
        ∃ frame, s.m_perFrameData[dev.vkAcquireNextImageKHR.2]? = some frame :=
      ⟨_, List.getElem?_eq_getElem (by rw [hlen]; exact hidx)⟩
    obtain ⟨hfenceEq, hfence⟩ := hfences _ frame hslot
    obtain ⟨sem, hsem⟩ := aquireSemaphore_returns s dev.vkCreateSemaphore (fun _ => hc)
    have hkept := nextImage_kept s dev
    have hcalls := calls_nextImage s dev _ frame sem hslot hsem hacq hfence d
    have hsig : frame.queueSubmitFence ∈ d.signaled := by
      rw [hfenceEq]
      exact hsignaled dev (List.mem_cons_self _ _)
    rw [if_pos hsig] at hcalls
    have hout : (NextImage s dev).out = .returned (VK_SUCCESS, dev.vkAcquireNextImageKHR.2) := by
      rw [nextImage_success s dev _ frame sem hslot hsem hacq]
    rw [List.map_cons, List.nodup_cons] at hnodup
    have hfences1 : ∀ (k : Nat) (frame1 : PerFrameData),
        (NextImage s dev).state.m_perFrameData[k]? = some frame1 →
        frame1.queueSubmitFence = fenceOf k ∧ frame1.queueSubmitFence ≠ 0 := by
      intro k frame1 hk
      obtain ⟨f0, hf0, hsame, _, _⟩ := hkept.2 k frame1 hk
      rw [hsame]
      exact hfences k f0 hf0
    have hsignaled1 : ∀ dev1 ∈ rest, fenceOf dev1.vkAcquireNextImageKHR.2 ∈
        (d.signaled.filter (fun f => f ≠ frame.queueSubmitFence)) := by
      intro dev1 hdev1
      rw [List.mem_filter]
      refine ⟨hsignaled dev1 (List.mem_cons_of_mem _ hdev1), ?_⟩
      have hne : dev1.vkAcquireNextImageKHR.2 ≠ dev.vkAcquireNextImageKHR.2 := by
        intro heq
        exact hnodup.1 (List.mem_map.mpr ⟨dev1, hdev1, heq⟩)
      have := hdistinct _ _ (hdevs dev1 (List.mem_cons_of_mem _ hdev1)).2.2 hidx hne
      rw [hfenceEq]
      simpa using this
    obtain ⟨houts, hkept1, d1, hcalls1, hmono, hreset⟩ :=
      ih (NextImage s dev).state
        { d with signaled := d.signaled.filter (fun f => f ≠ frame.queueSubmitFence) }
        (by rw [hkept.1, hlen]) hfences1
        (fun dev1 hdev1 => hdevs dev1 (List.mem_cons_of_mem _ hdev1)) hnodup.2 hsignaled1
    refine ⟨?_, framesKept_trans hkept hkept1, d1, ?_, ?_, ?_⟩
    · simp only [NextImage.repeated, List.map_cons, hout, houts]
    · simp only [NextImage.repeated]
      rw [calls_append, hcalls, Option.some_bind, hcalls1]
    · intro g hg
      exact hmono g (fun h => hg (List.mem_of_mem_filter h))
    · intro dev1 hdev1
      rcases List.mem_cons.mp hdev1 with h | h
      · subst h
        refine hmono _ ?_
        rw [← hfenceEq]
        simp
      · exact hreset dev1 h

/-- A list of `N` different numbers below `N` contains every number
below `N`. -/
theorem mem_of_nodup_of_length (l : List Nat) (N : Nat) (hnodup : l.Nodup)
    (hlt : ∀ x ∈ l, x < N) (hlen : l.length = N) (j : Nat) (hj : j < N) : j ∈ l := by
  have hsub : l.toFinset ⊆ Finset.range N := by
    intro x hx
    rw [List.mem_toFinset] at hx
    exact Finset.mem_range.mpr (hlt x hx)
  have hcard : (Finset.range N).card ≤ l.toFinset.card := by
    rw [List.toFinset_card_of_nodup hnodup, Finset.card_range, hlen]
  have heq := Finset.eq_of_subset_of_card_le hsub hcard
  have : j ∈ l.toFinset := by
    rw [heq]
    exact Finset.mem_range.mpr hj
  exact List.mem_toFinset.mp this

/-- C10. `CreateSwapchain` creates every fence with the signaled bit, so on a
fake device that has served the calls of `CreateSwapchain` the fence of every
slot is signaled. With `N` slots (the driver handing out a different fence for
each), `N` successive `NextImage` calls returning the `N` different indices,
with no other call in between, all return success and none of them blocks; a
further `NextImage` returning an index `j` (slot 0, for one) emits the wait on
the fence of slot `j`, which is then unsignaled, so the call does not return
until the device signals that fence. -/
theorem C10_first_acquires_do_not_block (r : Renderer) (cdev : SwapchainDevice)
    (s0 : Renderer) (hdev : cdev.Conforms) (hfresh : cdev.FreshFences)
    (hb : Built r cdev s0) :
    (∀ flags result fence,
      Effect.vkCreateFence flags result fence ∈ (CreateSwapchain r cdev).effects →
        flags = VK_FENCE_CREATE_SIGNALED_BIT) ∧
    ∀ d : FakeDevice, ∃ d0, d.calls (CreateSwapchain r cdev).effects = some d0 ∧
      (∀ frame ∈ s0.m_perFrameData, frame.queueSubmitFence ∈ d0.signaled) ∧
      ∀ devs : List NextImageDevice, devs.length = s0.m_perFrameData.length →
        (∀ dev ∈ devs, dev.vkCreateSemaphore.1 = VK_SUCCESS ∧
          dev.vkAcquireNextImageKHR.1 = VK_SUCCESS ∧
          dev.vkAcquireNextImageKHR.2 < s0.m_perFrameData.length) →
        (devs.map (fun dev => dev.vkAcquireNextImageKHR.2)).Nodup →
        (NextImage.repeated s0 devs).2.2 =
          devs.map (fun dev => .returned (VK_SUCCESS, dev.vkAcquireNextImageKHR.2)) ∧
        ∃ d1, d0.calls (NextImage.repeated s0 devs).2.1 = some d1 ∧
          ∀ (dev : NextImageDevice) (j : Nat) (frame : PerFrameData),
            s0.m_perFrameData[j]? = some frame →
            ((NextImage.repeated s0 devs).1.m_recycledSemaphores = [] →
              dev.vkCreateSemaphore.1 = VK_SUCCESS) →
            dev.vkAcquireNextImageKHR = (VK_SUCCESS, j) →
            Effect.vkWaitForFences frame.queueSubmitFence true UINT64_MAX ∈
              (NextImage (NextImage.repeated s0 devs).1 dev).effects ∧
            d1.calls (NextImage (NextImage.repeated s0 devs).1 dev).effects = none := by
  obtain ⟨hplain, hcreated⟩ := createSwapchain_effects r cdev s0 hb
  obtain ⟨_, hlen, hslots⟩ := built_frames r cdev s0 hb
  have hready : ∀ (k : Nat) (frame : PerFrameData), s0.m_perFrameData[k]? = some frame →
      frame.queueSubmitFence = (cdev.perFrame k).vkCreateFence.2 ∧
        frame.queueSubmitFence ≠ 0 := by
    intro k frame hk
    obtain ⟨h1, _, h3, _⟩ := reachable_ready r cdev s0 s0 hdev hb (Steps.refl _) k frame hk
    exact ⟨h3, h1⟩
  refine ⟨fun flags result fence hin => (hplain _ hin).2.2 flags result fence rfl, ?_⟩
  intro d
  obtain ⟨d0, hcalls0, _, hnew⟩ := calls_grow (CreateSwapchain r cdev).effects d hplain
  have hsig : ∀ k, k < cdev.imageCount → (cdev.perFrame k).vkCreateFence.2 ∈ d0.signaled :=
    fun k hk => hnew _ (hcreated k hk)
  refine ⟨d0, hcalls0, ?_, ?_⟩
  · intro frame hframe
    obtain ⟨k, hk⟩ := List.mem_iff_getElem?.mp hframe
    have hklt : k < cdev.imageCount := by
      rw [← hlen]
      exact (List.getElem?_eq_some_iff.mp hk).1
    rw [(hready k frame hk).1]
    exact hsig k hklt
  · intro devs hdevlen hdevs hnodup
    rw [hlen] at hdevlen hdevs
    obtain ⟨houts, hkept, d1, hcalls1, _, hreset⟩ :=
      repeated_acquires (fun k => (cdev.perFrame k).vkCreateFence.2) cdev.imageCount hfresh
        devs s0 d0 hlen hready hdevs hnodup (fun dev hd => hsig _ (hdevs dev hd).2.2)
    refine ⟨houts, d1, hcalls1, ?_⟩
    intro dev j frame hj hcreate hacq
    have hjlt : j < cdev.imageCount := by
      rw [← hlen]
      exact (List.getElem?_eq_some_iff.mp hj).1
    have hmem : j ∈ devs.map (fun dev => dev.vkAcquireNextImageKHR.2) :=
      mem_of_nodup_of_length _ cdev.imageCount hnodup
        (fun x hx => by
          obtain ⟨dev1, hd1, rfl⟩ := List.mem_map.mp hx
          exact (hdevs dev1 hd1).2.2)
        (by rw [List.length_map, hdevlen]) j hjlt
    obtain ⟨devj, hdevj, hidx⟩ := List.mem_map.mp hmem
    have hunsig : (cdev.perFrame j).vkCreateFence.2 ∉ d1.signaled := by
      have := hreset devj hdevj
      simp only [hidx] at this
      exact this
    obtain ⟨frame1, hj1⟩ : ∃ frame1,
        (NextImage.repeated s0 devs).1.m_perFrameData[j]? = some frame1 :=
      ⟨_, List.getElem?_eq_getElem (by rw [hkept.1, hlen]; exact hjlt)⟩
    obtain ⟨f0, hf0, hsame, _, _⟩ := hkept.2 j frame1 hj1
    rw [hj] at hf0
    simp only [Option.some.injEq] at hf0
    subst hf0
    obtain ⟨hfenceEq, hfence⟩ := hready j frame hj
    rw [← hsame] at hfence
    obtain ⟨sem, hsem⟩ := aquireSemaphore_returns _ dev.vkCreateSemaphore hcreate
    constructor
    · rw [nextImage_success _ dev j frame1 sem hj1 hsem hacq, ← hsame]
      simp [hfence]
    · rw [calls_nextImage _ dev j frame1 sem hj1 hsem hacq hfence d1, hsame, hfenceEq]
      simp [hunsig]

/-- C10 for `N = 3`: on the three-image driver, three `NextImage` calls
returning the slots 1, 2, 0 all return success on the fake device, and a fourth
one returning slot 0 waits on fence 10 and does not return. -/
theorem C10_first_acquires_do_not_block_witness :
    (∃ d0, FakeDevice.calls {} (CreateSwapchain {} threeImages).effects = some d0 ∧
      (∀ frame ∈ (CreateSwapchain {} threeImages).state.m_perFrameData,
        frame.queueSubmitFence ∈ d0.signaled) ∧
      (NextImage.repeated (CreateSwapchain {} threeImages).state
          [⟨(VK_SUCCESS, 50), (VK_SUCCESS, 1)⟩, ⟨(VK_SUCCESS, 51), (VK_SUCCESS, 2)⟩,
            ⟨(VK_SUCCESS, 52), (VK_SUCCESS, 0)⟩]).2.2 =
        [.returned (VK_SUCCESS, 1), .returned (VK_SUCCESS, 2), .returned (VK_SUCCESS, 0)] ∧
      ∃ d1, d0.calls (NextImage.repeated (CreateSwapchain {} threeImages).state
          [⟨(VK_SUCCESS, 50), (VK_SUCCESS, 1)⟩, ⟨(VK_SUCCESS, 51), (VK_SUCCESS, 2)⟩,
            ⟨(VK_SUCCESS, 52), (VK_SUCCESS, 0)⟩]).2.1 = some d1 ∧
        Effect.vkWaitForFences 10 true UINT64_MAX ∈
          (NextImage (NextImage.repeated (CreateSwapchain {} threeImages).state
            [⟨(VK_SUCCESS, 50), (VK_SUCCESS, 1)⟩, ⟨(VK_SUCCESS, 51), (VK_SUCCESS, 2)⟩,
              ⟨(VK_SUCCESS, 52), (VK_SUCCESS, 0)⟩]).1
            ⟨(VK_SUCCESS, 53), (VK_SUCCESS, 0)⟩).effects ∧
        d1.calls (NextImage (NextImage.repeated (CreateSwapchain {} threeImages).state
            [⟨(VK_SUCCESS, 50), (VK_SUCCESS, 1)⟩, ⟨(VK_SUCCESS, 51), (VK_SUCCESS, 2)⟩,
              ⟨(VK_SUCCESS, 52), (VK_SUCCESS, 0)⟩]).1
            ⟨(VK_SUCCESS, 53), (VK_SUCCESS, 0)⟩).effects = none) :=
  have h := (C10_first_acquires_do_not_block {} threeImages
    (CreateSwapchain {} threeImages).state
    (fun i => ⟨fun _ => by simp [threeImages], fun _ => by simp [threeImages]⟩)
    (fun i j _ _ hij => by simpa [threeImages] using hij) ⟨rfl, rfl⟩).2 {}
  h.elim fun d0 h0 =>
    have h1 := h0.2.2
      [⟨(VK_SUCCESS, 50), (VK_SUCCESS, 1)⟩, ⟨(VK_SUCCESS, 51), (VK_SUCCESS, 2)⟩,
        ⟨(VK_SUCCESS, 52), (VK_SUCCESS, 0)⟩] rfl (by decide) (by decide)
    ⟨d0, h0.1, h0.2.1, h1.1, h1.2.elim fun d1 h2 =>
      ⟨d1, h2.1, h2.2 ⟨(VK_SUCCESS, 53), (VK_SUCCESS, 0)⟩ 0
        { queueSubmitFence := 10, primaryCmdPool := 20, primaryCmdBuffer := 30 } rfl
        (fun _ => rfl) rfl⟩⟩

/-! ## The effects of one tick -/

theorem nextImage_effects_kind (s : Renderer) (dev : NextImageDevice) :
    ∀ e ∈ (NextImage s dev).effects, e.ofNextImage = true := by
  have hq : ∀ e ∈ (NextImage.aquireSemaphore s dev.vkCreateSemaphore).effects,
      e.ofNextImage = true := by
    intro e he
    rcases aquireSemaphore_cases s dev.vkCreateSemaphore with ⟨_, h, _⟩ |
      ⟨rest, back, _, h, _⟩ <;>
      (rw [h] at he; simp only [List.mem_singleton] at he; subst he; rfl)
  intro e he
  rcases nextImage_cases s dev with ⟨_, _, heq⟩ | ⟨sem, _, _, heq⟩ | ⟨sem, _, _, _, heq⟩ |
    ⟨sem, i, frame, _, _, _, heq⟩
  · rw [heq] at he
    simp only [List.mem_singleton] at he
    subst he
    rfl
  · rw [heq] at he
    rcases List.mem_append.mp he with hp | hp
    · exact hq e hp
    · simp only [List.mem_cons, List.mem_singleton, List.not_mem_nil, or_false] at hp
      rcases hp with hp | hp <;> subst hp <;> rfl
  · rw [heq] at he
    rcases List.mem_append.mp he with hp | hp
    · exact hq e hp
    · simp only [List.mem_singleton] at hp
      subst hp
      rfl
  · rw [heq] at he
    simp only [List.mem_append] at he
    rcases he with ((((hp | hp) | hp) | hp) | hp)
    · exact hq e hp
    · simp only [List.mem_singleton] at hp
      subst hp
      rfl
    · split at hp
      · simp only [List.mem_cons, List.mem_singleton, List.not_mem_nil, or_false] at hp
        rcases hp with hp | hp <;> subst hp <;> rfl
      · simp at hp
    · split at hp
      · simp only [List.mem_singleton] at hp
        subst hp
        rfl
      · simp at hp
    · split at hp
      · simp only [List.mem_singleton] at hp
        subst hp
        rfl
      · simp at hp

theorem render_effects_kind (s : Renderer) (index : Nat) (dev : RenderDevice) :
    ∀ e ∈ (Render s index dev).effects, e.ofRenderPresent = true ∨ e.isSubmit = true := by
  intro e he
  have hrec : ∀ (fb cmd : Handle), ∀ e ∈ Render.recording s fb cmd,
      e.ofRenderPresent = true := by
    intro fb cmd e he
    simp only [Render.recording, List.mem_cons, List.mem_singleton, List.not_mem_nil,
      or_false] at he
    rcases he with h | h | h | h | h | h | h | h | h <;> subst h <;> rfl
  unfold Render at he
  split at he
  · simp only at he
    split at he
    · exact Or.inl (hrec _ _ e he)
    · rcases List.mem_append.mp he with hp | hp
      · rcases List.mem_append.mp hp with hq | hq
        · exact Or.inl (hrec _ _ e hq)
        · split at hq
          · simp only [List.mem_singleton] at hq
            subst hq
            exact Or.inl rfl
          · simp at hq
      · simp only [List.mem_singleton] at hp
        subst hp
        exact Or.inr rfl
  · simp at he

theorem present_effects_kind (s : Renderer) (index : Nat) (dev : VkResult) :
    ∀ e ∈ (Present s index dev).effects, e.ofRenderPresent = true := by
  intro e he
  unfold Present at he
  split at he
  · simp at he
  · simp only [List.mem_singleton] at he
    subst he
    rfl

theorem finish_steps (s : Renderer) (before : List Effect) (result : VkResult)
    (imageIndex : Nat) (dev : UpdateDevice) :
    Steps s (Update.finish s before result imageIndex dev).state := by
  unfold Update.finish
  split
  · exact Steps.refl s
  · simp only
    split
    · exact Steps.render (Steps.refl s) _ _
    · exact Steps.render (Steps.refl s) _ _
    · split <;> exact Steps.present (Steps.render (Steps.refl s) _ _) _ _

/-- The state `Update` leaves is reached by the `NextImage`, `Render` and
`Present` calls it makes. -/
theorem update_steps (s : Renderer) (dev : UpdateDevice) : Steps s (Update s dev).state := by
  unfold Update
  simp only
  split
  · exact Steps.nextImage (Steps.refl s) _
  · exact Steps.nextImage (Steps.refl s) _
  · split
    · split
      · exact Steps.nextImage (Steps.nextImage (Steps.refl s) _) _
      · exact Steps.nextImage (Steps.nextImage (Steps.refl s) _) _
      · exact steps_trans (Steps.nextImage (Steps.nextImage (Steps.refl s) _) _)
          (finish_steps _ _ _ _ _)
    · exact steps_trans (Steps.nextImage (Steps.refl s) _) (finish_steps _ _ _ _ _)

/-! ## C11 to C18 -/

/-- C12. When `CreateSwapchain` returns, on any renderer `r` (a new one, or one
that already ran with an earlier swapchain, as in a recreation), the number of
frame slots is the image count the driver reports. `NextImage`, `Render`,
`Present` and `Update` leave the number of slots unchanged in every state, so
the equality holds in every state reached afterwards. -/
theorem C12_slot_count (r : Renderer) (cdev : SwapchainDevice) (s0 : Renderer)
    (hb : Built r cdev s0) :
    s0.m_perFrameData.length = cdev.imageCount ∧
    (∀ (s : Renderer) (dev : NextImageDevice),
      (NextImage s dev).state.m_perFrameData.length = s.m_perFrameData.length) ∧
    (∀ (s : Renderer) (index : Nat) (dev : RenderDevice),
      (Render s index dev).state.m_perFrameData.length = s.m_perFrameData.length) ∧
    (∀ (s : Renderer) (index : Nat) (dev : VkResult),
      (Present s index dev).state.m_perFrameData.length = s.m_perFrameData.length) ∧
    (∀ (s : Renderer) (dev : UpdateDevice),
      (Update s dev).state.m_perFrameData.length = s.m_perFrameData.length) ∧
    (∀ s, Steps s0 s → s.m_perFrameData.length = cdev.imageCount ∧
      ∀ dev : UpdateDevice, (Update s dev).state.m_perFrameData.length = cdev.imageCount) := by
  have hlen := (built_frames r cdev s0 hb).2.1
  refine ⟨hlen, fun s dev => (nextImage_kept s dev).1, fun s index dev => (render_kept s index dev).1,
    fun s index dev => by rw [present_state], fun s dev => (steps_kept (update_steps s dev)).1, ?_⟩
  intro s hs
  have h1 : s.m_perFrameData.length = cdev.imageCount := by
    rw [(steps_kept hs).1, hlen]
  exact ⟨h1, fun dev => by rw [(steps_kept (update_steps s dev)).1, h1]⟩

/-- C12 on the three-image driver: three slots after `CreateSwapchain`, and
three after a tick on the renderer built from it. -/
theorem C12_slot_count_witness :
    (CreateSwapchain {} threeImages).state.m_perFrameData.length = 3 ∧
    (Update threeSlots
      ⟨⟨(VK_SUCCESS, 50), (VK_SUCCESS, 1)⟩, ⟨(VK_SUCCESS, 51), (VK_SUCCESS, 2)⟩,
        ⟨VK_SUCCESS, (VK_SUCCESS, 52), VK_SUCCESS⟩,
        VK_SUCCESS⟩).state.m_perFrameData.length = 3 :=
  have h := C12_slot_count {} threeImages (CreateSwapchain {} threeImages).state ⟨rfl, rfl⟩
  ⟨h.1, (h.2.2.2.2.2 threeSlots (Steps.others (Steps.refl _) threeSlots rfl rfl)).2 _⟩

/-- `DestroyPerFrameData` leaves every member of the slot null. -/
theorem destroyPerFrameData_slot (p : PerFrameData) : (DestroyPerFrameData p).1 = {} := by
  obtain ⟨fence, pool, buffer, acquire, release⟩ := p
  unfold DestroyPerFrameData
  by_cases h1 : fence = 0 <;> by_cases h2 : buffer = 0 <;> by_cases h3 : pool = 0 <;>
    by_cases h4 : acquire = 0 <;> by_cases h5 : release = 0 <;>
    simp [h1, h2, h3, h4, h5]

/-- `DestroyPerFrameData` on a slot whose members are all null makes no
call. -/
theorem destroyPerFrameData_null : DestroyPerFrameData {} = ({}, []) := rfl

theorem destroyFrames_nil : Shutdown.destroyFrames [] = [] := rfl

/-- C14 as stated fails. A second `Shutdown` right after the first reaches
calls that are not skipped: `vkDeviceWaitIdle`, `vkDestroyInstance`,
`glfwDestroyWindow` and `glfwTerminate` are not guarded at all, and the guard of
`vkDestroyDevice` tests `m_device`, which the first call does not reset. -/
theorem C14_counterexample :
    (Shutdown (Shutdown running).state).effects =
      [.vkDeviceWaitIdle 3, .vkDestroyDevice 3, .vkDestroyInstance 1, .glfwDestroyWindow 2,
        .glfwTerminate] ∧
    (Shutdown running).state.m_device = 3 := by
  refine ⟨rfl, rfl⟩

/-- C14, amended. For every state: after `Shutdown` the vectors of
framebuffers, frame slots, recycled semaphores and image views are empty and
the pipeline, pipeline layout, buffers, render pass, swapchain and surface are
null; a second `Shutdown` right after leaves the state as it is and makes no
call other than `vkDeviceWaitIdle`, `vkDestroyDevice`, `vkDestroyInstance`,
`glfwDestroyWindow` and `glfwTerminate`, so it destroys no fence, semaphore,
command pool or command buffer again, and it does repeat the four calls that
are not guarded. `DestroyPerFrameData` applied to a slot it has already been
applied to makes no call and leaves the slot as after the first call. -/
theorem C14_second_teardown (s : Renderer) :
    ((Shutdown s).state.m_framebuffers = [] ∧ (Shutdown s).state.m_perFrameData = [] ∧
      (Shutdown s).state.m_recycledSemaphores = [] ∧ (Shutdown s).state.m_imageViews = [] ∧
      (Shutdown s).state.m_graphicsPipeline = 0 ∧ (Shutdown s).state.m_pipelineLayout = 0 ∧
      (Shutdown s).state.m_indexBuffer.handle = 0 ∧
      (Shutdown s).state.m_vertexBuffer.handle = 0 ∧ (Shutdown s).state.m_renderPass = 0 ∧
      (Shutdown s).state.m_swapchain = 0 ∧ (Shutdown s).state.m_surface = 0) ∧
    (Shutdown (Shutdown s).state).state = (Shutdown s).state ∧
    (∀ e ∈ (Shutdown (Shutdown s).state).effects,
      e = .vkDeviceWaitIdle s.m_device ∨ e = .vkDestroyDevice s.m_device ∨
        e = .vkDestroyInstance s.m_vulkan ∨ e = .glfwDestroyWindow s.m_window ∨
        e = .glfwTerminate) ∧
    (Effect.vkDeviceWaitIdle s.m_device ∈ (Shutdown (Shutdown s).state).effects ∧
      Effect.vkDestroyInstance s.m_vulkan ∈ (Shutdown (Shutdown s).state).effects ∧
      Effect.glfwDestroyWindow s.m_window ∈ (Shutdown (Shutdown s).state).effects ∧
      Effect.glfwTerminate ∈ (Shutdown (Shutdown s).state).effects) ∧
    (∀ p : PerFrameData,
      DestroyPerFrameData (DestroyPerFrameData p).1 = ((DestroyPerFrameData p).1, [])) := by
  have heff : (Shutdown (Shutdown s).state).effects =
      [.vkDeviceWaitIdle s.m_device] ++
        (if s.m_device ≠ 0 then [.vkDestroyDevice s.m_device] else []) ++
        [.vkDestroyInstance s.m_vulkan, .glfwDestroyWindow s.m_window, .glfwTerminate] := by
    simp [Shutdown, Shutdown.destroyFrames]
  refine ⟨⟨rfl, rfl, rfl, rfl, rfl, rfl, rfl, rfl, rfl, rfl, rfl⟩, rfl, ?_, ?_, ?_⟩
  · intro e he
    rw [heff] at he
    simp only [List.mem_append, List.mem_cons, List.mem_singleton, List.not_mem_nil,
      or_false] at he
    rcases he with (he | he) | he | he | he
    · exact Or.inl he
    · split at he
      · simp only [List.mem_singleton] at he
        exact Or.inr (Or.inl he)
      · simp at he
    · exact Or.inr (Or.inr (Or.inl he))
    · exact Or.inr (Or.inr (Or.inr (Or.inl he)))
    · exact Or.inr (Or.inr (Or.inr (Or.inr he)))
  · rw [heff]
    simp
  · intro p
    rw [destroyPerFrameData_slot]
    rfl

/-- C15, the code at the failing input. `NextImage` checks the creation of its
semaphore: when it fails the call throws and makes no acquire request. `Render`
does not: on a slot without a release semaphore, with `vkCreateSemaphore`
reporting `VK_ERROR_OUT_OF_HOST_MEMORY` and leaving the handle null,
`Render` returns normally and submits, with the null handle as the semaphore to
signal. -/
theorem C15_render_ignores_creation_failure :
    (NextImage threeSlots ⟨(VK_ERROR_OUT_OF_HOST_MEMORY, 0), (VK_SUCCESS, 1)⟩).out =
      .raised "Could not create new semaphore" ∧
    (NextImage threeSlots
      ⟨(VK_ERROR_OUT_OF_HOST_MEMORY, 0), (VK_SUCCESS, 1)⟩).effects.filter Effect.isAcquire =
      [] ∧
    (Render (NextImage threeSlots ⟨(VK_SUCCESS, 50), (VK_SUCCESS, 1)⟩).state 1
      ⟨VK_SUCCESS, (VK_ERROR_OUT_OF_HOST_MEMORY, 0), VK_SUCCESS⟩).out = .returned () ∧
    (Render (NextImage threeSlots ⟨(VK_SUCCESS, 50), (VK_SUCCESS, 1)⟩).state 1
      ⟨VK_SUCCESS, (VK_ERROR_OUT_OF_HOST_MEMORY, 0), VK_SUCCESS⟩).effects.filter
        (fun e => e.isCreateSemaphore || e.isSubmit) =
      [.vkCreateSemaphore VK_ERROR_OUT_OF_HOST_MEMORY 0,
        .vkQueueSubmit 0
          { commandBuffers := [31], waitSemaphores := [50],
            waitDstStageMask := [VK_PIPELINE_STAGE_COLOR_ATTACHMENT_OUTPUT_BIT],
            signalSemaphores := [0] } 11] := by
  refine ⟨rfl, ?_, rfl, ?_⟩ <;> decide

/-- C18, the code at the failing input. The scan never advances its index `i`,
so it can only choose family 0: of two queue families, the first for compute
only and the second for graphics, with present support reported for family 0,
both asserts pass and `m_graphicsFamilyIndex` becomes 0, the position of the
family without the graphics bit. In general the scan yields -1 or 0 for each of
the two families. -/
theorem C18_scan_index_stays_zero :
    (CreateSwapchain {} computeFirst).out = .returned () ∧
    (CreateSwapchain {} computeFirst).state.m_graphicsFamilyIndex = 0 ∧
    computeFirst.queueFamilies = [VK_QUEUE_COMPUTE_BIT, VK_QUEUE_GRAPHICS_BIT] ∧
    VK_QUEUE_COMPUTE_BIT &&& VK_QUEUE_GRAPHICS_BIT = 0 ∧
    (∀ (presentSupport : Nat → Bool) (families : List Nat) (acc : Int × Int),
      (acc.1 = -1 ∨ acc.1 = 0) → (acc.2 = -1 ∨ acc.2 = 0) →
      ((CreateSwapchain.scanQueueFamilies presentSupport 0 families acc).1 = -1 ∨
        (CreateSwapchain.scanQueueFamilies presentSupport 0 families acc).1 = 0) ∧
      ((CreateSwapchain.scanQueueFamilies presentSupport 0 families acc).2 = -1 ∨
        (CreateSwapchain.scanQueueFamilies presentSupport 0 families acc).2 = 0)) := by
  refine ⟨rfl, rfl, rfl, by decide, ?_⟩
  intro presentSupport families
  induction families with
  | nil =>
    intro acc h1 h2
    exact ⟨h1, h2⟩
  | cons flags rest ih =>
    intro acc h1 h2
    obtain ⟨g, p⟩ := acc
    unfold CreateSwapchain.scanQueueFamilies
    apply ih
    · simp only
      split
      · exact Or.inr rfl
      · exact h1
    · simp only
      split
      · exact Or.inr rfl
      · exact h2

/-! ## Counting semaphores -/

theorem createdSemaphores_nil_of (l : List Effect)
    (h : ∀ e ∈ l, e.isCreateSemaphore = false) : createdSemaphores l = [] := by
  induction l with
  | nil => rfl
  | cons e rest ih =>
    have hrest := ih (fun e1 h1 => h e1 (List.mem_cons_of_mem _ h1))
    have he := h e (List.mem_cons_self _ _)
    cases e with
    | vkCreateSemaphore result semaphore => simp [Effect.isCreateSemaphore] at he
    | _ => simpa [createdSemaphores] using hrest

theorem held_le_length (l : List PerFrameData) : acquireSemaphoresHeld l ≤ l.length := by
  induction l with
  | nil => exact Nat.le_refl _
  | cons f rest ih =>
    simp only [acquireSemaphoresHeld, List.length_cons]
    split <;> omega

theorem held_set (l : List PerFrameData) :
    ∀ (i : Nat) (a b : PerFrameData), l[i]? = some a →
      acquireSemaphoresHeld (l.set i b) +
          (if a.swapchainAcquireSemaphore ≠ 0 then 1 else 0) =
        acquireSemaphoresHeld l + (if b.swapchainAcquireSemaphore ≠ 0 then 1 else 0) := by
  induction l with
  | nil =>
    intro i a b h
    simp at h
  | cons x rest ih =>
    intro i a b h
    cases i with
    | zero =>
      simp only [List.getElem?_cons_zero, Option.some.injEq] at h
      subst h
      simp only [List.set_cons_zero, acquireSemaphoresHeld]
      omega
    | succ i =>
      simp only [List.getElem?_cons_succ] at h
      have := ih i a b h
      simp only [List.set_cons_succ, acquireSemaphoresHeld]
      omega

theorem held_zero (l : List PerFrameData)
    (h : ∀ f ∈ l, f.swapchainAcquireSemaphore = 0) : acquireSemaphoresHeld l = 0 := by
  induction l with
  | nil => rfl
  | cons f rest ih =>
    simp only [acquireSemaphoresHeld, h f (List.mem_cons_self _ _), ne_eq, not_true_eq_false,
      if_false, ih (fun f1 h1 => h f1 (List.mem_cons_of_mem _ h1))]

/-- The semaphore a conforming `NextImage` obtains is not null, and what is
left of the pool holds non-null semaphores; either the pool was empty and the
call created it, or it came out of the pool and nothing was created. -/
theorem aquireSemaphore_count (s : Renderer) (dev : NextImageDevice) (sem : Handle)
    (hvalid : dev.Valid s) (hpool : ∀ h ∈ s.m_recycledSemaphores, h ≠ 0)
    (hsem : (NextImage.aquireSemaphore s dev.vkCreateSemaphore).out = .returned sem) :
    sem ≠ 0 ∧ (∀ h ∈ s.m_recycledSemaphores.dropLast, h ≠ 0) ∧
    ((s.m_recycledSemaphores = [] ∧ s.m_recycledSemaphores.length = 0 ∧
        (createdSemaphores
          (NextImage.aquireSemaphore s dev.vkCreateSemaphore).effects).length = 1 ∧
        s.m_recycledSemaphores.dropLast.length = 0) ∨
      (s.m_recycledSemaphores ≠ [] ∧
        createdSemaphores (NextImage.aquireSemaphore s dev.vkCreateSemaphore).effects = [] ∧
        (createdSemaphores
          (NextImage.aquireSemaphore s dev.vkCreateSemaphore).effects).length = 0 ∧
        s.m_recycledSemaphores.dropLast.length + 1 = s.m_recycledSemaphores.length)) := by
  have hdrop : ∀ h ∈ s.m_recycledSemaphores.dropLast, h ≠ 0 :=
    fun h hh => hpool h (List.dropLast_subset _ hh)
  rcases aquireSemaphore_cases s dev.vkCreateSemaphore with ⟨hnil, heff, hout⟩ |
    ⟨rest, back, hrest, heff, hout⟩
  · obtain ⟨hs, hc⟩ := hout sem hsem
    refine ⟨by rw [hs]; exact hvalid.1 hc, hdrop,
      Or.inl ⟨hnil, by simp [hnil], ?_, by simp [hnil]⟩⟩
    rw [heff]
    simp [createdSemaphores, hc]
  · rw [hout] at hsem
    simp only [Outcome.returned.injEq] at hsem
    subst hsem
    refine ⟨hpool back (by rw [hrest]; simp), hdrop,
      Or.inr ⟨by rw [hrest]; simp, ?_, ?_, ?_⟩⟩
    · rw [heff]
      rfl
    · rw [heff]
      rfl
    · rw [hrest]
      simp

/-- One `NextImage` with a conforming answer: the pool keeps holding non-null
semaphores only; the number of semaphores in the pool and in the slots grows by
the number created; it stays at most the number of slots plus one; and nothing
is created when the pool is not empty. -/
theorem count_step (s : Renderer) (dev : NextImageDevice) (hvalid : dev.Valid s)
    (hpool : ∀ h ∈ s.m_recycledSemaphores, h ≠ 0)
    (hbound : s.m_recycledSemaphores.length + acquireSemaphoresHeld s.m_perFrameData ≤
      s.m_perFrameData.length + 1) :
    (∀ h ∈ (NextImage s dev).state.m_recycledSemaphores, h ≠ 0) ∧
    (NextImage s dev).state.m_recycledSemaphores.length +
        acquireSemaphoresHeld (NextImage s dev).state.m_perFrameData =
      s.m_recycledSemaphores.length + acquireSemaphoresHeld s.m_perFrameData +
        (createdSemaphores (NextImage s dev).effects).length ∧
    (NextImage s dev).state.m_recycledSemaphores.length +
        acquireSemaphoresHeld (NextImage s dev).state.m_perFrameData ≤
      s.m_perFrameData.length + 1 ∧
    (s.m_recycledSemaphores ≠ [] → createdSemaphores (NextImage s dev).effects = []) := by
  have hheld := held_le_length s.m_perFrameData
  rcases nextImage_cases s dev with ⟨hnil, hc, heq⟩ | ⟨sem, hsem, ha, heq⟩ |
    ⟨sem, hsem, ha, hnone, heq⟩ | ⟨sem, i, frame, hsem, ha, hslot, heq⟩
  · have hcr : createdSemaphores (NextImage s dev).effects = [] := by
      rw [heq]
      simp [createdSemaphores, hc]
    have hst : (NextImage s dev).state = s := by rw [heq]
    rw [hcr, hst]
    exact ⟨hpool, rfl, hbound, fun _ => rfl⟩
  · obtain ⟨hne, hdrop, hcase⟩ := aquireSemaphore_count s dev sem hvalid hpool hsem
    have hcr : createdSemaphores (NextImage s dev).effects =
        createdSemaphores (NextImage.aquireSemaphore s dev.vkCreateSemaphore).effects := by
      rw [heq]
      simp only [createdSemaphores_append]
      simp [createdSemaphores]
    have hp : (NextImage s dev).state.m_recycledSemaphores =
        s.m_recycledSemaphores.dropLast ++ [sem] := by rw [heq]
    have hf : (NextImage s dev).state.m_perFrameData = s.m_perFrameData := by rw [heq]
    rw [hcr, hp, hf, List.length_append, List.length_singleton]
    refine ⟨?_, ?_, ?_, ?_⟩
    · intro h hin
      rcases List.mem_append.mp hin with hq | hq
      · exact hdrop h hq
      · rw [List.mem_singleton.mp hq]
        exact hne
    · rcases hcase with ⟨_, h0, h1, h2⟩ | ⟨_, _, h1, h2⟩ <;> omega
    · rcases hcase with ⟨_, h0, h1, h2⟩ | ⟨_, _, h1, h2⟩ <;> omega
    · intro hne1
      rcases hcase with ⟨hnil, _, _, _⟩ | ⟨_, h0, _, _⟩
      · exact absurd hnil hne1
      · exact h0
  · have := hvalid.2 ha
    rw [List.getElem?_eq_none_iff] at hnone
    omega
  · obtain ⟨hne, hdrop, hcase⟩ := aquireSemaphore_count s dev sem hvalid hpool hsem
    have hcr : createdSemaphores (NextImage s dev).effects =
        createdSemaphores (NextImage.aquireSemaphore s dev.vkCreateSemaphore).effects := by
      rw [heq]
      simp only [createdSemaphores_append]
      have h1 : createdSemaphores
          (if frame.queueSubmitFence ≠ 0 then
            [Effect.vkWaitForFences frame.queueSubmitFence true UINT64_MAX,
              .vkResetFences frame.queueSubmitFence]
           else []) = [] := by
        split <;> rfl
      have h2 : createdSemaphores
          (if frame.primaryCmdPool ≠ 0 then [Effect.vkResetCommandPool frame.primaryCmdPool 0]
           else []) = [] := by
        split <;> rfl
      have h3 : createdSemaphores
          (if frame.swapchainAcquireSemaphore ≠ 0 then
            [Effect.push_back frame.swapchainAcquireSemaphore]
           else []) = [] := by
        split <;> rfl
      rw [h1, h2, h3]
      simp [createdSemaphores]
    have hp : (NextImage s dev).state.m_recycledSemaphores =
        if frame.swapchainAcquireSemaphore ≠ 0 then
          s.m_recycledSemaphores.dropLast ++ [frame.swapchainAcquireSemaphore]
        else s.m_recycledSemaphores.dropLast := by rw [heq]
    have hf : (NextImage s dev).state.m_perFrameData =
        s.m_perFrameData.set i { frame with swapchainAcquireSemaphore := sem } := by rw [heq]
    have hcount := held_set s.m_perFrameData i frame
      { frame with swapchainAcquireSemaphore := sem } hslot
    rw [if_pos hne] at hcount
    rw [hcr, hp, hf]
    by_cases hold : frame.swapchainAcquireSemaphore ≠ 0
    · rw [if_pos hold] at hcount ⊢
      rw [List.length_append, List.length_singleton]
      refine ⟨?_, ?_, ?_, ?_⟩
      · intro h hin
        rcases List.mem_append.mp hin with hq | hq
        · exact hdrop h hq
        · rw [List.mem_singleton.mp hq]
          exact hold
      · rcases hcase with ⟨_, h0, h1, h2⟩ | ⟨_, _, h1, h2⟩ <;> omega
      · rcases hcase with ⟨_, h0, h1, h2⟩ | ⟨_, _, h1, h2⟩ <;> omega
      · intro hne1
        rcases hcase with ⟨hnil, _, _, _⟩ | ⟨_, h0, _, _⟩
        · exact absurd hnil hne1
        · exact h0
    · rw [if_neg hold] at hcount ⊢
      refine ⟨hdrop, ?_, ?_, ?_⟩
      · rcases hcase with ⟨_, h0, h1, h2⟩ | ⟨_, _, h1, h2⟩ <;> omega
      · rcases hcase with ⟨_, h0, h1, h2⟩ | ⟨_, _, h1, h2⟩ <;> omega
      · intro hne1
        rcases hcase with ⟨hnil, _, _, _⟩ | ⟨_, h0, _, _⟩
        · exact absurd hnil hne1
        · exact h0

theorem validAcquireRun_count (s0 : Renderer) (hpool : s0.m_recycledSemaphores = [])
    (hacq : ∀ f ∈ s0.m_perFrameData, f.swapchainAcquireSemaphore = 0)
    (history : List Effect) (s : Renderer) (hrun : ValidAcquireRun s0 history s) :
    (createdSemaphores history).length =
      s.m_recycledSemaphores.length + acquireSemaphoresHeld s.m_perFrameData ∧
    s.m_recycledSemaphores.length + acquireSemaphoresHeld s.m_perFrameData ≤
      s.m_perFrameData.length + 1 ∧
    (∀ h ∈ s.m_recycledSemaphores, h ≠ 0) ∧
    s.m_perFrameData.length = s0.m_perFrameData.length := by
  induction hrun with
  | start =>
    rw [hpool, held_zero _ hacq]
    exact ⟨rfl, by simp, by simp, rfl⟩
  | @next history1 s1 _ dev hvalid ih =>
    obtain ⟨h1, h2, h3, h4⟩ := ih
    obtain ⟨c1, c2, c3, _⟩ := count_step s1 dev hvalid h3 h2
    have hlen := (nextImage_kept s1 dev).1
    refine ⟨?_, ?_, c1, hlen.trans h4⟩
    · rw [createdSemaphores_append, List.length_append, h1, c2]
    · rw [hlen]
      exact c3

/-- C17. Start from an empty recycled pool and slots without acquire semaphore,
on a surface with `N` slots, and let the driver answer conformingly (a created
semaphore is not null, an acquired index is below `N`). After any sequence of
`NextImage` calls, successful or not, the number of semaphores created so far
is the size of the pool plus the number of slots holding an acquire semaphore,
and it is at most `N + 1`; a `NextImage` creates no semaphore when the pool is
not empty. -/
theorem C17_semaphores_bounded (s0 : Renderer) (hpool : s0.m_recycledSemaphores = [])
    (hacq : ∀ f ∈ s0.m_perFrameData, f.swapchainAcquireSemaphore = 0)
    (history : List Effect) (s : Renderer) (hrun : ValidAcquireRun s0 history s) :
    (createdSemaphores history).length =
      s.m_recycledSemaphores.length + acquireSemaphoresHeld s.m_perFrameData ∧
    s.m_recycledSemaphores.length + acquireSemaphoresHeld s.m_perFrameData ≤
      s0.m_perFrameData.length + 1 ∧
    (createdSemaphores history).length ≤ s0.m_perFrameData.length + 1 ∧
    (∀ dev : NextImageDevice, dev.Valid s → s.m_recycledSemaphores ≠ [] →
      createdSemaphores (NextImage s dev).effects = []) := by
  obtain ⟨h1, h2, h3, h4⟩ := validAcquireRun_count s0 hpool hacq history s hrun
  rw [h4] at h2
  refine ⟨h1, h2, by rw [h1]; exact h2, ?_⟩
  intro dev hvalid hne
  exact (count_step s dev hvalid h3 (by rw [h4]; exact h2)).2.2.2 hne

/-- C17 on the three-slot renderer: after a failed and a successful
`NextImage`, one semaphore has been created and it is held by slot 1. -/
theorem C17_semaphores_bounded_witness :
    (createdSemaphores ([] ++
        (NextImage threeSlots ⟨(VK_SUCCESS, 50), (VK_ERROR_OUT_OF_DATE_KHR, 0)⟩).effects ++
        (NextImage
          (NextImage threeSlots ⟨(VK_SUCCESS, 50), (VK_ERROR_OUT_OF_DATE_KHR, 0)⟩).state
          ⟨(VK_SUCCESS, 51), (VK_SUCCESS, 1)⟩).effects)).length ≤ 3 + 1 ∧
    createdSemaphores ([] ++
        (NextImage threeSlots ⟨(VK_SUCCESS, 50), (VK_ERROR_OUT_OF_DATE_KHR, 0)⟩).effects ++
        (NextImage
          (NextImage threeSlots ⟨(VK_SUCCESS, 50), (VK_ERROR_OUT_OF_DATE_KHR, 0)⟩).state
          ⟨(VK_SUCCESS, 51), (VK_SUCCESS, 1)⟩).effects) = [50] :=
  have h := C17_semaphores_bounded threeSlots rfl (by decide) _ _
    (ValidAcquireRun.next
      (ValidAcquireRun.next ValidAcquireRun.start
        ⟨(VK_SUCCESS, 50), (VK_ERROR_OUT_OF_DATE_KHR, 0)⟩
        ⟨fun _ => by decide, fun h => absurd h (by decide)⟩)
      ⟨(VK_SUCCESS, 51), (VK_SUCCESS, 1)⟩ ⟨fun _ => by decide, fun _ => by decide⟩)
  ⟨h.2.2.1, rfl⟩

/-! ## What `Shutdown` destroys -/

/-- The calls of `DestroyPerFrameData`, in terms of the slot it is given. -/
theorem destroyPerFrameData_effects (p : PerFrameData) :
    (DestroyPerFrameData p).2 =
      (if p.queueSubmitFence ≠ 0 then [Effect.vkDestroyFence p.queueSubmitFence] else []) ++
      (if p.primaryCmdBuffer ≠ 0 then
        [Effect.vkFreeCommandBuffers p.primaryCmdPool p.primaryCmdBuffer] else []) ++
      (if p.primaryCmdPool ≠ 0 then [Effect.vkDestroyCommandPool p.primaryCmdPool] else []) ++
      (if p.swapchainAcquireSemaphore ≠ 0 then
        [Effect.vkDestroySemaphore p.swapchainAcquireSemaphore] else []) ++
      (if p.swapchainReleaseSemaphore ≠ 0 then
        [Effect.vkDestroySemaphore p.swapchainReleaseSemaphore] else []) := by
  obtain ⟨fence, pool, buffer, acquire, release⟩ := p
  unfold DestroyPerFrameData
  by_cases h1 : fence = 0 <;> by_cases h2 : buffer = 0 <;> by_cases h3 : pool = 0 <;>
    by_cases h4 : acquire = 0 <;> by_cases h5 : release = 0 <;>
    simp [h1, h2, h3, h4, h5]

/-- `Shutdown` destroys every fence, command pool and semaphore that a slot
holds, and every semaphore of the recycled pool. -/
theorem shutdown_destroys (s : Renderer) :
    (∀ f ∈ s.m_perFrameData,
      (f.queueSubmitFence ≠ 0 →
        Effect.vkDestroyFence f.queueSubmitFence ∈ (Shutdown s).effects) ∧
      (f.primaryCmdPool ≠ 0 →
        Effect.vkDestroyCommandPool f.primaryCmdPool ∈ (Shutdown s).effects) ∧
      (f.swapchainAcquireSemaphore ≠ 0 →
        Effect.vkDestroySemaphore f.swapchainAcquireSemaphore ∈ (Shutdown s).effects) ∧
      (f.swapchainReleaseSemaphore ≠ 0 →
        Effect.vkDestroySemaphore f.swapchainReleaseSemaphore ∈ (Shutdown s).effects)) ∧
    (∀ h ∈ s.m_recycledSemaphores, Effect.vkDestroySemaphore h ∈ (Shutdown s).effects) := by
  have hframes : ∀ (l : List PerFrameData), ∀ f ∈ l, ∀ e ∈ (DestroyPerFrameData f).2,
      e ∈ Shutdown.destroyFrames l := by
    intro l
    induction l with
    | nil =>
      intro f hf
      simp at hf
    | cons x rest ih =>
      intro f hf e he
      simp only [Shutdown.destroyFrames, List.mem_append]
      rcases List.mem_cons.mp hf with h | h
      · subst h
        exact Or.inl he
      · exact Or.inr (ih f h e he)
  have hin : ∀ e, e ∈ Shutdown.destroyFrames s.m_perFrameData → e ∈ (Shutdown s).effects := by
    intro e he
    simp only [Shutdown, List.mem_append]
    simp only [he, or_true, true_or]
  constructor
  · intro f hf
    refine ⟨?_, ?_, ?_, ?_⟩ <;> intro h0 <;> apply hin <;> apply hframes _ f hf <;>
      rw [destroyPerFrameData_effects] <;> simp [h0]
  · intro h hh
    simp only [Shutdown, List.mem_append, List.mem_map]
    have : ∃ a, a ∈ s.m_recycledSemaphores ∧ Effect.vkDestroySemaphore a =
        Effect.vkDestroySemaphore h := ⟨h, hh, rfl⟩
    simp only [this, or_true, true_or]

theorem mem_createdFences (h : Handle) (l : List Effect) :
    h ∈ createdFences l → ∃ flags, Effect.vkCreateFence flags VK_SUCCESS h ∈ l := by
  induction l with
  | nil =>
    intro hh
    simp [createdFences] at hh
  | cons e rest ih =>
    intro hh
    cases e with
    | vkCreateFence flags result fence =>
      simp only [createdFences] at hh
      split at hh
      · rename_i hres
        rcases List.mem_cons.mp hh with h1 | h1
        · exact ⟨flags, by rw [h1, hres]; exact List.mem_cons_self _ _⟩
        · obtain ⟨fl, hfl⟩ := ih h1
          exact ⟨fl, List.mem_cons_of_mem _ hfl⟩
      · obtain ⟨fl, hfl⟩ := ih hh
        exact ⟨fl, List.mem_cons_of_mem _ hfl⟩
    | _ =>
      simp only [createdFences] at hh
      obtain ⟨fl, hfl⟩ := ih hh
      exact ⟨fl, List.mem_cons_of_mem _ hfl⟩

theorem mem_createdCommandPools (h : Handle) (l : List Effect) :
    h ∈ createdCommandPools l →
      ∃ flags family, Effect.vkCreateCommandPool flags family VK_SUCCESS h ∈ l := by
  induction l with
  | nil =>
    intro hh
    simp [createdCommandPools] at hh
  | cons e rest ih =>
    intro hh
    cases e with
    | vkCreateCommandPool flags family result pool =>
      simp only [createdCommandPools] at hh
      split at hh
      · rename_i hres
        rcases List.mem_cons.mp hh with h1 | h1
        · exact ⟨flags, family, by rw [h1, hres]; exact List.mem_cons_self _ _⟩
        · obtain ⟨fl, fam, hfl⟩ := ih h1
          exact ⟨fl, fam, List.mem_cons_of_mem _ hfl⟩
      · obtain ⟨fl, fam, hfl⟩ := ih hh
        exact ⟨fl, fam, List.mem_cons_of_mem _ hfl⟩
    | _ =>
      simp only [createdCommandPools] at hh
      obtain ⟨fl, fam, hfl⟩ := ih hh
      exact ⟨fl, fam, List.mem_cons_of_mem _ hfl⟩

theorem createdFences_append (a b : List Effect) :
    createdFences (a ++ b) = createdFences a ++ createdFences b := by
  induction a with
  | nil => rfl
  | cons e rest ih =>
    cases e with
    | vkCreateFence flags result fence =>
      simp only [List.cons_append, createdFences]
      split <;> simp [ih]
    | _ => simpa [createdFences] using ih

theorem createdCommandPools_append (a b : List Effect) :
    createdCommandPools (a ++ b) = createdCommandPools a ++ createdCommandPools b := by
  induction a with
  | nil => rfl
  | cons e rest ih =>
    cases e with
    | vkCreateCommandPool flags family result pool =>
      simp only [List.cons_append, createdCommandPools]
      split <;> simp [ih]
    | _ => simpa [createdCommandPools] using ih

theorem createdFences_nil_of (l : List Effect) (h : ∀ e ∈ l, e.isRecreation = false) :
    createdFences l = [] ∧ createdCommandPools l = [] := by
  induction l with
  | nil => exact ⟨rfl, rfl⟩
  | cons e rest ih =>
    have hrest := ih (fun e1 h1 => h e1 (List.mem_cons_of_mem _ h1))
    have he := h e (List.mem_cons_self _ _)
    cases e with
    | vkCreateFence flags result fence => simp [Effect.isRecreation] at he
    | vkCreateCommandPool flags family result pool => simp [Effect.isRecreation] at he
    | _ => simpa [createdFences, createdCommandPools] using hrest

/-- The fences and command pools that the `InitPerFrameData` loop creates are
those the driver wrote for the slots; it creates no semaphore. -/
theorem initLoop_created (fam : Int) (dev : Nat → PerFrameDevice) :
    ∀ (frames : List PerFrameData) (i : Nat),
      (CreateSwapchain.initLoop fam dev i frames).2.2 = .returned () →
      ∀ e ∈ (CreateSwapchain.initLoop fam dev i frames).2.1,
        e.isCreateSemaphore = false ∧
        (∀ flags result fence, e = .vkCreateFence flags result fence →
          ∃ k, k < frames.length ∧ fence = (dev (i + k)).vkCreateFence.2) ∧
        (∀ flags family result pool, e = .vkCreateCommandPool flags family result pool →
          ∃ k, k < frames.length ∧ pool = (dev (i + k)).vkCreateCommandPool.2) := by
  intro frames
  induction frames with
  | nil =>
    intro i _ e he
    simp [CreateSwapchain.initLoop] at he
  | cons p rest ih =>
    intro i h
    unfold CreateSwapchain.initLoop at h ⊢
    rcases hinit : InitPerFrameData fam p (dev i) with ⟨p1, effects, out⟩
    rw [hinit] at h
    cases out with
    | raised msg => simp at h
    | undefined => simp at h
    | returned u =>
      simp only at h ⊢
      have hp := initPerFrameData_returned fam p (dev i) (by rw [hinit])
      rw [hinit] at hp
      obtain ⟨_, _, _, heff⟩ := hp
      simp only at heff
      have hall := ih (i + 1) h
      intro e he
      rcases List.mem_append.mp he with hq | hq
      · rw [heff] at hq
        simp only [List.mem_cons, List.mem_singleton, List.not_mem_nil, or_false] at hq
        rcases hq with hq | hq | hq <;> subst hq
        · refine ⟨rfl, ?_, fun _ _ _ _ hc => by simp at hc⟩
          intro flags result fence hcf
          simp only [Effect.vkCreateFence.injEq] at hcf
          exact ⟨0, by simp, hcf.2.2.symm⟩
        · refine ⟨rfl, fun _ _ _ hc => by simp at hc, ?_⟩
          intro flags family result pool hcp
          simp only [Effect.vkCreateCommandPool.injEq] at hcp
          exact ⟨0, by simp, hcp.2.2.2.symm⟩
        · exact ⟨rfl, fun _ _ _ hc => by simp at hc, fun _ _ _ _ hc => by simp at hc⟩
      · obtain ⟨h1, h2, h3⟩ := hall e hq
        refine ⟨h1, ?_, ?_⟩
        · intro flags result fence hcf
          obtain ⟨k, hk, hf⟩ := h2 flags result fence hcf
          exact ⟨k + 1, by simp [hk], by rw [hf, show i + 1 + k = i + (k + 1) by omega]⟩
        · intro flags family result pool hcp
          obtain ⟨k, hk, hf⟩ := h3 flags family result pool hcp
          exact ⟨k + 1, by simp [hk], by rw [hf, show i + 1 + k = i + (k + 1) by omega]⟩

/-- Every fence and command pool created by a `CreateSwapchain` that returns is
the one the driver wrote for a slot, and no semaphore is created. -/
theorem createSwapchain_created (r : Renderer) (dev : SwapchainDevice) (s : Renderer)
    (h : Built r dev s) :
    ∀ e ∈ (CreateSwapchain r dev).effects,
      e.isCreateSemaphore = false ∧
      (∀ flags result fence, e = .vkCreateFence flags result fence →
        ∃ k, k < dev.imageCount ∧ fence = (dev.perFrame k).vkCreateFence.2) ∧
      (∀ flags family result pool, e = .vkCreateCommandPool flags family result pool →
        ∃ k, k < dev.imageCount ∧ pool = (dev.perFrame k).vkCreateCommandPool.2) := by
  obtain ⟨hout, _⟩ := h
  unfold CreateSwapchain at hout ⊢
  simp only at hout ⊢
  split at hout
  · simp at hout
  · split at hout
    · simp at hout
    · split at hout
      · simp at hout
      · rename_i hg hp hc
        simp only [hg, hp, hc, if_false]
        split at hout
        · simp at hout
        · simp at hout
        · rename_i u hinit
          simp only [hinit]
          have hall := initLoop_created _ dev.perFrame
            (List.replicate dev.imageCount {}) 0 (by rw [hinit])
          intro e he
          simp only [List.cons_append, List.mem_cons, List.mem_append, List.not_mem_nil,
            or_false, List.nil_append] at he
          rcases he with he | he | he | he | he
          · subst he
            exact ⟨rfl, fun _ _ _ hc => by simp at hc, fun _ _ _ _ hc => by simp at hc⟩
          · subst he
            exact ⟨rfl, fun _ _ _ hc => by simp at hc, fun _ _ _ _ hc => by simp at hc⟩
          · subst he
            exact ⟨rfl, fun _ _ _ hc => by simp at hc, fun _ _ _ _ hc => by simp at hc⟩
          · have := hall e he
            simpa using this
          · obtain ⟨result, view, hv⟩ := viewLoop_effects _ _ _ _ e he
            subst hv
            exact ⟨rfl, fun _ _ _ hc => by simp at hc, fun _ _ _ _ hc => by simp at hc⟩

theorem pool_split (s : Renderer) (create : VkResult × Handle) (sem h : Handle)
    (hsem : (NextImage.aquireSemaphore s create).out = .returned sem)
    (hh : h ∈ s.m_recycledSemaphores) : h ∈ s.m_recycledSemaphores.dropLast ∨ h = sem := by
  rcases aquireSemaphore_cases s create with ⟨hnil, _, _⟩ | ⟨rest, back, hrest, _, hout⟩
  · rw [hnil] at hh
    simp at hh
  · rw [hout] at hsem
    simp only [Outcome.returned.injEq] at hsem
    rw [hrest] at hh ⊢
    rw [List.dropLast_concat]
    rcases List.mem_append.mp hh with h1 | h1
    · exact Or.inl h1
    · exact Or.inr ((List.mem_singleton.mp h1).trans hsem)

theorem mem_set_of_ne {α : Type} (l : List α) (i k : Nat) (x f : α) (hk : l[k]? = some f)
    (hne : k ≠ i) : f ∈ l.set i x :=
  List.getElem?_mem (by rw [List.getElem?_set_ne (fun e => hne e.symm)]; exact hk)

theorem mem_set_self {α : Type} (l : List α) (i : Nat) (x a : α) (hi : l[i]? = some a) :
    x ∈ l.set i x := by
  have hlt : i < l.length := (List.getElem?_eq_some_iff.mp hi).1
  exact List.getElem?_mem (show (l.set i x)[i]? = some x by
    simp only [List.getElem?_set, hlt, if_true])

/-- A non-null semaphore the renderer holds is still held after a conforming
`NextImage`, and so is the semaphore the call creates, which is not null. -/
theorem nextImage_holds (s : Renderer) (dev : NextImageDevice) (hvalid : dev.Valid s) :
    (∀ h, h ≠ 0 → HoldsSemaphore s h → HoldsSemaphore (NextImage s dev).state h) ∧
    (∀ h ∈ createdSemaphores (NextImage s dev).effects,
      h ≠ 0 ∧ HoldsSemaphore (NextImage s dev).state h) := by
  have hcreated : ∀ sem, (NextImage.aquireSemaphore s dev.vkCreateSemaphore).out =
      .returned sem → ∀ h ∈ createdSemaphores
        (NextImage.aquireSemaphore s dev.vkCreateSemaphore).effects, h = sem ∧ h ≠ 0 := by
    intro sem hsem h hh
    rcases aquireSemaphore_cases s dev.vkCreateSemaphore with ⟨_, heff, hout⟩ |
      ⟨rest, back, _, heff, _⟩
    · obtain ⟨hs, hc⟩ := hout sem hsem
      rw [heff] at hh
      simp only [createdSemaphores, hc, if_true, List.mem_singleton] at hh
      rw [hh]
      exact ⟨hs.symm, hvalid.1 hc⟩
    · rw [heff] at hh
      simp [createdSemaphores] at hh
  rcases nextImage_cases s dev with ⟨hnil, hc, heq⟩ | ⟨sem, hsem, ha, heq⟩ |
    ⟨sem, hsem, ha, hnone, heq⟩ | ⟨sem, i, frame, hsem, ha, hslot, heq⟩
  · rw [heq]
    refine ⟨fun h _ hh => hh, ?_⟩
    intro h hh
    simp [createdSemaphores, hc] at hh
  · have hcr : createdSemaphores (NextImage s dev).effects =
        createdSemaphores (NextImage.aquireSemaphore s dev.vkCreateSemaphore).effects := by
      rw [heq]
      simp only [createdSemaphores_append]
      simp [createdSemaphores]
    rw [hcr]
    rw [heq]
    constructor
    · intro h _ hh
      rcases hh with hp | hf
      · left
        rcases pool_split s _ sem h hsem hp with h1 | h1
        · exact List.mem_append_left _ h1
        · rw [h1]
          simp
      · exact Or.inr hf
    · intro h hh
      obtain ⟨h1, h2⟩ := hcreated sem hsem h hh
      refine ⟨h2, Or.inl ?_⟩
      rw [h1]
      simp
  · have := hvalid.2 ha
    rw [List.getElem?_eq_none_iff] at hnone
    omega
  · have hcr : createdSemaphores (NextImage s dev).effects =
        createdSemaphores (NextImage.aquireSemaphore s dev.vkCreateSemaphore).effects := by
      rw [heq]
      simp only [createdSemaphores_append]
      have h1 : createdSemaphores
          (if frame.queueSubmitFence ≠ 0 then
            [Effect.vkWaitForFences frame.queueSubmitFence true UINT64_MAX,
              .vkResetFences frame.queueSubmitFence]
           else []) = [] := by
        split <;> rfl
      have h2 : createdSemaphores
          (if frame.primaryCmdPool ≠ 0 then [Effect.vkResetCommandPool frame.primaryCmdPool 0]
           else []) = [] := by
        split <;> rfl
      have h3 : createdSemaphores
          (if frame.swapchainAcquireSemaphore ≠ 0 then
            [Effect.push_back frame.swapchainAcquireSemaphore]
           else []) = [] := by
        split <;> rfl
      rw [h1, h2, h3]
      simp [createdSemaphores]
    have hnew : HoldsSemaphore (NextImage s dev).state sem := by
      rw [heq]
      exact Or.inr ⟨_, mem_set_self _ i _ frame hslot, Or.inl rfl⟩
    rw [hcr]
    constructor
    · intro h h0 hh
      rcases hh with hp | ⟨f, hf, hfield⟩
      · rcases pool_split s _ sem h hsem hp with h1 | h1
        · rw [heq]
          left
          simp only
          split
          · exact List.mem_append_left _ h1
          · exact h1
        · rw [h1]
          exact hnew
      · obtain ⟨k, hk⟩ := List.mem_iff_getElem?.mp hf
        by_cases hki : k = i
        · subst hki
          rw [hslot] at hk
          simp only [Option.some.injEq] at hk
          subst hk
          rcases hfield with hacq | hrel
          · rw [heq]
            left
            have hold : frame.swapchainAcquireSemaphore ≠ 0 := by
              rw [hacq]
              exact h0
            simp only [hold, ne_eq, not_false_eq_true, if_true]
            rw [hacq]
            simp
          · rw [heq]
            exact Or.inr ⟨_, mem_set_self _ k _ frame hslot, Or.inr hrel⟩
        · rw [heq]
          exact Or.inr ⟨f, mem_set_of_ne _ i k _ f hk hki, hfield⟩
    · intro h hh
      obtain ⟨h1, h2⟩ := hcreated sem hsem h hh
      rw [h1]
      exact ⟨h1 ▸ h2, hnew⟩

/-- The three ways `Render` can go. -/
theorem render_cases (s : Renderer) (index : Nat) (dev : RenderDevice) :
    (∃ frame framebuffer, s.m_perFrameData[index]? = some frame ∧
      s.m_framebuffers[index]? = some framebuffer ∧ dev.vkEndCommandBuffer = VK_SUCCESS) ∨
    (∃ frame framebuffer, s.m_perFrameData[index]? = some frame ∧
      s.m_framebuffers[index]? = some framebuffer ∧ dev.vkEndCommandBuffer ≠ VK_SUCCESS) ∨
    Render s index dev = ⟨s, [], .undefined⟩ := by
  rcases Option.eq_none_or_eq_some (s.m_perFrameData[index]?) with hslot | ⟨frame, hslot⟩
  · right
    right
    unfold Render
    split
    · rename_i h1 h2
      rw [hslot] at h2
      simp at h2
    · rfl
  · rcases Option.eq_none_or_eq_some (s.m_framebuffers[index]?) with hfb | ⟨fb, hfb⟩
    · right
      right
      unfold Render
      split
      · rename_i h1 h2
        rw [hfb] at h1
        simp at h1
      · rfl
    · by_cases hend : dev.vkEndCommandBuffer = VK_SUCCESS
      · exact Or.inl ⟨frame, fb, hslot, hfb, hend⟩
      · exact Or.inr (Or.inl ⟨frame, fb, hslot, hfb, hend⟩)

theorem recording_creates_nothing (s : Renderer) (framebuffer cmd : Handle) :
    createdSemaphores (Render.recording s framebuffer cmd) = [] := rfl

/-- A non-null semaphore the renderer holds is still held after `Render`, and
so is the semaphore a conforming `Render` creates, which is not null. -/
theorem render_holds (s : Renderer) (index : Nat) (dev : RenderDevice) (hvalid : dev.Valid) :
    (∀ h, h ≠ 0 → HoldsSemaphore s h → HoldsSemaphore (Render s index dev).state h) ∧
    (∀ h ∈ createdSemaphores (Render s index dev).effects,
      h ≠ 0 ∧ HoldsSemaphore (Render s index dev).state h) := by
  rcases render_cases s index dev with ⟨frame, fb, hslot, hfb, hend⟩ |
    ⟨frame, fb, hslot, hfb, hend⟩ | heq
  · rw [render_ok s index dev frame fb hslot hfb hend]
    constructor
    · intro h h0 hh
      rcases hh with hp | ⟨f, hf, hfield⟩
      · exact Or.inl hp
      · obtain ⟨k, hk⟩ := List.mem_iff_getElem?.mp hf
        by_cases hki : k = index
        · subst hki
          rw [hslot] at hk
          simp only [Option.some.injEq] at hk
          subst hk
          refine Or.inr ⟨_, mem_set_self _ k _ frame hslot, ?_⟩
          rcases hfield with hacq | hrel
          · exact Or.inl hacq
          · right
            have hne : frame.swapchainReleaseSemaphore ≠ 0 := by
              rw [hrel]
              exact h0
            simp only [hne, if_false]
            exact hrel
        · exact Or.inr ⟨f, mem_set_of_ne _ index k _ f hk hki, hfield⟩
    · intro h hh
      simp only [createdSemaphores_append, recording_creates_nothing, List.nil_append] at hh
      have hsub : createdSemaphores
          [Effect.vkQueueSubmit s.m_deviceQueue
            { commandBuffers := [frame.primaryCmdBuffer]
              waitSemaphores := [frame.swapchainAcquireSemaphore]
              waitDstStageMask := [VK_PIPELINE_STAGE_COLOR_ATTACHMENT_OUTPUT_BIT]
              signalSemaphores :=
                [if frame.swapchainReleaseSemaphore = 0 then dev.vkCreateSemaphore.2
                  else frame.swapchainReleaseSemaphore] }
            frame.queueSubmitFence] = [] := rfl
      rw [hsub, List.append_nil] at hh
      by_cases hrel : frame.swapchainReleaseSemaphore = 0
      · simp only [hrel, if_true, createdSemaphores] at hh
        split at hh
        · rename_i hc
          simp only [List.mem_singleton] at hh
          rw [hh]
          refine ⟨hvalid hc, Or.inr ⟨_, mem_set_self _ index _ frame hslot, Or.inr ?_⟩⟩
          simp only [hrel, if_true]
        · simp at hh
      · simp only [hrel, if_false, createdSemaphores] at hh
        simp at hh
  · rw [render_raise s index dev frame fb hslot hfb hend]
    refine ⟨fun h _ hh => hh, ?_⟩
    intro h hh
    rw [recording_creates_nothing] at hh
    simp at hh
  · rw [heq]
    refine ⟨fun h _ hh => hh, ?_⟩
    intro h hh
    simp [createdSemaphores] at hh

theorem present_creates_nothing (s : Renderer) (index : Nat) (dev : VkResult) :
    createdSemaphores (Present s index dev).effects = [] := by
  unfold Present
  split <;> rfl

/-- Along a run of the frame loop every semaphore created is not null and is
held by the renderer, the run creates no fence and no command pool, and the
state is one reached by `NextImage`, `Render` and `Present` calls. -/
theorem frameRun_invariant (h0 : List Effect) (s0 : Renderer) (history : List Effect)
    (s : Renderer) (hrun : FrameRun h0 s0 history s)
    (hstart : ∀ h ∈ createdSemaphores h0, h ≠ 0 ∧ HoldsSemaphore s0 h) :
    (∀ h ∈ createdSemaphores history, h ≠ 0 ∧ HoldsSemaphore s h) ∧
    createdFences history = createdFences h0 ∧
    createdCommandPools history = createdCommandPools h0 ∧ Steps s0 s := by
  induction hrun with
  | start => exact ⟨hstart, rfl, rfl, Steps.refl _⟩
  | @nextImage history1 s1 _ dev hvalid ih =>
    obtain ⟨i1, i2, i3, i4⟩ := ih
    obtain ⟨hkeep, hnew⟩ := nextImage_holds s1 dev hvalid
    have hnone := createdFences_nil_of (NextImage s1 dev).effects (fun e he => by
      have := nextImage_effects_kind s1 dev e he
      cases e <;> first | rfl | simp [Effect.ofNextImage] at this)
    refine ⟨?_, by rw [createdFences_append, hnone.1, List.append_nil, i2],
      by rw [createdCommandPools_append, hnone.2, List.append_nil, i3], Steps.nextImage i4 dev⟩
    intro h hh
    rw [createdSemaphores_append] at hh
    rcases List.mem_append.mp hh with h1 | h1
    · exact ⟨(i1 h h1).1, hkeep h (i1 h h1).1 (i1 h h1).2⟩
    · exact hnew h h1
  | @render history1 s1 _ index dev hvalid hindex ih =>
    obtain ⟨i1, i2, i3, i4⟩ := ih
    obtain ⟨hkeep, hnew⟩ := render_holds s1 index dev hvalid
    have hnone := createdFences_nil_of (Render s1 index dev).effects (fun e he => by
      rcases render_effects_kind s1 index dev e he with this | this
      · cases e <;> first | rfl | simp [Effect.ofRenderPresent, Effect.isRecording] at this
      · cases e <;> first | rfl | simp [Effect.isSubmit] at this)
    refine ⟨?_, by rw [createdFences_append, hnone.1, List.append_nil, i2],
      by rw [createdCommandPools_append, hnone.2, List.append_nil, i3],
      Steps.render i4 index dev⟩
    intro h hh
    rw [createdSemaphores_append] at hh
    rcases List.mem_append.mp hh with h1 | h1
    · exact ⟨(i1 h h1).1, hkeep h (i1 h h1).1 (i1 h h1).2⟩
    · exact hnew h h1
  | @present history1 s1 _ index dev hindex ih =>
    obtain ⟨i1, i2, i3, i4⟩ := ih
    have hnone := createdFences_nil_of (Present s1 index dev).effects (fun e he => by
      have := present_effects_kind s1 index dev e he
      cases e <;> first | rfl | simp [Effect.ofRenderPresent, Effect.isRecording] at this)
    refine ⟨?_, by rw [createdFences_append, hnone.1, List.append_nil, i2],
      by rw [createdCommandPools_append, hnone.2, List.append_nil, i3],
      Steps.present i4 index dev⟩
    intro h hh
    rw [createdSemaphores_append, present_creates_nothing, List.append_nil] at hh
    rw [present_state]
    exact i1 h hh

/-- C16. Let `Init` have built the renderer with a conforming driver, and let
any sequence of `NextImage`, `Render` and `Present` calls follow, the driver
answering conformingly and the slot indices being in range. Then every fence
and every command pool created so far is held by a frame slot, every semaphore
created so far is held in the recycled pool or as the acquire or release
semaphore of a slot, and a `Shutdown` in that state makes the destroy call for
each of them. -/
theorem C16_no_leak (r : Renderer) (cdev : SwapchainDevice) (s0 : Renderer)
    (hdev : cdev.Conforms) (hinit : Initialised r cdev s0) (history : List Effect)
    (s : Renderer) (hrun : FrameRun (CreateSwapchain r cdev).effects s0 history s) :
    (∀ h ∈ createdFences history,
      (∃ f ∈ s.m_perFrameData, f.queueSubmitFence = h) ∧
        Effect.vkDestroyFence h ∈ (Shutdown s).effects) ∧
    (∀ h ∈ createdCommandPools history,
      (∃ f ∈ s.m_perFrameData, f.primaryCmdPool = h) ∧
        Effect.vkDestroyCommandPool h ∈ (Shutdown s).effects) ∧
    (∀ h ∈ createdSemaphores history,
      HoldsSemaphore s h ∧ Effect.vkDestroySemaphore h ∈ (Shutdown s).effects) := by
  obtain ⟨built, hb, hframes, hpool⟩ := hinit
  have hcreated := createSwapchain_created r cdev built hb
  have hnosem : createdSemaphores (CreateSwapchain r cdev).effects = [] :=
    createdSemaphores_nil_of _ (fun e he => (hcreated e he).1)
  obtain ⟨hsem, hfences, hpools, hsteps⟩ := frameRun_invariant _ s0 history s hrun
    (fun h hh => by rw [hnosem] at hh; simp at hh)
  have hkept : FramesKept built s :=
    steps_kept (steps_trans (Steps.others (Steps.refl built) s0 hframes hpool) hsteps)
  obtain ⟨_, hlen, hslots⟩ := built_frames r cdev built hb
  obtain ⟨hdestroy, hdestroyPool⟩ := shutdown_destroys s
  have hslot : ∀ k, k < cdev.imageCount → ∃ f ∈ s.m_perFrameData,
      f.queueSubmitFence = (cdev.perFrame k).vkCreateFence.2 ∧
      f.primaryCmdPool = (cdev.perFrame k).vkCreateCommandPool.2 ∧
      f.queueSubmitFence ≠ 0 ∧ f.primaryCmdPool ≠ 0 := by
    intro k hk
    obtain ⟨c1, c2, hbk⟩ := hslots k hk
    have hks : k < s.m_perFrameData.length := by
      rw [hkept.1, hlen]
      exact hk
    obtain ⟨f0, hf0, h1, h2, _⟩ := hkept.2 k _ (List.getElem?_eq_getElem hks)
    rw [hbk] at hf0
    simp only [Option.some.injEq] at hf0
    subst hf0
    simp only at h1 h2
    refine ⟨_, List.getElem_mem hks, h1, h2, ?_, ?_⟩
    · rw [h1]
      exact (hdev k).1 c1
    · rw [h2]
      exact (hdev k).2 c2
  refine ⟨?_, ?_, ?_⟩
  · intro h hh
    rw [hfences] at hh
    obtain ⟨flags, hin⟩ := mem_createdFences h _ hh
    obtain ⟨k, hk, hfk⟩ := (hcreated _ hin).2.1 flags VK_SUCCESS h rfl
    obtain ⟨f, hf, e1, _, n1, _⟩ := hslot k hk
    refine ⟨⟨f, hf, e1.trans hfk.symm⟩, ?_⟩
    have := (hdestroy f hf).1 n1
    rw [e1, ← hfk] at this
    exact this
  · intro h hh
    rw [hpools] at hh
    obtain ⟨flags, family, hin⟩ := mem_createdCommandPools h _ hh
    obtain ⟨k, hk, hfk⟩ := (hcreated _ hin).2.2 flags family VK_SUCCESS h rfl
    obtain ⟨f, hf, _, e2, _, n2⟩ := hslot k hk
    refine ⟨⟨f, hf, e2.trans hfk.symm⟩, ?_⟩
    have := (hdestroy f hf).2.1 n2
    rw [e2, ← hfk] at this
    exact this
  · intro h hh
    obtain ⟨h0, hheld⟩ := hsem h hh
    refine ⟨hheld, ?_⟩
    rcases hheld with hp | ⟨f, hf, hacq | hrel⟩
    · exact hdestroyPool h hp
    · have := (hdestroy f hf).2.2.1 (by rw [hacq]; exact h0)
      rw [hacq] at this
      exact this
    · have := (hdestroy f hf).2.2.2 (by rw [hrel]; exact h0)
      rw [hrel] at this
      exact this

/-- C16 on the three-slot renderer after a `NextImage` on slot 1 and the
`Render` of that slot: the created semaphores 50 and 52 and the fence 11 are
destroyed by `Shutdown`. -/
theorem C16_no_leak_witness :
    createdSemaphores ((CreateSwapchain {} threeImages).effects ++
        (NextImage threeSlots ⟨(VK_SUCCESS, 50), (VK_SUCCESS, 1)⟩).effects ++
        (Render (NextImage threeSlots ⟨(VK_SUCCESS, 50), (VK_SUCCESS, 1)⟩).state 1
          ⟨VK_SUCCESS, (VK_SUCCESS, 52), VK_SUCCESS⟩).effects) = [50, 52] ∧
    Effect.vkDestroySemaphore 50 ∈
      (Shutdown (Render (NextImage threeSlots ⟨(VK_SUCCESS, 50), (VK_SUCCESS, 1)⟩).state 1
        ⟨VK_SUCCESS, (VK_SUCCESS, 52), VK_SUCCESS⟩).state).effects ∧
    Effect.vkDestroySemaphore 52 ∈
      (Shutdown (Render (NextImage threeSlots ⟨(VK_SUCCESS, 50), (VK_SUCCESS, 1)⟩).state 1
        ⟨VK_SUCCESS, (VK_SUCCESS, 52), VK_SUCCESS⟩).state).effects ∧
    Effect.vkDestroyFence 11 ∈
      (Shutdown (Render (NextImage threeSlots ⟨(VK_SUCCESS, 50), (VK_SUCCESS, 1)⟩).state 1
        ⟨VK_SUCCESS, (VK_SUCCESS, 52), VK_SUCCESS⟩).state).effects :=
  have h := C16_no_leak {} threeImages threeSlots
    (fun i => ⟨fun _ => by simp [threeImages], fun _ => by simp [threeImages]⟩)
    ⟨(CreateSwapchain {} threeImages).state, ⟨rfl, rfl⟩, rfl, rfl⟩ _ _
    (FrameRun.render
      (FrameRun.nextImage FrameRun.start ⟨(VK_SUCCESS, 50), (VK_SUCCESS, 1)⟩
        ⟨fun _ => by decide, fun _ => by decide⟩)
      1 ⟨VK_SUCCESS, (VK_SUCCESS, 52), VK_SUCCESS⟩ (fun _ => by decide) (by decide))
  ⟨rfl, (h.2.2 50 (by decide)).2, (h.2.2 52 (by decide)).2, (h.1 11 (by decide)).2⟩

/-! ## Submissions in flight -/

/-- An effect that is not a queue submission adds no fence to those in
flight. -/
theorem inFlightStep_sublist (fences : List Handle) (e : Effect) (h : e.isSubmit = false) :
    (inFlightStep fences e).Sublist fences := by
  cases e <;>
    first
    | exact List.Sublist.refl _
    | exact List.filter_sublist _
    | simp [Effect.isSubmit] at h

theorem flight_sublist (es : List Effect) (hes : ∀ e ∈ es, e.isSubmit = false)
    (fences : List Handle) : (es.foldl inFlightStep fences).Sublist fences := by
  induction es generalizing fences with
  | nil => exact List.Sublist.refl _
  | cons e rest ih =>
    simp only [List.foldl_cons]
    exact (ih (fun x hx => hes x (List.mem_cons_of_mem _ hx)) _).trans
      (inFlightStep_sublist fences e (hes e (List.mem_cons_self _ _)))

/-- After effects with no submission and a wait on `fence`, no submission with
that fence is in flight. -/
theorem flight_waited (es : List Effect) (hes : ∀ e ∈ es, e.isSubmit = false) (fence : Handle)
    (w : Bool) (t : Nat) (hw : Effect.vkWaitForFences fence w t ∈ es) (fences : List Handle) :
    fence ∉ es.foldl inFlightStep fences := by
  induction es generalizing fences with
  | nil => simp at hw
  | cons e rest ih =>
    simp only [List.foldl_cons]
    have hrest : ∀ x ∈ rest, x.isSubmit = false := fun x hx =>
      hes x (List.mem_cons_of_mem _ hx)
    rcases List.mem_cons.mp hw with h | h
    · subst h
      intro hmem
      have hin := (flight_sublist rest hrest _).subset hmem
      simp [inFlightStep] at hin
    · exact ih hrest h _

/-- Effects `A ++ Y` in which a submission comes only after a wait on its
fence keep the fences in flight distinct and among `slots`, at every point. -/
theorem flight_paced (slots flying : List Handle) (hnodup : flying.Nodup)
    (hsub : ∀ h ∈ flying, h ∈ slots) (A Y : List Effect)
    (hA : ∀ e ∈ A, e.isSubmit = false)
    (hY : Y = [] ∨ ∃ q info fence Z, Y = Effect.vkQueueSubmit q info fence :: Z ∧
      fence ∈ slots ∧ Effect.vkWaitForFences fence true UINT64_MAX ∈ A ∧
      ∀ e ∈ Z, e.isSubmit = false)
    (p q : List Effect) (hsplit : A ++ Y = p ++ q) :
    (p.foldl inFlightStep flying).Nodup ∧ ∀ h ∈ p.foldl inFlightStep flying, h ∈ slots := by
  have hquiet : ∀ (es : List Effect) (l : List Handle), (∀ e ∈ es, e.isSubmit = false) →
      l.Nodup → (∀ h ∈ l, h ∈ slots) →
      (es.foldl inFlightStep l).Nodup ∧ ∀ h ∈ es.foldl inFlightStep l, h ∈ slots := by
    intro es l hes hn hs
    have hsl := flight_sublist es hes l
    exact ⟨hn.sublist hsl, fun h hh => hs h (hsl.subset hh)⟩
  rcases List.append_eq_append_iff.mp hsplit with ⟨a, hp, hq⟩ | ⟨c, hp, hq⟩
  · -- `p` is `A` followed by the start `a` of `Y`
    rcases hY with hY | ⟨qu, info, fence, Z, hY, hfence, hwait, hZ⟩
    · rw [hY] at hq
      have ha : a = [] := (List.append_eq_nil.mp hq.symm).1
      rw [hp, ha, List.append_nil]
      exact hquiet A flying hA hnodup hsub
    · cases a with
      | nil =>
        rw [hp, List.append_nil]
        exact hquiet A flying hA hnodup hsub
      | cons x rest =>
        rw [hY] at hq
        simp only [List.cons_append, List.cons.injEq] at hq
        obtain ⟨hx, hrest⟩ := hq
        subst hx
        have hAq := hquiet A flying hA hnodup hsub
        have hnot := flight_waited A hA fence true UINT64_MAX hwait flying
        rw [hp, List.foldl_append, List.foldl_cons]
        refine hquiet rest _ ?_ ?_ ?_
        · intro e he
          exact hZ e (by rw [hrest]; exact List.mem_append_left _ he)
        · show (fence :: A.foldl inFlightStep flying).Nodup
          exact List.nodup_cons.mpr ⟨hnot, hAq.1⟩
        · intro h hh
          have hh1 : h ∈ fence :: A.foldl inFlightStep flying := hh
          rcases List.mem_cons.mp hh1 with h1 | h1
          · rw [h1]
            exact hfence
          · exact hAq.2 h h1
  · -- `p` is a start of `A`
    refine hquiet p flying ?_ hnodup hsub
    intro e he
    exact hA e (by rw [hp]; exact List.mem_append_left _ he)

theorem ofNextImage_not_submit (e : Effect) (h : e.ofNextImage = true) : e.isSubmit = false := by
  cases e <;> first | rfl | simp [Effect.ofNextImage] at h

theorem ofRenderPresent_not_submit (e : Effect) (h : e.ofRenderPresent = true) :
    e.isSubmit = false := by
  cases e <;> first | rfl | simp [Effect.ofRenderPresent, Effect.isRecording] at h

/-- The effects of `Render` are effects that are no submission, followed when
it returns by the one submission, with the fence of the slot. -/
theorem render_shape (s : Renderer) (index : Nat) (dev : RenderDevice) :
    ∃ R : List Effect, (∀ e ∈ R, e.isSubmit = false) ∧
      ((Render s index dev).effects = R ∨
        ∃ frame info, s.m_perFrameData[index]? = some frame ∧
          (Render s index dev).effects =
            R ++ [.vkQueueSubmit s.m_deviceQueue info frame.queueSubmitFence]) := by
  have hrec : ∀ (fb cmd : Handle), ∀ e ∈ Render.recording s fb cmd, e.isSubmit = false := by
    intro fb cmd e he
    simp only [Render.recording, List.mem_cons, List.mem_singleton, List.not_mem_nil,
      or_false] at he
    rcases he with h | h | h | h | h | h | h | h | h <;> subst h <;> rfl
  rcases render_cases s index dev with ⟨frame, fb, hslot, hfb, hend⟩ |
    ⟨frame, fb, hslot, hfb, hend⟩ | heq
  · rw [render_ok s index dev frame fb hslot hfb hend]
    refine ⟨Render.recording s fb frame.primaryCmdBuffer ++
      (if frame.swapchainReleaseSemaphore = 0 then
        [.vkCreateSemaphore dev.vkCreateSemaphore.1 dev.vkCreateSemaphore.2]
       else []), ?_, Or.inr ⟨frame, _, hslot, rfl⟩⟩
    intro e he
    rcases List.mem_append.mp he with hp | hp
    · exact hrec _ _ e hp
    · split at hp
      · simp only [List.mem_singleton] at hp
        subst hp
        rfl
      · simp at hp
  · rw [render_raise s index dev frame fb hslot hfb hend]
    exact ⟨_, hrec fb frame.primaryCmdBuffer, Or.inl rfl⟩
  · rw [heq]
    exact ⟨[], fun e he => by simp at he, Or.inl rfl⟩

/-- The effects of the part of `Update` after the acquire attempts: those
already emitted, then those of `Render` when the acquire succeeded, then
effects that are no submission. -/
theorem finish_effects_split (s : Renderer) (before : List Effect) (result : VkResult)
    (imageIndex : Nat) (dev : UpdateDevice) :
    ∃ T : List Effect, (∀ e ∈ T, e.isSubmit = false) ∧
      ((result ≠ VK_SUCCESS ∧ (Update.finish s before result imageIndex dev).effects =
          before ++ T) ∨
        (result = VK_SUCCESS ∧ (Update.finish s before result imageIndex dev).effects =
          before ++ (Render s imageIndex dev.render).effects ++ T)) := by
  have hpresent := present_effects_kind (Render s imageIndex dev.render).state imageIndex
    dev.present
  unfold Update.finish
  by_cases hr : result ≠ VK_SUCCESS
  · rw [if_pos hr]
    refine ⟨[.LOG "Could not get next image, idling..."], ?_, Or.inl ⟨hr, rfl⟩⟩
    intro e he
    simp only [List.mem_singleton] at he
    subst he
    rfl
  · rw [if_neg hr]
    have hr1 : result = VK_SUCCESS := not_not.mp hr
    simp only
    split
    · exact ⟨[], fun e he => by simp at he, Or.inr ⟨hr1, by rw [List.append_nil]⟩⟩
    · exact ⟨[], fun e he => by simp at he, Or.inr ⟨hr1, by rw [List.append_nil]⟩⟩
    · split
      · exact ⟨_, fun e he => ofRenderPresent_not_submit e (hpresent e he), Or.inr ⟨hr1, rfl⟩⟩
      · exact ⟨_, fun e he => ofRenderPresent_not_submit e (hpresent e he), Or.inr ⟨hr1, rfl⟩⟩
      · refine ⟨(Present (Render s imageIndex dev.render).state imageIndex dev.present).effects ++
          _, ?_, Or.inr ⟨hr1, by rw [List.append_assoc]⟩⟩
        intro e he
        rcases List.mem_append.mp he with hp | hp
        · exact ofRenderPresent_not_submit e (hpresent e hp)
        · split at hp
          · simp only [List.mem_singleton] at hp
            subst hp
            rfl
          · split at hp
            · simp only [List.mem_singleton] at hp
              subst hp
              rfl
            · simp at hp

/-- The effects of the part of `Update` after the acquire attempts, split at
the submission. -/
theorem finish_shape (s : Renderer) (before : List Effect) (result : VkResult)
    (imageIndex : Nat) (dev : UpdateDevice) (hbefore : ∀ e ∈ before, e.isSubmit = false) :
    ∃ A Y : List Effect, (Update.finish s before result imageIndex dev).effects = A ++ Y ∧
      (∀ e ∈ A, e.isSubmit = false) ∧ (∀ e ∈ before, e ∈ A) ∧
      (Y = [] ∨ ∃ frame info Z, result = VK_SUCCESS ∧
        s.m_perFrameData[imageIndex]? = some frame ∧
        Y = Effect.vkQueueSubmit s.m_deviceQueue info frame.queueSubmitFence :: Z ∧
        ∀ e ∈ Z, e.isSubmit = false) := by
  obtain ⟨T, hT, h⟩ := finish_effects_split s before result imageIndex dev
  rcases h with ⟨_, heq⟩ | ⟨hr, heq⟩
  · refine ⟨before ++ T, [], by rw [heq, List.append_nil], ?_,
      fun e he => List.mem_append_left _ he, Or.inl rfl⟩
    intro e he
    rcases List.mem_append.mp he with hp | hp
    · exact hbefore e hp
    · exact hT e hp
  · obtain ⟨R, hR, hrender⟩ := render_shape s imageIndex dev.render
    rcases hrender with hrender | ⟨frame, info, hslot, hrender⟩
    · refine ⟨before ++ R ++ T, [], by rw [heq, hrender, List.append_nil], ?_,
        fun e he => List.mem_append_left _ (List.mem_append_left _ he), Or.inl rfl⟩
      intro e he
      rcases List.mem_append.mp he with hp | hp
      · rcases List.mem_append.mp hp with hq | hq
        · exact hbefore e hq
        · exact hR e hq
      · exact hT e hp
    · refine ⟨before ++ R, Effect.vkQueueSubmit s.m_deviceQueue info frame.queueSubmitFence :: T,
        ?_, ?_, fun e he => List.mem_append_left _ he,
        Or.inr ⟨frame, info, T, hr, hslot, rfl, hT⟩⟩
      · rw [heq, hrender]
        simp only [List.append_assoc, List.singleton_append]
      · intro e he
        rcases List.mem_append.mp he with hp | hp
        · exact hbefore e hp
        · exact hR e hp

/-- A successful `NextImage` waits on the fence of the slot it acquired, when
the slot has one. -/
theorem nextImage_waits (s : Renderer) (dev : NextImageDevice) (index : Nat)
    (hout : (NextImage s dev).out = .returned (VK_SUCCESS, index)) (frame1 : PerFrameData)
    (hslot1 : (NextImage s dev).state.m_perFrameData[index]? = some frame1)
    (hfence : frame1.queueSubmitFence ≠ 0) :
    Effect.vkWaitForFences frame1.queueSubmitFence true UINT64_MAX ∈
      (NextImage s dev).effects := by
  rcases nextImage_cases s dev with ⟨_, _, heq⟩ | ⟨sem, _, hfail, heq⟩ | ⟨sem, _, _, _, heq⟩ |
    ⟨sem, i, frame, _, _, hslot, heq⟩
  · rw [heq] at hout
    simp at hout
  · rw [heq] at hout
    simp only [Outcome.returned.injEq, Prod.mk.injEq] at hout
    exact absurd hout.1 hfail
  · rw [heq] at hout
    simp at hout
  · rw [heq] at hout hslot1 ⊢
    simp only [Outcome.returned.injEq, Prod.mk.injEq, true_and] at hout
    subst hout
    have hi : i < s.m_perFrameData.length := (List.getElem?_eq_some_iff.mp hslot).1
    simp only [List.getElem?_set_self hi, Option.some.injEq] at hslot1
    subst hslot1
    simp only at hfence
    simp only [ne_eq, hfence, not_false_eq_true, if_true, List.mem_append, List.mem_cons,
      List.mem_singleton, true_or, or_true]

theorem kept_fence {s t : Renderer} (h : FramesKept s t) (k : Nat) (f : PerFrameData)
    (hf : t.m_perFrameData[k]? = some f) :
    ∃ f0 ∈ s.m_perFrameData, f0.queueSubmitFence = f.queueSubmitFence := by
  obtain ⟨f0, hf0, hsame, _, _⟩ := h.2 k f hf
  exact ⟨f0, List.getElem?_mem hf0, hsame.symm⟩

/-- After an acquire in a state `t` that has the slots of `s`, the rest of
`Update` submits at most once, with the fence of a slot of `s`, after the wait
on that fence. -/
theorem acquire_finish_shape (s t : Renderer) (hkept : FramesKept s t)
    (hready : ∀ frame ∈ s.m_perFrameData, frame.queueSubmitFence ≠ 0)
    (d : NextImageDevice) (dev : UpdateDevice) (before : List Effect)
    (hbefore : ∀ e ∈ before, e.isSubmit = false)
    (hin : ∀ e ∈ (NextImage t d).effects, e ∈ before) (result : VkResult) (index : Nat)
    (hout : (NextImage t d).out = .returned (result, index)) :
    ∃ A Y : List Effect,
      (Update.finish (NextImage t d).state before result index dev).effects = A ++ Y ∧
      (∀ e ∈ A, e.isSubmit = false) ∧
      (Y = [] ∨ ∃ q info fence Z, Y = Effect.vkQueueSubmit q info fence :: Z ∧
        (∃ frame ∈ s.m_perFrameData, frame.queueSubmitFence = fence) ∧
        Effect.vkWaitForFences fence true UINT64_MAX ∈ A ∧ ∀ e ∈ Z, e.isSubmit = false) := by
  obtain ⟨A, Y, heq, hA, hsub, hY⟩ :=
    finish_shape (NextImage t d).state before result index dev hbefore
  refine ⟨A, Y, heq, hA, ?_⟩
  rcases hY with hY | ⟨frame, info, Z, hr, hslot, hY, hZ⟩
  · exact Or.inl hY
  · right
    obtain ⟨f0, hf0, hsame⟩ :=
      kept_fence (framesKept_trans hkept (nextImage_kept t d)) index frame hslot
    have hne : frame.queueSubmitFence ≠ 0 := by
      rw [← hsame]
      exact hready f0 hf0
    rw [hr] at hout
    exact ⟨_, info, frame.queueSubmitFence, Z, hY, ⟨f0, hf0, hsame⟩,
      hsub _ (hin _ (nextImage_waits t d index hout frame hslot hne)), hZ⟩

/-- The effects of one `Update` from a state whose slots all have a fence:
at most one submission, with the fence of a slot, after the wait on that
fence. -/
theorem update_shape (s : Renderer) (dev : UpdateDevice)
    (hready : ∀ frame ∈ s.m_perFrameData, frame.queueSubmitFence ≠ 0) :
    ∃ A Y : List Effect, (Update s dev).effects = A ++ Y ∧
      (∀ e ∈ A, e.isSubmit = false) ∧
      (Y = [] ∨ ∃ q info fence Z, Y = Effect.vkQueueSubmit q info fence :: Z ∧
        (∃ frame ∈ s.m_perFrameData, frame.queueSubmitFence = fence) ∧
        Effect.vkWaitForFences fence true UINT64_MAX ∈ A ∧ ∀ e ∈ Z, e.isSubmit = false) := by
  have h1 : ∀ e ∈ (NextImage s dev.first).effects, e.isSubmit = false := fun e he =>
    ofNextImage_not_submit e (nextImage_effects_kind s dev.first e he)
  have h2 : ∀ e ∈ (NextImage (NextImage s dev.first).state dev.second).effects,
      e.isSubmit = false := fun e he =>
    ofNextImage_not_submit e (nextImage_effects_kind _ dev.second e he)
  have h12 : ∀ e ∈ (NextImage s dev.first).effects ++
      [Effect.LOG "Swapchain image suboptimal or out of date"] ++
      (NextImage (NextImage s dev.first).state dev.second).effects, e.isSubmit = false := by
    intro e he
    rcases List.mem_append.mp he with hp | hp
    · rcases List.mem_append.mp hp with hq | hq
      · exact h1 e hq
      · simp only [List.mem_singleton] at hq
        subst hq
        rfl
    · exact h2 e hp
  unfold Update
  simp only
  split
  · exact ⟨_, [], (List.append_nil _).symm, h1, Or.inl rfl⟩
  · exact ⟨_, [], (List.append_nil _).symm, h1, Or.inl rfl⟩
  · rename_i result imageIndex hout1
    split
    · split
      · exact ⟨_, [], (List.append_nil _).symm, h12, Or.inl rfl⟩
      · exact ⟨_, [], (List.append_nil _).symm, h12, Or.inl rfl⟩
      · rename_i result2 imageIndex2 hout2
        exact acquire_finish_shape s (NextImage s dev.first).state (nextImage_kept s dev.first)
          hready dev.second dev _ h12 (fun e he => List.mem_append_right _ he) result2
          imageIndex2 hout2
    · exact acquire_finish_shape s s (framesKept_refl s) hready dev.first dev _ h1
        (fun e he => he) result imageIndex hout1

/-- Along a run of `Update` ticks from the state `Init` leaves with a
conforming driver, at every point the fences of the submissions in flight are
distinct fences of slots. -/
theorem tickRun_invariant (r : Renderer) (cdev : SwapchainDevice) (s0 : Renderer)
    (hdev : cdev.Conforms) (hinit : Initialised r cdev s0) (history : List Effect)
    (s : Renderer) (hrun : TickRun s0 history s) :
    Steps s0 s ∧ ∀ p q : List Effect, history = p ++ q →
      (inFlight p).Nodup ∧
        ∀ h ∈ inFlight p, h ∈ s0.m_perFrameData.map (fun f => f.queueSubmitFence) := by
  obtain ⟨built, hb, hframes, hrecycled⟩ := hinit
  have hstart : Steps built s0 := Steps.others (Steps.refl built) s0 hframes hrecycled
  induction hrun with
  | start =>
    refine ⟨Steps.refl s0, ?_⟩
    intro p q hpq
    have hp : p = [] := (List.append_eq_nil.mp hpq.symm).1
    rw [hp]
    exact ⟨List.nodup_nil, fun h hh => by simp [inFlight] at hh⟩
  | @tick history1 s1 _ dev hdefined ih =>
    obtain ⟨hsteps, hinv⟩ := ih
    refine ⟨steps_trans hsteps (update_steps s1 dev), ?_⟩
    intro p q hpq
    rcases List.append_eq_append_iff.mp hpq with ⟨a, hp, hq⟩ | ⟨c, hp, hq⟩
    · have hready : ∀ frame ∈ s1.m_perFrameData, frame.queueSubmitFence ≠ 0 := by
        intro frame hframe
        obtain ⟨i, hi⟩ := List.getElem?_of_mem hframe
        exact (reachable_ready r cdev built s1 hdev hb (steps_trans hstart hsteps) i frame hi).1
      obtain ⟨A, Y, heq, hA, hY⟩ := update_shape s1 dev hready
      obtain ⟨hn, hs⟩ := hinv history1 [] (List.append_nil _).symm
      have hY1 : Y = [] ∨ ∃ qu info fence Z, Y = Effect.vkQueueSubmit qu info fence :: Z ∧
          fence ∈ s0.m_perFrameData.map (fun f => f.queueSubmitFence) ∧
          Effect.vkWaitForFences fence true UINT64_MAX ∈ A ∧
          ∀ e ∈ Z, e.isSubmit = false := by
        rcases hY with hY | ⟨qu, info, fence, Z, hY, ⟨frame, hframe, hfence⟩, hwait, hZ⟩
        · exact Or.inl hY
        · right
          obtain ⟨i, hi⟩ := List.getElem?_of_mem hframe
          obtain ⟨f0, hf0, hsame⟩ := kept_fence (steps_kept hsteps) i frame hi
          refine ⟨qu, info, fence, Z, hY, ?_, hwait, hZ⟩
          rw [← hfence, ← hsame]
          exact List.mem_map.mpr ⟨f0, hf0, rfl⟩
      have hfly := flight_paced (s0.m_perFrameData.map (fun f => f.queueSubmitFence))
        (inFlight history1) hn hs A Y hA hY1 a q (by rw [← heq, hq])
      rw [hp]
      unfold inFlight
      rw [List.foldl_append]
      exact hfly
    · exact hinv p c hp

/-- C11. Take any run of `Update` ticks with defined behaviour from the state
`Init` leaves with a conforming driver, and any point of it: `before` is what
the run has emitted up to that point. The submissions in flight at that point
are those whose fence has not been waited on since, and only `NextImage`
waits on fences. For every slot at most one submission with the fence of the
slot is in flight, every submission in flight has the fence of a slot, and the
number of submissions in flight is at most the number of slots, which is the
image count of the surface. -/
theorem C11_one_in_flight_per_slot (r : Renderer) (cdev : SwapchainDevice) (s0 : Renderer)
    (hdev : cdev.Conforms) (hinit : Initialised r cdev s0) (history : List Effect)
    (s : Renderer) (hrun : TickRun s0 history s) (before after : List Effect)
    (hpoint : history = before ++ after) :
    (∀ frame ∈ s0.m_perFrameData, (inFlight before).count frame.queueSubmitFence ≤ 1) ∧
    (∀ fence ∈ inFlight before, ∃ frame ∈ s0.m_perFrameData, frame.queueSubmitFence = fence) ∧
    (inFlight before).length ≤ s0.m_perFrameData.length ∧
    s0.m_perFrameData.length = cdev.imageCount := by
  obtain ⟨hn, hs⟩ := (tickRun_invariant r cdev s0 hdev hinit history s hrun).2 before after hpoint
  refine ⟨fun frame _ => List.nodup_iff_count_le_one.mp hn _, ?_, ?_, ?_⟩
  · intro fence hfence
    obtain ⟨f, hf, heq⟩ := List.mem_map.mp (hs fence hfence)
    exact ⟨f, hf, heq⟩
  · have hle := (List.subperm_of_subset hn hs).length_le
    rw [List.length_map] at hle
    exact hle
  · obtain ⟨built, hb, hframes, _⟩ := hinit
    rw [hframes]
    exact (built_frames r cdev built hb).2.1

/-- C11 on the three-slot renderer: after a tick that acquires image 1 and a
tick that acquires image 2, the submissions with the fences 12 and 11 are in
flight, one for each of two slots, and they are no more than the three
slots. -/
theorem C11_one_in_flight_per_slot_witness :
    inFlight ((Update threeSlots
        ⟨⟨(VK_SUCCESS, 50), (VK_SUCCESS, 1)⟩, ⟨(VK_SUCCESS, 50), (VK_SUCCESS, 1)⟩,
          ⟨VK_SUCCESS, (VK_SUCCESS, 52), VK_SUCCESS⟩, VK_SUCCESS⟩).effects ++
      (Update (Update threeSlots
        ⟨⟨(VK_SUCCESS, 50), (VK_SUCCESS, 1)⟩, ⟨(VK_SUCCESS, 50), (VK_SUCCESS, 1)⟩,
          ⟨VK_SUCCESS, (VK_SUCCESS, 52), VK_SUCCESS⟩, VK_SUCCESS⟩).state
        ⟨⟨(VK_SUCCESS, 51), (VK_SUCCESS, 2)⟩, ⟨(VK_SUCCESS, 51), (VK_SUCCESS, 2)⟩,
          ⟨VK_SUCCESS, (VK_SUCCESS, 53), VK_SUCCESS⟩, VK_SUCCESS⟩).effects) = [12, 11] ∧
    (inFlight ((Update threeSlots
        ⟨⟨(VK_SUCCESS, 50), (VK_SUCCESS, 1)⟩, ⟨(VK_SUCCESS, 50), (VK_SUCCESS, 1)⟩,
          ⟨VK_SUCCESS, (VK_SUCCESS, 52), VK_SUCCESS⟩, VK_SUCCESS⟩).effects ++
      (Update (Update threeSlots
        ⟨⟨(VK_SUCCESS, 50), (VK_SUCCESS, 1)⟩, ⟨(VK_SUCCESS, 50), (VK_SUCCESS, 1)⟩,
          ⟨VK_SUCCESS, (VK_SUCCESS, 52), VK_SUCCESS⟩, VK_SUCCESS⟩).state
        ⟨⟨(VK_SUCCESS, 51), (VK_SUCCESS, 2)⟩, ⟨(VK_SUCCESS, 51), (VK_SUCCESS, 2)⟩,
          ⟨VK_SUCCESS, (VK_SUCCESS, 53), VK_SUCCESS⟩, VK_SUCCESS⟩).effects)).length ≤
      threeSlots.m_perFrameData.length ∧
    threeSlots.m_perFrameData.length = 3 :=
  have h := C11_one_in_flight_per_slot {} threeImages threeSlots
    (fun i => ⟨fun _ => by simp [threeImages], fun _ => by simp [threeImages]⟩)
    ⟨(CreateSwapchain {} threeImages).state, ⟨rfl, rfl⟩, rfl, rfl⟩ _ _
    (TickRun.tick
      (TickRun.tick TickRun.start
        ⟨⟨(VK_SUCCESS, 50), (VK_SUCCESS, 1)⟩, ⟨(VK_SUCCESS, 50), (VK_SUCCESS, 1)⟩,
          ⟨VK_SUCCESS, (VK_SUCCESS, 52), VK_SUCCESS⟩, VK_SUCCESS⟩
        (by decide))
      ⟨⟨(VK_SUCCESS, 51), (VK_SUCCESS, 2)⟩, ⟨(VK_SUCCESS, 51), (VK_SUCCESS, 2)⟩,
        ⟨VK_SUCCESS, (VK_SUCCESS, 53), VK_SUCCESS⟩, VK_SUCCESS⟩
      (by decide))
    _ [] (List.append_nil _).symm
  ⟨by decide, h.2.2.1, h.2.2.2⟩

end HelloVulkan
